import Mathlib

/-!
Verification development for the vitest-vscode test-explorer bridge.

This file gives a shallow embedding of the two source modules
`src/testTree.ts` (class `TestTree`) and `src/runner/runner.ts`
(class `TestRunner` and its helper functions), and proves the behavioural
claims of the specification against that embedding.

Modelling conventions:
* JS `Map` objects become association lists (`alookup` / `ainsert` / `aerase`,
  with `ainsert` replacing in place like `Map.set`).
* `vscode.TestItem` objects become records stored in a heap keyed by their id;
  a `children` collection is the list of child ids on the parent record, and
  adding an item to a collection sets its `parent` field to the owning item's
  id (abstracting vscode's automatically maintained `parent` pointer).
  Removing a child from a collection does not clear the removed item's
  `parent` field (the extension's `recursiveDelete` reads `item.parent` after
  the removal, and works in production, so the pointer is modelled as stable).
* The side table of `testTreeData.ts` (not part of the sources) is
  modelled from the spec as a tagged variant keyed by item id (spec §9:
  "tagged-variant data attached by identity").
* JS numbers that matter only as line/column coordinates are `Int`
  (`JSNum` additionally models a possibly-NaN number where the code checks
  `Number.isNaN`); durations are opaque `Option Int` pass-through values.
* `pathe`'s `normalize` / `dirname` / `basename` and the `strip-ansi`
  package are external collaborators; they are modelled by executable
  functions with the documented behaviour on ordinary POSIX-style paths.
-/

namespace VV

/-! ### Association lists modelling JS `Map` -/

def alookup {α : Type} : List (String × α) → String → Option α
  | [], _ => none
  | (k, v) :: rest, key => if k = key then some v else alookup rest key

/-- `Map.set`: replace the binding in place if the key exists, else append. -/
def ainsert {α : Type} : List (String × α) → String → α → List (String × α)
  | [], key, v => [(key, v)]
  | (k, w) :: rest, key, v =>
      if k = key then (key, v) :: rest else (k, w) :: ainsert rest key v

/-- `Map.delete`: remove the binding for the key (a JS map has at most one
binding per key; states built through `ainsert` keep keys unique, so removing
every binding for the key is the same operation). -/
def aerase {α : Type} (l : List (String × α)) (key : String) : List (String × α) :=
  l.filter (fun kv => kv.1 ≠ key)

/-! ### Path helpers (model of the `pathe` package) -/

/-- Resolve `.`, `..` and empty segments, accumulator style. -/
def normSegs : List String → List String → List String
  | [], acc => acc.reverse
  | "" :: rest, acc => normSegs rest acc
  | "." :: rest, acc => normSegs rest acc
  | ".." :: rest, acc =>
      match acc with
      | [] => normSegs rest [".."]
      | ".." :: _ => normSegs rest (".." :: acc)
      | _ :: tl => normSegs rest tl
  | seg :: rest, acc => normSegs rest (seg :: acc)

/-- Split a character list into the slash-separated segments. -/
def splitSlashesAux (cur : List Char) : List Char → List String
  | [] => [String.mk cur.reverse]
  | c :: rest =>
      if c = '/' then String.mk cur.reverse :: splitSlashesAux [] rest
      else splitSlashesAux (c :: cur) rest

def splitSlashes (chars : List Char) : List String := splitSlashesAux [] chars

def isAbsolutePath (p : String) : Bool :=
  match p.toList with
  | '/' :: _ => true
  | _ => false

/-- Model of `pathe.normalize`: backslashes to slashes, collapse duplicate
separators, resolve `.` and `..`. -/
def normalize (p : String) : String :=
  let chars := p.toList.map (fun c => if c = '\\' then '/' else c)
  let isAbs := match chars with
               | '/' :: _ => true
               | _ => false
  let segs := normSegs (splitSlashes chars) []
  let segs := if isAbs then segs.dropWhile (fun x => x = "..") else segs
  let body := String.intercalate "/" segs
  if isAbs then "/" ++ body
  else if body = "" then "." else body

/-- Model of `pathe.dirname` on slash-separated paths. -/
def dirname (p : String) : String :=
  let r := p.toList.reverse
  let r1 := r.dropWhile (fun c => c = '/')
  if r1 = [] then (if isAbsolutePath p then "/" else ".")
  else
    let r2 := r1.dropWhile (fun c => c ≠ '/')
    let r3 := r2.dropWhile (fun c => c = '/')
    if r3 = [] then (if r2 = [] then "." else "/")
    else String.mk r3.reverse

/-- Model of `pathe.basename` on slash-separated paths. -/
def basename (p : String) : String :=
  let r := p.toList.reverse
  let r1 := r.dropWhile (fun c => c = '/')
  String.mk ((r1.takeWhile (fun c => c ≠ '/')).reverse)

/-- `Array.from(new Set(l))`: deduplicate keeping first occurrences. -/
def dedupFirstAux (seen : List String) : List String → List String
  | [] => []
  | x :: rest =>
      if x ∈ seen then dedupFirstAux seen rest
      else x :: dedupFirstAux (x :: seen) rest

def dedupFirst (l : List String) : List String := dedupFirstAux [] l

/-- JS `a || b` on an optional string (`undefined` and `""` are falsy). -/
def jsOr (a : Option String) (b : String) : String :=
  match a with
  | some s => if s = "" then b else s
  | none => b

/-! ### Data model: vitest tasks and results -/

/-- A JS number that may be `NaN` (checked with `Number.isNaN` in the code). -/
inductive JSNum : Type where
  | nan : JSNum
  | num (n : Int) : JSNum
deriving DecidableEq

def JSNum.isNaN : JSNum → Bool
  | .nan => true
  | .num _ => false

def JSNum.toInt : JSNum → Int
  | .nan => 0
  | .num n => n

/-- A 1-based `task.location` as reported by vitest. -/
structure TaskLocation : Type where
  line : Int
  column : Int
deriving DecidableEq

/-- One frame of `error.stacks` (vitest `ParsedStack`). -/
structure ParsedStack : Type where
  file : String
  line : JSNum
  column : JSNum
deriving DecidableEq

/-- A vitest `TestError`; `actual` / `expected` are the serialized values.
(`stackFrames` is the source's `stacks` field, renamed because `stacks` is a
reserved word in this environment.) -/
structure TestErr : Type where
  message : String
  stack : Option String
  actual : Option String
  expected : Option String
  stackFrames : Option (List ParsedStack)
deriving DecidableEq

/-- A vitest `TaskResult`; `duration` is an opaque pass-through value. -/
structure TaskResult : Type where
  state : String
  errors : Option (List TestErr)
  duration : Option Int
deriving DecidableEq

/-- A vitest `Task` (suite / test / custom); a task has a `tasks` field
(`'tasks' in task`) exactly when the last component is `some`. -/
inductive VTask : Type where
  | mk (id name ttype : String) (location : Option TaskLocation)
       (result : Option TaskResult) (mode : String)
       (tasks : Option (List VTask)) : VTask

def VTask.id : VTask → String
  | .mk i _ _ _ _ _ _ => i

def VTask.name : VTask → String
  | .mk _ n _ _ _ _ _ => n

def VTask.ttype : VTask → String
  | .mk _ _ t _ _ _ _ => t

def VTask.location : VTask → Option TaskLocation
  | .mk _ _ _ l _ _ _ => l

def VTask.result : VTask → Option TaskResult
  | .mk _ _ _ _ r _ _ => r

def VTask.mode : VTask → String
  | .mk _ _ _ _ _ m _ => m

def VTask.tasks : VTask → Option (List VTask)
  | .mk _ _ _ _ _ _ ts => ts

theorem VTask.sizeOf_tasks_lt {t : VTask} {sub : List VTask}
    (h : t.tasks = some sub) : sizeOf sub < sizeOf t := by
  cases t with
  | mk i n ty l r m ts =>
    cases ts with
    | none => simp [VTask.tasks] at h
    | some l' =>
      simp only [VTask.tasks, Option.some.injEq] at h
      subst h
      simp only [VTask.mk.sizeOf_spec, Option.some.sizeOf_spec]
      omega

theorem VTask.sizeOf_head_lt (t : VTask) (rest : List VTask) :
    sizeOf t < sizeOf (t :: rest) := by
  simp only [List.cons.sizeOf_spec]
  omega

theorem VTask.sizeOf_rest_lt (t : VTask) (rest : List VTask) :
    sizeOf rest < sizeOf (t :: rest) := by
  simp only [List.cons.sizeOf_spec]
  omega

/-- A vitest `File` report (as received by `collectFile`). -/
structure VFile : Type where
  id : String
  filepath : String
  projectName : Option String
  tasks : List VTask
  result : Option TaskResult

/-- The ids of the tasks of one level of a report. -/
def idsOf (tasks : List VTask) : List String := tasks.map VTask.id

/-- All task ids in a forest of tasks (the whole reported subtree). -/
def allIds : List VTask → List String
  | [] => []
  | t :: rest =>
      t.id :: ((match h : t.tasks with
                | some sub => allIds sub
                | none => []) ++ allIds rest)
termination_by l => sizeOf l
decreasing_by
  · exact Nat.lt_trans (VTask.sizeOf_tasks_lt h) (VTask.sizeOf_head_lt t rest)
  · exact VTask.sizeOf_rest_lt t rest

/-! ### Data model: test items and the tree state -/

/-- A `vscode.TestItem`, with its children collection and parent pointer. -/
structure VItem : Type where
  id : String
  label : String
  uri : Option String
  tags : List String
  error : Option String
  range : Option (Int × Int)
  sortText : Option String
  canResolveChildren : Bool
  busy : Bool
  parent : Option String
  children : List String
deriving DecidableEq

/-- Modelled from the spec: the side table of `testTreeData.ts` ("tagged-variant
data attached by identity", spec §9) distinguishing folder / file / suite /
test-case nodes; file data records the normalized filepath and project name,
suite/test data records the owning file item. -/
inductive TestData : Type where
  | folder : TestData
  | file (filepath : String) (project : String) : TestData
  | suite (fileId : String) : TestData
  | testCase (fileId : String) : TestData
deriving DecidableEq

/-- The collaborator handle (`VitestFolderAPI`), at its boundary. -/
structure ApiHandle : Type where
  tag : String
  workspaceFolder : String
deriving DecidableEq

/-- The mutable state of a `TestTree`: the item heap plus the indices held by
the class (`flatTestItems`, `fileItems`, `folderItems`, `testItemsByFile`)
and the `testTreeData` side table. -/
structure TreeState : Type where
  items : List (String × VItem)
  flatTestItems : List (String × String)
  fileItems : List (String × String)
  folderItems : List (String × String)
  testItemsByFile : List (String × List String)
  testData : List (String × TestData)
deriving DecidableEq

def emptyTreeState : TreeState :=
  { items := [], flatTestItems := [], fileItems := [], folderItems := [],
    testItemsByFile := [], testData := [] }

def defaultItem (id : String) : VItem :=
  { id := id, label := "", uri := none, tags := [], error := none,
    range := none, sortText := none, canResolveChildren := false,
    busy := false, parent := none, children := [] }

/-- `controller.createTestItem(id, label, uri)`. -/
def newTestItem (id label : String) (uri : Option String) : VItem :=
  { defaultItem id with label := label, uri := uri }

/-- The action of `modifyItem` on the item heap alone (used to reason about
compositions of item updates). -/
def aUpdate (l : List (String × VItem)) (i : String) (f : VItem → VItem) :
    List (String × VItem) :=
  match alookup l i with
  | some it => ainsert l i (f it)
  | none => l

def getItem? (s : TreeState) (id : String) : Option VItem :=
  alookup s.items id

def getItem (s : TreeState) (id : String) : VItem :=
  (getItem? s id).getD (defaultItem id)

def setItem (s : TreeState) (id : String) (it : VItem) : TreeState :=
  { s with items := ainsert s.items id it }

def modifyItem (s : TreeState) (id : String) (f : VItem → VItem) : TreeState :=
  match getItem? s id with
  | some it => setItem s id (f it)
  | none => s

def childrenOf (s : TreeState) (id : String) : List String :=
  (getItem s id).children

/-- `parent.children.add(child)`: append the child id if not already present,
and set the child's parent pointer to the owning item. -/
def childrenAdd (s : TreeState) (pid cid : String) : TreeState :=
  let s1 := modifyItem s pid fun it =>
    if cid ∈ it.children then it else { it with children := it.children ++ [cid] }
  modifyItem s1 cid fun it => { it with parent := some pid }

/-- `parent.children.delete(cid)`. -/
def childrenDelete (s : TreeState) (pid cid : String) : TreeState :=
  modifyItem s pid fun it =>
    { it with children := it.children.filter (fun x => x ≠ cid) }

/-- The pruning loop at the end of `collectTasks` (lines 318-323): delete every
child of `pid` whose id is not among `ids`. -/
def pruneChildren (s : TreeState) (pid : String) (ids : List String) : TreeState :=
  modifyItem s pid fun it =>
    { it with children := it.children.filter (fun c => decide (c ∈ ids)) }

/-! ### TestTree operations (from `src/testTree.ts`) -/

/-- `getFileTestItems(fsPath)` (lines 38-40). -/
def getFileTestItems (s : TreeState) (fsPath : String) : List String :=
  (alookup s.testItemsByFile (normalize fsPath)).getD []

/-- The tag merge `getOrCreateFolderTestItem` applies to a cached folder
(lines 153-156): append the api's tag unless already present. -/
def folderTagMerge (api : ApiHandle) (iid : String) (s : TreeState) : TreeState :=
  if api.tag ∈ (getItem s iid).tags then s
  else modifyItem s iid fun it => { it with tags := it.tags ++ [api.tag] }

/-- The folder-creation tail of `getOrCreateFolderTestItem` (lines 159-165),
given the already-resolved parent folder item. -/
def folderItemCreate (api : ApiHandle) (normalizedFolder parentId : String)
    (s : TreeState) : TreeState :=
  let folderFsPath := normalize normalizedFolder
  let item := { newTestItem folderFsPath (basename folderFsPath) (some normalizedFolder) with
                  canResolveChildren := false, tags := [api.tag] }
  let s := setItem s folderFsPath item
  let s := { s with testData := ainsert s.testData folderFsPath TestData.folder }
  let s := childrenAdd s parentId folderFsPath
  { s with folderItems := ainsert s.folderItems normalizedFolder folderFsPath }

/-- `getOrCreateFolderTestItem(api, normalizedFolder)` (lines 151-166).
The recursion climbs `dirname` until a cached folder is found; `fuel` bounds
that climb (the code relies on the workspace root being cached and loops
forever otherwise, so exhausted fuel returns `none`). -/
def getOrCreateFolderTestItem (api : ApiHandle) (fuel : Nat)
    (normalizedFolder : String) (s : TreeState) : Option (String × TreeState) :=
  match alookup s.folderItems normalizedFolder with
  | some iid => some (iid, folderTagMerge api iid s)
  | none =>
      match fuel with
      | 0 => none
      | fuel + 1 => do
          let (parentId, s) ← getOrCreateFolderTestItem api fuel (dirname normalizedFolder) s
          some (normalize normalizedFolder, folderItemCreate api normalizedFolder parentId s)

/-- The file-creation tail of `getOrCreateFileTestItem` (lines 125-148),
given the already-resolved parent folder item. -/
def fileItemCreate (api : ApiHandle) (project file parentId : String)
    (s : TreeState) : TreeState :=
  let normalizedFile := normalize file
  let fileId := normalizedFile ++ project
  let label := if project ≠ "" then "[" ++ project ++ "] " ++ basename file
               else basename file
  let item := { newTestItem fileId label (some file) with
                  tags := [api.tag], canResolveChildren := true }
  let s := setItem s fileId item
  let s := { s with testData := ainsert s.testData fileId (TestData.file normalizedFile project) }
  let s := childrenAdd s parentId fileId
  let s := { s with fileItems := ainsert s.fileItems fileId fileId }
  let cachedItems := (alookup s.testItemsByFile normalizedFile).getD []
  { s with testItemsByFile := ainsert s.testItemsByFile normalizedFile (cachedItems ++ [fileId]) }

/-- `getOrCreateFileTestItem(api, project, file)` (lines 118-149). -/
def getOrCreateFileTestItem (api : ApiHandle) (fuel : Nat)
    (project file : String) (s : TreeState) : Option (String × TreeState) :=
  let fileId := normalize file ++ project
  match alookup s.fileItems fileId with
  | some iid => some (iid, s)
  | none => do
      let (parentId, s) ← getOrCreateFolderTestItem api fuel (dirname file) s
      some (fileId, fileItemCreate api project file parentId s)

/-- The error string stored for a task with collection errors (line 310):
`task.result.errors.map(e => e.stack).join('\n')` (a missing stack joins
as the empty string, as JS `Array.join` does). -/
def taskErrorJoin (errs : List TestErr) : String :=
  String.intercalate "\n" (errs.map (fun e => (e.stack).getD ""))

/-- `this.flatTestItems.set(k, v)`. -/
def setFlatItem (s : TreeState) (k v : String) : TreeState :=
  { s with flatTestItems := ainsert s.flatTestItems k v }

/-- Refresh of label / tags / error on the task's item (lines 288-290). -/
def setTaskFields (tag : String) (t : VTask) (parentTags : List String)
    (itemId : String) (s : TreeState) : TreeState :=
  modifyItem s itemId fun it =>
    { it with tags := dedupFirst (parentTags ++ [tag]),
              error := none, label := t.name }

/-- Source-position refresh (lines 291-298): a reported 1-based location
becomes a zero-width point range at `(line - 1, column)`; otherwise the sort
key becomes the task id. -/
def setTaskLocation (t : VTask) (itemId : String) (s : TreeState) : TreeState :=
  match t.location with
  | some loc => modifyItem s itemId fun it =>
      { it with range := some (loc.line - 1, loc.column) }
  | none => modifyItem s itemId fun it => { it with sortText := some t.id }

/-- Side-table registration (lines 299-302). -/
def registerTaskData (fd ttype itemId : String) (s : TreeState) : TreeState :=
  if ttype = "suite" then
    { s with testData := ainsert s.testData itemId (TestData.suite fd) }
  else if ttype = "test" ∨ ttype = "custom" then
    { s with testData := ainsert s.testData itemId (TestData.testCase fd) }
  else s

/-- Collection-error refresh (lines 307-312). -/
def setTaskResultError (t : VTask) (itemId : String) (s : TreeState) : TreeState :=
  match t.result with
  | some r =>
      match r.errors with
      | some errs => modifyItem s itemId fun it =>
          { it with error := some (taskErrorJoin errs) }
      | none => s
  | none => s

/-- The per-task field/index updates of the `collectTasks` loop body
(lines 288-312), after the item has been resolved or created. -/
def collectTaskFields (tag fd : String) (t : VTask) (parentId : String)
    (parentTags : List String) (itemId : String) (s : TreeState) : TreeState :=
  let s := setTaskFields tag t parentTags itemId s
  let s := setTaskLocation t itemId s
  let s := registerTaskData fd t.ttype itemId s
  let s := setFlatItem s t.id itemId
  let s := childrenAdd s parentId itemId
  setTaskResultError t itemId s

/-- The body of the `collectTasks` loop for one task (lines 282-312), without
the recursion into subtasks: reuse or create the item, refresh its fields,
register its data, index it and attach it to the parent.  Returns the id of
the item used (normally `task.id`). -/
def collectTaskItem (tag fd : String) (t : VTask) (parentId : String)
    (s : TreeState) : String × TreeState :=
  let parentItem := getItem s parentId
  match alookup s.flatTestItems t.id with
  | some iid => (iid, collectTaskFields tag fd t parentId parentItem.tags iid s)
  | none =>
      (t.id, collectTaskFields tag fd t parentId parentItem.tags t.id
        (setItem s t.id (newTestItem t.id t.name parentItem.uri)))

/-- The `collectTasks` loop (lines 282-316): process each task in order and
recurse into its subtasks (the recursive `collectTasks` call is the inner
loop followed by the pruning of the subtask parent's children). -/
def collectLoop (tag fd : String) (tasks : List VTask) (parentId : String)
    (s : TreeState) : TreeState :=
  match tasks with
  | [] => s
  | t :: rest =>
      let p := collectTaskItem tag fd t parentId s
      let s2 :=
        match h : t.tasks with
        | some sub => pruneChildren (collectLoop tag fd sub p.1 p.2) p.1 (idsOf sub)
        | none => p.2
      collectLoop tag fd rest parentId s2
termination_by sizeOf tasks
decreasing_by
  · exact Nat.lt_trans (VTask.sizeOf_tasks_lt h) (VTask.sizeOf_head_lt t rest)
  · exact VTask.sizeOf_rest_lt t rest

/-- `collectTasks(tag, fileData, tasks, parent)` (lines 281-324). -/
def collectTasks (tag fd : String) (tasks : List VTask) (parentId : String)
    (s : TreeState) : TreeState :=
  pruneChildren (collectLoop tag fd tasks parentId s) parentId (idsOf tasks)

/-- The error string stored by `collectFile` (line 272):
`errors.map(e => e.stack || e.message).join('\n')`. -/
def fileErrorJoin (errs : List TestErr) : String :=
  String.intercalate "\n" (errs.map (fun e => jsOr e.stack e.message))

/-- `collectFile(api, file)` (lines 265-279). -/
def collectFile (api : ApiHandle) (fuel : Nat) (file : VFile)
    (s : TreeState) : Option TreeState := do
  let (fileItemId, s) ← getOrCreateFileTestItem api fuel
      (jsOr file.projectName "") file.filepath s
  let s := modifyItem s fileItemId fun it => { it with error := none }
  let s := setFlatItem s file.id fileItemId
  let s := collectTasks api.tag fileItemId file.tasks fileItemId s
  let s :=
    match file.result.bind TaskResult.errors with
    | some errs => modifyItem s fileItemId fun it =>
        { it with error := some (fileErrorJoin errs) }
    | none =>
        if file.tasks.length = 0 then
          modifyItem s fileItemId fun it =>
            { it with error := some ("No tests found in " ++ file.filepath) }
        else s
  let s := modifyItem s fileItemId fun it => { it with canResolveChildren := false }
  some s

/-- `recursiveDelete(item)` (lines 197-213); `fuel` bounds the climb up the
parent chain (which is finite in every well-formed tree). -/
def recursiveDelete (fuel : Nat) (s : TreeState) (itemId : String) : TreeState :=
  match fuel with
  | 0 => s
  | fuel + 1 =>
      let item := getItem s itemId
      match item.parent with
      | none => s
      | some pid =>
          let s := childrenDelete s pid itemId
          let s := { s with flatTestItems := aerase s.flatTestItems itemId }
          let s :=
            match alookup s.testData itemId with
            | some (TestData.file fp _) =>
                { s with testItemsByFile := aerase s.testItemsByFile fp,
                         fileItems := aerase s.fileItems itemId }
            | some TestData.folder =>
                { s with folderItems := aerase s.folderItems itemId }
            | _ => s
          if (getItem s pid).children.length = 0 then recursiveDelete fuel s pid
          else s

/-- The watcher's `onDidDelete` handler (lines 191-194): recursively delete
every file item registered for the deleted path. -/
def onDidDelete (fuel : Nat) (s : TreeState) (fsPath : String) : TreeState :=
  ((alookup s.testItemsByFile (normalize fsPath)).getD []).foldl
    (fun st it => recursiveDelete fuel st it) s

/-! ### Error / location resolution (from `src/runner/runner.ts`) -/

/-- Model of the `strip-ansi` package: drop ANSI escape sequences
(ESC followed by a CSI sequence up to its final byte, or one other byte). -/
inductive AnsiMode : Type where
  | plain : AnsiMode
  | esc : AnsiMode
  | csi : AnsiMode

def stripAnsiAux : AnsiMode → List Char → List Char
  | _, [] => []
  | .plain, c :: rest =>
      if c = Char.ofNat 27 then stripAnsiAux .esc rest
      else c :: stripAnsiAux .plain rest
  | .esc, c :: rest =>
      if c = '[' then stripAnsiAux .csi rest else stripAnsiAux .plain rest
  | .csi, c :: rest =>
      if 0x40 ≤ c.toNat ∧ c.toNat ≤ 0x7e then stripAnsiAux .plain rest
      else stripAnsiAux .csi rest

def stripAnsi (s : String) : String := String.mk (stripAnsiAux .plain s.toList)

/-- `stack.file.replace(/\//g, path.sep)`; `sep` is the host separator. -/
def replaceSlashes (sep : String) (s : String) : String :=
  String.join (s.toList.map (fun c => if c = '/' then sep else String.singleton c))

/-- A resolved `DebuggerLocation` (1-based, both coordinates valid numbers). -/
structure DebuggerLocation : Type where
  path : String
  line : Int
  column : Int
deriving DecidableEq

/-- The loop of `parseLocationFromStacks` (lines 487-497). -/
def parseLocationLoop (sep target : String) : List ParsedStack → Option DebuggerLocation
  | [] => none
  | st :: rest =>
      let sourceFilepath := replaceSlashes sep st.file
      if sourceFilepath ≠ target ∨ st.column.isNaN ∨ st.line.isNaN then
        parseLocationLoop sep target rest
      else some { path := sourceFilepath, line := st.line.toInt, column := st.column.toInt }

/-- `parseLocationFromStacks(testItem, stacks)` (lines 482-500). -/
def parseLocationFromStacks (sep : String) (testItem : VItem)
    (frames : List ParsedStack) : Option DebuggerLocation :=
  if frames.length = 0 then none
  else parseLocationLoop sep ((testItem.uri).getD "") frames

/-- The predicate of the frame scan, stated the way the spec words it: the
frame's separator-normalized path equals the target path and both coordinates
are valid numbers.  Used to characterize the loop as a first-match search. -/
def stackFrameMatches (sep target : String) (st : ParsedStack) : Bool :=
  replaceSlashes sep st.file = target && !st.column.isNaN && !st.line.isNaN

/-- A `vscode.TestMessage`: `diff` carries `(expected, actual)` when the
message was built with `TestMessage.diff`; `location` is
(path, 0-based line, 0-based column). -/
structure VTestMessage : Type where
  message : String
  diff : Option (String × String)
  location : Option (String × Int × Int)
deriving DecidableEq

/-- `testMessageForTestError(testItem, error)` (lines 450-466). -/
def testMessageForTestError (sep : String) (testItem : VItem)
    (error : Option TestErr) : VTestMessage :=
  match error with
  | none => { message := "Unknown error", diff := none, location := none }
  | some error =>
      let testMessage : VTestMessage :=
        if error.actual.isSome = true ∧ error.expected.isSome = true ∧
           error.actual ≠ some "undefined" ∧ error.expected ≠ some "undefined" then
          { message := stripAnsi error.message,
            diff := some ((error.expected).getD "", (error.actual).getD ""),
            location := none }
        else
          { message := stripAnsi error.message, diff := none, location := none }
      match parseLocationFromStacks sep testItem ((error.stackFrames).getD []) with
      | some location =>
          { testMessage with
              location := some (location.path, location.line - 1, location.column - 1) }
      | none => testMessage

/-! ### Result marking (from `src/runner/runner.ts`) -/

/-- The observable effects of the marking functions: calls on the open
`vscode.TestRun` plus log lines. -/
inductive UIEvent : Type where
  | failed (testId : String) (messages : List VTestMessage) (duration : Option Int) : UIEvent
  | passed (testId : String) (duration : Option Int) : UIEvent
  | skipped (testId : String) : UIEvent
  | started (testId : String) : UIEvent
  | logVerbose (msg : String) : UIEvent
  | logError (msg : String) : UIEvent
deriving DecidableEq

def UIEvent.isMark : UIEvent → Bool
  | .failed _ _ _ => true
  | .passed _ _ => true
  | .skipped _ => true
  | .started _ => true
  | _ => false

def UIEvent.isPassedOrFailed : UIEvent → Bool
  | .failed _ _ _ => true
  | .passed _ _ => true
  | _ => false

/-- `markSuite(testRun, test, result)` (lines 374-390): never calls the run
object; may set the item's `error` field.  Returns the updated item and the
log events. -/
def markSuite (test : VItem) (result : Option TaskResult) : VItem × List UIEvent :=
  match result with
  | none => (test, [])
  | some r =>
      if r.state = "fail" then
        match r.errors with
        | none => (test, [UIEvent.logVerbose ("No errors found for " ++ test.label)])
        | some errs =>
            let errors := errs.map (fun e => jsOr e.stack e.message)
            if errors.length = 0 then
              (test, [UIEvent.logVerbose ("No errors found for " ++ test.label)])
            else
              ({ test with error := some (String.intercalate "\n" errors) },
               [UIEvent.logVerbose ("Marking " ++ test.label ++ " as failed")])
      else (test, [])

/-- `markTestCase(testRun, test, result)` (lines 392-429). -/
def markTestCase (sep : String) (test : VItem) (result : TaskResult) : List UIEvent :=
  match result.state with
  | "fail" =>
      let errors := ((result.errors).getD []).map
        (fun err => testMessageForTestError sep test (some err))
      if errors.length = 0 then
        [UIEvent.logVerbose ("Test failed, but no errors found for " ++ test.label)]
      else
        [UIEvent.logVerbose ("Marking " ++ test.label ++ " as failed"),
         UIEvent.failed test.id errors result.duration]
  | "pass" =>
      [UIEvent.logVerbose ("Marking " ++ test.label ++ " as passed"),
       UIEvent.passed test.id result.duration]
  | "todo" =>
      [UIEvent.logVerbose ("Marking " ++ test.label ++ " as skipped"),
       UIEvent.skipped test.id]
  | "skip" =>
      [UIEvent.logVerbose ("Marking " ++ test.label ++ " as skipped"),
       UIEvent.skipped test.id]
  | "only" =>
      [UIEvent.logVerbose ("Marking " ++ test.label ++ " as running"),
       UIEvent.started test.id]
  | "run" =>
      [UIEvent.logVerbose ("Marking " ++ test.label ++ " as running"),
       UIEvent.started test.id]
  | other =>
      [UIEvent.logError ("Unknown test result for " ++ test.label ++ ": " ++ other)]

/-- `markResult(testRun, test, result)` (lines 431-447): anything that is not
a test case goes to `markSuite`; a test case with no result is marked
started, otherwise `markTestCase` runs. -/
def markResult (sep : String) (data : Option TestData) (test : VItem)
    (result : Option TaskResult) : VItem × List UIEvent :=
  let isTestCase := match data with
    | some (TestData.testCase _) => true
    | _ => false
  if !isTestCase then markSuite test result
  else
    match result with
    | none => (test, [UIEvent.logVerbose ("No task result for " ++ test.label),
                      UIEvent.started test.id])
    | some r => (test, markTestCase sep test r)

/-! ### The run-exclusivity state machine (from `src/runner/runner.ts`)

`startTestRun` (lines 310-349), `runTestItems` (234-262), `endTestRun`
(147-153) and the `onFinished` handler (100-129) are `async` functions of a
single-threaded event loop; each is modelled as its atomic segments between
`await` points. The state records the two fields `testRun` / `testRunDefer`,
ghost lists of created / ended run ids and resolved defer ids, and the
pending continuations parked at an `await`. -/

inductive Cont : Type where
  | startResume (awaited : Option Nat) : Cont
  | runItemsResume (awaited : Option Nat) : Cont
  | finishedResume : Cont
deriving DecidableEq

structure RunnerState : Type where
  testRun : Option Nat
  testRunDefer : Option Nat
  nonContinuousRequest : Bool
  continuousCount : Nat
  nextRun : Nat
  nextDefer : Nat
  created : List Nat
  ended : List Nat
  resolved : List Nat
  pending : List Cont
deriving DecidableEq

def initialRunnerState : RunnerState :=
  { testRun := none, testRunDefer := none, nonContinuousRequest := false,
    continuousCount := 0, nextRun := 0, nextDefer := 0,
    created := [], ended := [], resolved := [], pending := [] }

/-- `endTestRun()` (lines 147-153): `testRun?.end()`, `testRunDefer?.resolve()`,
clear both fields. -/
def endTestRun (s : RunnerState) : RunnerState :=
  { s with
      ended := (match s.testRun with | some r => s.ended ++ [r] | none => s.ended),
      resolved := (match s.testRunDefer with | some d => s.resolved ++ [d] | none => s.resolved),
      testRun := none, testRunDefer := none }

/-- `this.testRun = this.controller.createTestRun(...)` (line 328). -/
def openRun (s : RunnerState) : RunnerState :=
  { s with testRun := some s.nextRun, created := s.created ++ [s.nextRun],
           nextRun := s.nextRun + 1 }

/-- Entry of `startTestRun` (lines 310-322): if no request resolves, return;
if a run is open, await its completion defer (parking a continuation on the
defer captured now — awaiting `undefined` parks an immediately ready
continuation); otherwise open the run straight away. -/
def startTestRunEntry (hasRequest : Bool) (s : RunnerState) : RunnerState :=
  if hasRequest then
    match s.testRun with
    | some _ => { s with pending := s.pending ++ [Cont.startResume s.testRunDefer] }
    | none => openRun s
  else s

/-- Resumption of `startTestRun` after the await (lines 321-328):
`endTestRun()` then `createTestRun` — atomic, no await in between. -/
def startTestRunResume (s : RunnerState) : RunnerState :=
  openRun (endTestRun s)

/-- Resumption (or synchronous tail) of `runTestItems` (line 240): install a
fresh completion defer; the dispatch to the process API opens no run. -/
def runTestItemsResume (s : RunnerState) : RunnerState :=
  { s with testRunDefer := some s.nextDefer, nextDefer := s.nextDefer + 1 }

/-- Entry of `runTestItems` (lines 235-240): if a defer is pending, await it
before installing the new one. -/
def runTestItemsEntry (s : RunnerState) : RunnerState :=
  match s.testRunDefer with
  | some d => { s with pending := s.pending ++ [Cont.runItemsResume (some d)] }
  | none => runTestItemsResume s

/-- Entry of the `onFinished` handler (lines 100-110): no open run means
ignore; otherwise the rest of the handler runs after the coverage await. -/
def onFinishedEntry (s : RunnerState) : RunnerState :=
  match s.testRun with
  | none => s
  | some _ => { s with pending := s.pending ++ [Cont.finishedResume] }

def removeCont (s : RunnerState) (c : Cont) : RunnerState :=
  { s with pending := s.pending.erase c }

/-- A parked continuation may resume once the defer it awaited has resolved
(awaiting `undefined` resolves immediately). -/
def deferReady (s : RunnerState) (d : Option Nat) : Prop :=
  match d with
  | none => True
  | some x => x ∈ s.resolved

/-- One atomic segment of the runner's event loop. -/
inductive RStep : RunnerState → RunnerState → Prop where
  | watcherRerun {s : RunnerState} (hasRequest : Bool) :
      RStep s (startTestRunEntry hasRequest s)
  | startResumeStep {s : RunnerState} (d : Option Nat)
      (hmem : Cont.startResume d ∈ s.pending) (hready : deferReady s d) :
      RStep s (startTestRunResume (removeCont s (Cont.startResume d)))
  | runTestsStep {s : RunnerState} :
      RStep s (runTestItemsEntry { s with nonContinuousRequest := true })
  | runItemsResumeStep {s : RunnerState} (d : Option Nat)
      (hmem : Cont.runItemsResume d ∈ s.pending) (hready : deferReady s d) :
      RStep s (runTestItemsResume (removeCont s (Cont.runItemsResume d)))
  | finishedStep {s : RunnerState} :
      RStep s (onFinishedEntry s)
  | finishedResumeStep {s : RunnerState}
      (hmem : Cont.finishedResume ∈ s.pending) :
      RStep s (endTestRun (removeCont s Cont.finishedResume))
  | cancelOneShot {s : RunnerState} :
      RStep s { endTestRun s with nonContinuousRequest := false }
  | cancelContinuousLast {s : RunnerState} :
      RStep s { endTestRun s with continuousCount := 0 }
  | disposeStep {s : RunnerState} :
      RStep s (endTestRun s)
  | runTestsDone {s : RunnerState} :
      RStep s { s with nonContinuousRequest := false }

/-- States reachable from the initial runner state. -/
inductive RReachable : RunnerState → Prop where
  | init : RReachable initialRunnerState
  | step {s s' : RunnerState} : RReachable s → RStep s s' → RReachable s'

/-- The UI run objects created and not yet ended. -/
def OpenRuns (s : RunnerState) : List Nat :=
  s.created.filter (fun r => decide (r ∉ s.ended))

/-- The runner's run-lifecycle invariant: every created run is either already
ended or is the single run held in the `testRun` field; run ids are fresh and
distinct. -/
def RInv (s : RunnerState) : Prop :=
  (∀ r ∈ s.created, r ∈ s.ended ∨ s.testRun = some r) ∧
  (∀ r ∈ s.created, r < s.nextRun) ∧
  s.created.Nodup

/-! ### Spec-side reference for recursive deletion (claim about pruning) -/

/-- The component of `recursiveDelete`'s body that removes one node (given its
parent): detach from the parent's children and drop the node from the flat
index and its per-kind index. -/
def deleteNodeEntries (s : TreeState) (itemId pid : String) : TreeState :=
  let s := childrenDelete s pid itemId
  let s := { s with flatTestItems := aerase s.flatTestItems itemId }
  match alookup s.testData itemId with
  | some (TestData.file fp _) =>
      { s with testItemsByFile := aerase s.testItemsByFile fp,
               fileItems := aerase s.fileItems itemId }
  | some TestData.folder =>
      { s with folderItems := aerase s.folderItems itemId }
  | _ => s

/-- Modelled from the spec: "Deleting a file on disk prunes its File Node and
recursively prunes any now-childless ancestor Folder Nodes, up to but not
including the root."  The ancestor chain is explicit; the root (chain
exhausted / an item with no parent) is never deleted, and the walk stops at
the first ancestor that keeps other children. -/
def specFilePrune (s : TreeState) (node : String) : List String → TreeState
  | [] => s
  | parent :: rest =>
      let s := deleteNodeEntries s node parent
      if (getItem s parent).children.length = 0 then specFilePrune s parent rest
      else s

/-- The parent chain of an item: `ParentChain s n anc` says the parent
pointers from `n` climb exactly through `anc`, ending at a root (no parent). -/
def ParentChain (s : TreeState) : String → List String → Prop
  | n, [] => (getItem s n).parent = none
  | n, p :: rest => (getItem s n).parent = some p ∧ ParentChain s p rest

/-! ### Correctness predicates for `collectTasks` -/

/-- The final `error` field of a task item after `collectTasks` refreshed it:
cleared, then set from collection errors if the task result carries the
`errors` field. -/
def expectedError (t : VTask) : Option String :=
  match t.result with
  | some r =>
      match r.errors with
      | some errs => some (taskErrorJoin errs)
      | none => none
  | none => none

/-- The value of a task's item after the loop body's field updates, starting
from the base item `b` (the reused or freshly created item): derived
characterization of `collectTaskFields`' effect on the item itself. -/
def taskItemAfter (tag : String) (t : VTask) (parentTags : List String)
    (parentId : String) (b : VItem) : VItem :=
  let it := { b with tags := dedupFirst (parentTags ++ [tag]),
                     error := none, label := t.name }
  let it :=
    match t.location with
    | some loc => { it with range := some (loc.line - 1, loc.column) }
    | none => { it with sortText := some t.id }
  let it := { it with parent := some parentId }
  match t.result with
  | some r =>
      match r.errors with
      | some errs => { it with error := some (taskErrorJoin errs) }
      | none => it
  | none => it

/-- All facts `collectTasks` establishes about the item of one task `t`
sitting under parent `p` (relative to the final state `s`). -/
def SettledFields (tag fd : String) (s : TreeState) (t : VTask) (p : String) : Prop :=
  alookup s.flatTestItems t.id = some t.id ∧
  match getItem? s t.id with
  | none => False
  | some it =>
      it.tags = dedupFirst ((getItem s p).tags ++ [tag]) ∧
      it.label = t.name ∧
      it.error = expectedError t ∧
      it.parent = some p ∧
      (match t.location with
       | some loc => it.range = some (loc.line - 1, loc.column)
       | none => it.sortText = some t.id) ∧
      (t.ttype = "suite" → alookup s.testData t.id = some (TestData.suite fd)) ∧
      (t.ttype = "test" ∨ t.ttype = "custom" →
         alookup s.testData t.id = some (TestData.testCase fd)) ∧
      t.id ∈ childrenOf s p

/-- `collectTasks`' postcondition over a whole forest: each task's item is
settled, and each subtask parent's children are contained in the reported
subtask ids (together with `SettledFields` membership this makes the children
exactly the reported ids). -/
def Settled (tag fd : String) (s : TreeState) : List VTask → String → Prop
  | [], _ => True
  | t :: rest, p =>
      SettledFields tag fd s t p ∧
      (match h : t.tasks with
       | some sub =>
           Settled tag fd s sub t.id ∧
           (∀ x ∈ childrenOf s t.id, x ∈ idsOf sub)
       | none => True) ∧
      Settled tag fd s rest p
termination_by l => sizeOf l
decreasing_by
  · exact Nat.lt_trans (VTask.sizeOf_tasks_lt h) (VTask.sizeOf_head_lt t rest)
  · exact VTask.sizeOf_rest_lt t rest

/-- "Children mirror the latest report": at every level of the forest, the
children of each reported suite are exactly the reported subtask ids. -/
def MirrorsAll (s : TreeState) : List VTask → Prop
  | [] => True
  | t :: rest =>
      (match h : t.tasks with
       | some sub =>
           (∀ x, x ∈ childrenOf s t.id ↔ x ∈ idsOf sub) ∧ MirrorsAll s sub
       | none => True) ∧
      MirrorsAll s rest
termination_by l => sizeOf l
decreasing_by
  · exact Nat.lt_trans (VTask.sizeOf_tasks_lt h) (VTask.sizeOf_head_lt t rest)
  · exact VTask.sizeOf_rest_lt t rest

/-- Well-formedness of a `collectTasks` call: the parent is not among the
reported ids, the reported ids are distinct, the parent item exists, and the
flat index is aligned on the reported ids (an id in the flat index maps to
the item of that id, as the tree maintains for task items). -/
def CollectWF (s : TreeState) (tasks : List VTask) (p : String) : Prop :=
  p ∉ allIds tasks ∧
  (allIds tasks).Nodup ∧
  (getItem? s p).isSome = true ∧
  (∀ id ∈ allIds tasks,
     alookup s.flatTestItems id = none ∨ alookup s.flatTestItems id = some id) ∧
  (∀ id ∈ allIds tasks,
     alookup s.flatTestItems id = some id → (getItem? s id).isSome = true)

/-! ### Concrete scenario inputs used by witnesses -/

def sampleErr1 : TestErr :=
  { message := "boom", stack := some "stackline", actual := none,
    expected := none, stackFrames := none }

def testItemT1 : VItem :=
  { defaultItem "t1" with label := "t", uri := some "/ws/a.test.js" }

def failResult2 : TaskResult :=
  { state := "fail", errors := some [sampleErr1, sampleErr1], duration := some 5 }

def wsRoot : VItem := { defaultItem "/ws" with label := "ws" }

def baseState : TreeState :=
  { items := [("/ws", wsRoot)], flatTestItems := [], fileItems := [],
    folderItems := [("/ws", "/ws")], testItemsByFile := [],
    testData := [("/ws", TestData.folder)] }

def apiA : ApiHandle := { tag := "tagA", workspaceFolder := "/ws" }

def apiB : ApiHandle := { tag := "tagB", workspaceFolder := "/ws" }

def c1Inner : VTask := VTask.mk "f::s1::t1" "inner test" "test" none none "run" none

def c1Suite : VTask := VTask.mk "f::s1" "suite one" "suite" none none "run" (some [c1Inner])

def c1Tasks : List VTask := [c1Suite]

def c4Task : VTask :=
  VTask.mk "t4" "test four" "test" (some { line := 10, column := 3 }) none "run" none

def c4Tasks : List VTask := [c4Task]

def c4Stack : ParsedStack :=
  { file := "/ws/a.test.js", line := JSNum.num 10, column := JSNum.num 3 }

def c4Err : TestErr :=
  { message := "boom", stack := none, actual := none, expected := none,
    stackFrames := some [c4Stack] }

def c9File : VFile :=
  { id := "fhash", filepath := "/ws/a.test.js", projectName := none,
    tasks := [], result := none }

def c9fid : String :=
  ((getOrCreateFileTestItem apiA 10 "" "/ws/a.test.js" baseState).getD
    ("", emptyTreeState)).1

def c9s1 : TreeState :=
  ((getOrCreateFileTestItem apiA 10 "" "/ws/a.test.js" baseState).getD
    ("", emptyTreeState)).2

def c9it1 : VItem := (getItem? c9s1 c9fid).getD (defaultItem "")

def c6FileItem : VItem :=
  { defaultItem "/ws/sub/a.test.js" with
    label := "a.test.js",
    parent := some "/ws/sub",
    children := [] }

def c6FolderItem : VItem :=
  { defaultItem "/ws/sub" with
    label := "sub",
    parent := some "/ws",
    children := ["/ws/sub/a.test.js"] }

def c6Root : VItem :=
  { defaultItem "/ws" with label := "ws", parent := none, children := ["/ws/sub"] }

def c10FA : VItem :=
  { defaultItem "/ws/sub/a.test.js" with parent := some "/ws/sub" }

def c10FB : VItem :=
  { defaultItem "/ws/sub/a.test.jsp2" with parent := some "/ws/sub" }

def c10Folder : VItem :=
  { defaultItem "/ws/sub" with
    parent := some "/ws",
    children := ["/ws/sub/a.test.js", "/ws/sub/a.test.jsp2"] }

def c10Root : VItem :=
  { defaultItem "/ws" with children := ["/ws/sub"] }

def c10State : TreeState :=
  { items := [("/ws", c10Root), ("/ws/sub", c10Folder),
      ("/ws/sub/a.test.js", c10FA), ("/ws/sub/a.test.jsp2", c10FB)],
    flatTestItems := [],
    fileItems := [("/ws/sub/a.test.js", "/ws/sub/a.test.js"),
      ("/ws/sub/a.test.jsp2", "/ws/sub/a.test.jsp2")],
    folderItems := [("/ws", "/ws"), ("/ws/sub", "/ws/sub")],
    testItemsByFile :=
      [("/ws/sub/a.test.js", ["/ws/sub/a.test.js", "/ws/sub/a.test.jsp2"])],
    testData := [("/ws", TestData.folder), ("/ws/sub", TestData.folder),
      ("/ws/sub/a.test.js", TestData.file "/ws/sub/a.test.js" ""),
      ("/ws/sub/a.test.jsp2", TestData.file "/ws/sub/a.test.js" "p2")] }

def c6State : TreeState :=
  { items := [("/ws", c6Root), ("/ws/sub", c6FolderItem),
      ("/ws/sub/a.test.js", c6FileItem)],
    flatTestItems := [],
    fileItems := [("/ws/sub/a.test.js", "/ws/sub/a.test.js")],
    folderItems := [("/ws", "/ws"), ("/ws/sub", "/ws/sub")],
    testItemsByFile := [("/ws/sub/a.test.js", ["/ws/sub/a.test.js"])],
    testData := [("/ws", TestData.folder), ("/ws/sub", TestData.folder),
      ("/ws/sub/a.test.js", TestData.file "/ws/sub/a.test.js" "")] }

/-! ## Theorems -/

/-! ### Association-list lemmas -/

theorem alookup_ainsert {α : Type} (l : List (String × α)) (k k' : String) (v : α) :
    alookup (ainsert l k v) k' = if k = k' then some v else alookup l k' := by
  induction l with
  | nil => by_cases h : k = k' <;> simp [ainsert, alookup, h]
  | cons kv rest ih =>
      obtain ⟨k0, v0⟩ := kv
      by_cases h0 : k0 = k
      · subst h0
        by_cases h : k0 = k' <;> simp [ainsert, alookup, h]
      · by_cases h1 : k0 = k'
        · subst h1
          have hkk : ¬ k = k0 := fun hh => h0 hh.symm
          simp [ainsert, alookup, h0, hkk]
        · simp [ainsert, alookup, h0, h1, ih]

theorem alookup_aerase {α : Type} (l : List (String × α)) (k k' : String) :
    alookup (aerase l k) k' = if k = k' then none else alookup l k' := by
  induction l with
  | nil => by_cases h : k = k' <;> simp [aerase, alookup, h]
  | cons kv rest ih =>
      obtain ⟨k0, v0⟩ := kv
      by_cases h0 : k0 = k
      · subst h0
        have : ¬ (k0 ≠ k0) := by simp
        by_cases h : k0 = k'
        · subst h
          simpa [aerase, alookup] using ih
        · simp only [aerase, List.filter] at ih ⊢
          simpa [alookup, h] using ih
      · by_cases h1 : k0 = k'
        · subst h1
          have hkk : ¬ k = k0 := fun hh => h0 hh.symm
          simp [aerase, alookup, h0, hkk]
        · simp only [aerase, List.filter] at ih ⊢
          by_cases h : k = k' <;> simp [alookup, h0, h1, h, ih] <;>
            simpa [h] using ih

theorem ainsert_self {α : Type} (l : List (String × α)) (k : String) (v : α)
    (h : alookup l k = some v) : ainsert l k v = l := by
  induction l with
  | nil => simp [alookup] at h
  | cons kv rest ih =>
      obtain ⟨k0, v0⟩ := kv
      by_cases h0 : k0 = k
      · subst h0
        simp [alookup] at h
        simp [ainsert, h]
      · simp [alookup, h0] at h
        simp [ainsert, h0, ih h]

/-! ### Item-heap lemmas -/

theorem setItem_flat (s : TreeState) (i : String) (it : VItem) :
    (setItem s i it).flatTestItems = s.flatTestItems := rfl

theorem setItem_fileItems (s : TreeState) (i : String) (it : VItem) :
    (setItem s i it).fileItems = s.fileItems := rfl

theorem setItem_folderItems (s : TreeState) (i : String) (it : VItem) :
    (setItem s i it).folderItems = s.folderItems := rfl

theorem setItem_byFile (s : TreeState) (i : String) (it : VItem) :
    (setItem s i it).testItemsByFile = s.testItemsByFile := rfl

theorem setItem_testData (s : TreeState) (i : String) (it : VItem) :
    (setItem s i it).testData = s.testData := rfl

theorem modifyItem_flat (s : TreeState) (i : String) (f : VItem → VItem) :
    (modifyItem s i f).flatTestItems = s.flatTestItems := by
  unfold modifyItem
  cases getItem? s i <;> rfl

theorem modifyItem_fileItems (s : TreeState) (i : String) (f : VItem → VItem) :
    (modifyItem s i f).fileItems = s.fileItems := by
  unfold modifyItem
  cases getItem? s i <;> rfl

theorem modifyItem_folderItems (s : TreeState) (i : String) (f : VItem → VItem) :
    (modifyItem s i f).folderItems = s.folderItems := by
  unfold modifyItem
  cases getItem? s i <;> rfl

theorem modifyItem_byFile (s : TreeState) (i : String) (f : VItem → VItem) :
    (modifyItem s i f).testItemsByFile = s.testItemsByFile := by
  unfold modifyItem
  cases getItem? s i <;> rfl

theorem modifyItem_testData (s : TreeState) (i : String) (f : VItem → VItem) :
    (modifyItem s i f).testData = s.testData := by
  unfold modifyItem
  cases getItem? s i <;> rfl

theorem getItem?_setItem_self (s : TreeState) (i : String) (it : VItem) :
    getItem? (setItem s i it) i = some it := by
  simp [getItem?, setItem, alookup_ainsert]

theorem getItem?_setItem_ne (s : TreeState) (i j : String) (it : VItem)
    (h : i ≠ j) : getItem? (setItem s i it) j = getItem? s j := by
  simp [getItem?, setItem, alookup_ainsert, h]

theorem getItem?_modifyItem_self (s : TreeState) (i : String) (f : VItem → VItem) :
    getItem? (modifyItem s i f) i = (getItem? s i).map f := by
  unfold modifyItem
  cases h : getItem? s i with
  | none => simp [h]
  | some it => simp [getItem?_setItem_self]

theorem getItem?_modifyItem_ne (s : TreeState) (i j : String) (f : VItem → VItem)
    (h : i ≠ j) : getItem? (modifyItem s i f) j = getItem? s j := by
  unfold modifyItem
  cases hx : getItem? s i with
  | none => rfl
  | some it => simp [getItem?_setItem_ne _ _ _ _ h]

theorem modifyItem_of_fixed (s : TreeState) (i : String) (f : VItem → VItem)
    (h : ∀ it, getItem? s i = some it → f it = it) : modifyItem s i f = s := by
  unfold modifyItem
  cases hx : getItem? s i with
  | none => rfl
  | some it =>
      simp only [setItem, h it hx]
      have : ainsert s.items i it = s.items := ainsert_self _ _ _ hx
      cases s
      simp_all

/-! ### Run exclusivity (claim C2 support) -/

theorem RInv_init : RInv initialRunnerState := by
  simp [RInv, initialRunnerState]

theorem RInv_endTestRun {s : RunnerState} (h : RInv s) : RInv (endTestRun s) := by
  obtain ⟨h1, h2, h3⟩ := h
  refine ⟨?_, h2, h3⟩
  intro r hr
  left
  rcases h1 r hr with hend | hrun
  · cases htr : s.testRun <;> simp [endTestRun, htr, hend]
  · simp [endTestRun, hrun]

theorem RInv_openRun {s : RunnerState} (h : RInv s) (hnone : s.testRun = none) :
    RInv (openRun s) := by
  obtain ⟨h1, h2, h3⟩ := h
  refine ⟨?_, ?_, ?_⟩
  · intro r hr
    simp only [openRun, List.mem_append, List.mem_singleton] at hr
    rcases hr with hr | hr
    · rcases h1 r hr with hend | hrun
      · exact Or.inl hend
      · rw [hnone] at hrun
        exact absurd hrun (by simp)
    · subst hr
      exact Or.inr rfl
  · intro r hr
    simp only [openRun, List.mem_append, List.mem_singleton] at hr
    rcases hr with hr | hr
    · exact Nat.lt_succ_of_lt (h2 r hr)
    · subst hr
      exact Nat.lt_succ_self _
  · show (s.created ++ [s.nextRun]).Nodup
    refine List.Nodup.append h3 (List.nodup_singleton _) ?_
    intro a ha hb
    simp only [List.mem_singleton] at hb
    subst hb
    exact Nat.lt_irrefl _ (h2 _ ha)

theorem RInv_removeCont {s : RunnerState} (h : RInv s) (c : Cont) :
    RInv (removeCont s c) := by
  obtain ⟨h1, h2, h3⟩ := h
  exact ⟨h1, h2, h3⟩

theorem RInv_step {s s' : RunnerState} (h : RInv s) (hs : RStep s s') : RInv s' := by
  cases hs with
  | watcherRerun hasRequest =>
      cases hasRequest with
      | false => simpa [startTestRunEntry] using h
      | true =>
          cases htr : s.testRun with
          | some r =>
              have heq : startTestRunEntry true s =
                  { s with pending := s.pending ++ [Cont.startResume s.testRunDefer] } := by
                simp [startTestRunEntry, htr]
              rw [heq]
              exact ⟨h.1, h.2.1, h.2.2⟩
          | none =>
              have heq : startTestRunEntry true s = openRun s := by
                simp [startTestRunEntry, htr]
              rw [heq]
              exact RInv_openRun h htr
  | startResumeStep d hmem hready =>
      unfold startTestRunResume
      exact RInv_openRun (RInv_endTestRun (RInv_removeCont h _)) rfl
  | runTestsStep =>
      unfold runTestItemsEntry
      split
      · exact ⟨h.1, h.2.1, h.2.2⟩
      · exact ⟨h.1, h.2.1, h.2.2⟩
  | runItemsResumeStep d hmem hready =>
      exact ⟨h.1, h.2.1, h.2.2⟩
  | finishedStep =>
      unfold onFinishedEntry
      split
      · exact h
      · exact ⟨h.1, h.2.1, h.2.2⟩
  | finishedResumeStep hmem =>
      exact RInv_endTestRun (RInv_removeCont h _)
  | cancelOneShot =>
      have h' := RInv_endTestRun h
      exact ⟨h'.1, h'.2.1, h'.2.2⟩
  | cancelContinuousLast =>
      have h' := RInv_endTestRun h
      exact ⟨h'.1, h'.2.1, h'.2.2⟩
  | disposeStep =>
      exact RInv_endTestRun h
  | runTestsDone =>
      exact ⟨h.1, h.2.1, h.2.2⟩

theorem RInv_reachable {s : RunnerState} (h : RReachable s) : RInv s := by
  induction h with
  | init => exact RInv_init
  | step _ hs ih => exact RInv_step ih hs

theorem nodup_all_eq_length_le_one {l : List Nat} (hn : l.Nodup)
    (v : Nat) (hall : ∀ a ∈ l, a = v) : l.length ≤ 1 := by
  match l with
  | [] => simp
  | [a] => simp
  | a :: b :: t =>
      exfalso
      have ha : a = v := hall a (by simp)
      have hb : b = v := hall b (by simp)
      have : a ≠ b := by
        have hnm : a ∉ b :: t := (List.nodup_cons.mp hn).1
        intro hab
        exact hnm (hab ▸ List.mem_cons_self b t)
      exact this (ha.trans hb.symm)

theorem openRuns_le_one {s : RunnerState} (h : RInv s) : (OpenRuns s).length ≤ 1 := by
  obtain ⟨h1, _, h3⟩ := h
  cases htr : s.testRun with
  | none =>
      have : OpenRuns s = [] := by
        unfold OpenRuns
        rw [List.filter_eq_nil_iff]
        intro r hr
        rcases h1 r hr with hend | hrun
        · simp [hend]
        · rw [htr] at hrun
          exact absurd hrun (by simp)
      simp [this]
  | some v =>
      refine nodup_all_eq_length_le_one (List.Nodup.filter _ h3) v ?_
      intro a ha
      unfold OpenRuns at ha
      have hmem := List.of_mem_filter ha
      have hmema := List.mem_of_mem_filter ha
      simp only [decide_eq_true_eq] at hmem
      rcases h1 a hmema with hend | hrun
      · exact absurd hend hmem
      · have : some v = some a := htr.symm.trans hrun
        injection this with hva
        exact hva.symm

/-- Claim C2: at most one Active Run (UI test-run object) is open per runner
instance at every reachable instant, and every step that opens a new run from
a state with previously created runs first ends all of them; when a run was
open at such a step, the step is the resumption of a continuation that
awaited the completion defer (which must have resolved).  `startTestRun` and
`runTestItems` only open or dispatch after awaiting the prior run's
completion signal. -/
theorem activeRun_exclusive (s : RunnerState) (hreach : RReachable s) :
    (OpenRuns s).length ≤ 1 ∧
    (∀ s', RStep s s' → s'.created ≠ s.created →
        (∀ r ∈ s.created, r ∈ s'.ended) ∧
        (s.testRun = none ∨
         ∃ d, Cont.startResume d ∈ s.pending ∧ deferReady s d)) := by
  have hinv := RInv_reachable hreach
  refine ⟨openRuns_le_one hinv, ?_⟩
  intro s' hstep hne
  cases hstep with
  | watcherRerun hasRequest =>
      cases hasRequest with
      | false =>
          exfalso
          apply hne
          simp [startTestRunEntry]
      | true =>
          cases htr : s.testRun with
          | some r =>
              exfalso
              apply hne
              simp [startTestRunEntry, htr]
          | none =>
              refine ⟨?_, Or.inl rfl⟩
              intro r hr
              have heq : startTestRunEntry true s = openRun s := by
                simp [startTestRunEntry, htr]
              rw [heq]
              rcases hinv.1 r hr with hend | hrun
              · exact hend
              · rw [htr] at hrun
                exact absurd hrun (fun h => Option.noConfusion h)
  | startResumeStep d hmem hready =>
      refine ⟨?_, Or.inr ⟨d, hmem, hready⟩⟩
      intro r hr
      rcases hinv.1 r hr with hend | hrun
      · show r ∈ (endTestRun (removeCont s (Cont.startResume d))).ended
        cases htr : s.testRun <;> simp [endTestRun, removeCont, htr, hend]
      · show r ∈ (endTestRun (removeCont s (Cont.startResume d))).ended
        simp [endTestRun, removeCont, hrun]
  | runTestsStep =>
      exfalso
      apply hne
      unfold runTestItemsEntry
      split
      · rfl
      · rfl
  | runItemsResumeStep d hmem hready =>
      exact absurd rfl hne
  | finishedStep =>
      exfalso
      apply hne
      unfold onFinishedEntry
      split
      · rfl
      · rfl
  | finishedResumeStep hmem =>
      exact absurd rfl hne
  | cancelOneShot =>
      exact absurd rfl hne
  | cancelContinuousLast =>
      exact absurd rfl hne
  | disposeStep =>
      exact absurd rfl hne
  | runTestsDone =>
      exact absurd rfl hne

/-! ### Result-state marking (claims C3 and C7) -/

/-- Claim C3: for a test-case node, a `fail` result with zero errors produces
no UI mark; a `fail` result with n ≥ 1 errors marks the node failed with
exactly n messages and the reported duration; any state outside
fail/pass/todo/skip/only/run produces only an internal-error log entry (the
function is total, so the handler does not crash). -/
theorem markTestCase_result_states (sep : String) (test : VItem) (result : TaskResult) :
    (result.state = "fail" → (result.errors).getD [] = [] →
        (markTestCase sep test result).filter UIEvent.isMark = []) ∧
    (∀ errs, result.state = "fail" → result.errors = some errs → errs ≠ [] →
        (markTestCase sep test result).filter UIEvent.isMark =
          [UIEvent.failed test.id
             (errs.map fun err => testMessageForTestError sep test (some err))
             result.duration] ∧
        (errs.map fun err => testMessageForTestError sep test (some err)).length
          = errs.length) ∧
    (result.state ∉ (["fail", "pass", "todo", "skip", "only", "run"] : List String) →
        (markTestCase sep test result).filter UIEvent.isMark = [] ∧
        ∃ m, UIEvent.logError m ∈ markTestCase sep test result) := by
  refine ⟨?_, ?_, ?_⟩
  · intro hst herr
    simp [markTestCase, hst, herr, UIEvent.isMark]
  · intro errs hst herr hne
    have hlen : ¬ ((errs.map fun err => testMessageForTestError sep test (some err)).length = 0) := by
      simp only [List.length_map, List.length_eq_zero]
      exact hne
    refine ⟨?_, by simp⟩
    simp [markTestCase, hst, herr, hlen, hne, UIEvent.isMark]
  · intro hnot
    simp only [List.mem_cons, List.not_mem_nil, or_false, not_or] at hnot
    obtain ⟨n1, n2, n3, n4, n5, n6⟩ := hnot
    constructor
    · simp [markTestCase, n1, n2, n3, n4, n5, n6, UIEvent.isMark]
    · refine ⟨"Unknown test result for " ++ test.label ++ ": " ++ result.state, ?_⟩
      simp [markTestCase, n1, n2, n3, n4, n5, n6]

/-- Witness for C3: a concrete `fail` result carrying two errors is marked
failed with exactly two messages and the reported duration. -/
theorem markTestCase_result_states_w :
    failResult2.state = "fail" ∧ failResult2.errors = some [sampleErr1, sampleErr1] ∧
    ([sampleErr1, sampleErr1] : List TestErr) ≠ [] ∧
    ((markTestCase "/" testItemT1 failResult2).filter UIEvent.isMark =
       [UIEvent.failed testItemT1.id
          ([sampleErr1, sampleErr1].map fun err => testMessageForTestError "/" testItemT1 (some err))
          failResult2.duration] ∧
     ([sampleErr1, sampleErr1].map fun err => testMessageForTestError "/" testItemT1 (some err)).length
       = ([sampleErr1, sampleErr1] : List TestErr).length) :=
  ⟨rfl, rfl, by simp,
   (markTestCase_result_states "/" testItemT1 failResult2).2.1
     [sampleErr1, sampleErr1] rfl rfl (by simp)⟩

theorem markSuite_snd_logVerbose (test : VItem) (result : Option TaskResult) :
    ∀ e ∈ (markSuite test result).2, ∃ m, e = UIEvent.logVerbose m := by
  intro e he
  unfold markSuite at he
  cases result with
  | none => simp at he
  | some r =>
      by_cases hst : r.state = "fail"
      · simp only [hst, if_pos] at he
        cases herr : r.errors with
        | none =>
            simp [herr] at he
            exact ⟨_, he⟩
        | some errs =>
            simp only [herr] at he
            by_cases hnil : errs = []
            · simp [hnil] at he
              exact ⟨_, he⟩
            · simp [hnil] at he
              exact ⟨_, he⟩
      · simp [hst] at he

/-- Claim C7: `markResult` on a node that is not a test case delegates to
`markSuite`, which never issues a passed or failed (indeed any) UI mark;
the node's `error` field is set to the joined discovery errors exactly when
the result state is `fail` and the result carries at least one error, and is
left untouched otherwise. -/
theorem markResult_suite_behavior (sep : String) (data : Option TestData) (test : VItem)
    (result : Option TaskResult)
    (hdata : ∀ fid, data ≠ some (TestData.testCase fid)) :
    (∀ e ∈ (markResult sep data test result).2, e.isPassedOrFailed = false) ∧
    (∀ r errs, result = some r → r.state = "fail" → r.errors = some errs → errs ≠ [] →
        ((markResult sep data test result).1).error =
          some (String.intercalate "\n" (errs.map fun e => jsOr e.stack e.message))) ∧
    ((¬ ∃ r errs, result = some r ∧ r.state = "fail" ∧ r.errors = some errs ∧ errs ≠ []) →
        ((markResult sep data test result).1).error = test.error) := by
  have hmr : markResult sep data test result = markSuite test result := by
    unfold markResult
    cases data with
    | none => simp
    | some d =>
        cases d with
        | folder => simp
        | file fp pr => simp
        | suite f => simp
        | testCase f => exact absurd rfl (hdata f)
  rw [hmr]
  refine ⟨?_, ?_, ?_⟩
  · intro e he
    obtain ⟨m, hm⟩ := markSuite_snd_logVerbose test result e he
    subst hm
    rfl
  · intro r errs hr hst herr hne
    subst hr
    simp [markSuite, hst, herr, hne]
  · intro hno
    unfold markSuite
    cases result with
    | none => rfl
    | some r =>
        by_cases hst : r.state = "fail"
        · cases herr : r.errors with
          | none => simp [hst, herr]
          | some errs =>
              have herrs_nil : errs = [] := by
                by_contra hne
                exact hno ⟨r, errs, rfl, hst, herr, hne⟩
              subst herrs_nil
              simp [hst, herr]
        · simp [hst]

/-- Witness for C7: a suite node with a concrete failing result carrying two
errors gets its error field set to the joined stacks, with no pass/fail mark. -/
theorem markResult_suite_behavior_w :
    (∀ e ∈ (markResult "/" (some (TestData.suite "f")) testItemT1 (some failResult2)).2,
        e.isPassedOrFailed = false) ∧
    ((markResult "/" (some (TestData.suite "f")) testItemT1 (some failResult2)).1).error =
      some (String.intercalate "\n" ([sampleErr1, sampleErr1].map fun e => jsOr e.stack e.message)) :=
  ⟨(markResult_suite_behavior "/" (some (TestData.suite "f")) testItemT1 (some failResult2)
      (by intro fid h; simp at h)).1,
   (markResult_suite_behavior "/" (some (TestData.suite "f")) testItemT1 (some failResult2)
      (by intro fid h; simp at h)).2.1
     failResult2 [sampleErr1, sampleErr1] rfl rfl rfl (by simp)⟩

/-! ### Error message and location resolution (claim C8) -/

theorem parseLocationLoop_eq_find (sep target : String) (frames : List ParsedStack) :
    parseLocationLoop sep target frames =
      (frames.find? (stackFrameMatches sep target)).map
        (fun st => { path := replaceSlashes sep st.file, line := st.line.toInt,
                     column := st.column.toInt }) := by
  induction frames with
  | nil => simp [parseLocationLoop]
  | cons st rest ih =>
      by_cases h1 : replaceSlashes sep st.file = target
      · by_cases h2 : st.column.isNaN = true
        · have hm : ¬ (stackFrameMatches sep target st = true) := by
            simp [stackFrameMatches, h2]
          rw [List.find?_cons_of_neg _ hm, ← ih]
          simp [parseLocationLoop, h2]
        · by_cases h3 : st.line.isNaN = true
          · have hm : ¬ (stackFrameMatches sep target st = true) := by
              simp [stackFrameMatches, h3]
            rw [List.find?_cons_of_neg _ hm, ← ih]
            simp [parseLocationLoop, h3]
          · have hm : stackFrameMatches sep target st = true := by
              simp [stackFrameMatches, h1, h2, h3]
            rw [List.find?_cons_of_pos _ hm]
            simp [parseLocationLoop, h1, h2, h3]
      · have hm : ¬ (stackFrameMatches sep target st = true) := by
          simp [stackFrameMatches, h1]
        rw [List.find?_cons_of_neg _ hm, ← ih]
        simp [parseLocationLoop, h1]

/-- Claim C8: the resolver produces a structured diff message exactly when
both `actual` and `expected` are present and neither is the literal string
"undefined", and otherwise a plain message; in both cases the message text is
the ANSI-stripped error message.  The attached location is taken from the
first stack frame (after separator normalization) whose path equals the
node's file path with both coordinates valid numbers — `List.find?` over the
frames — and no location is attached when no frame matches. -/
theorem testMessage_diff_and_location (sep : String) (test : VItem) (err : TestErr) :
    ((testMessageForTestError sep test (some err)).diff.isSome = true ↔
       (err.actual.isSome = true ∧ err.expected.isSome = true ∧
        err.actual ≠ some "undefined" ∧ err.expected ≠ some "undefined")) ∧
    (testMessageForTestError sep test (some err)).message = stripAnsi err.message ∧
    (testMessageForTestError sep test (some err)).location =
      (parseLocationFromStacks sep test ((err.stackFrames).getD [])).map
        (fun loc => (loc.path, loc.line - 1, loc.column - 1)) ∧
    parseLocationFromStacks sep test ((err.stackFrames).getD []) =
      (((err.stackFrames).getD []).find? (stackFrameMatches sep ((test.uri).getD ""))).map
        (fun st => { path := replaceSlashes sep st.file, line := st.line.toInt,
                     column := st.column.toInt }) := by
  have hloc : parseLocationFromStacks sep test ((err.stackFrames).getD []) =
      (((err.stackFrames).getD []).find? (stackFrameMatches sep ((test.uri).getD ""))).map
        (fun st => { path := replaceSlashes sep st.file, line := st.line.toInt,
                     column := st.column.toInt }) := by
    unfold parseLocationFromStacks
    by_cases h : ((err.stackFrames).getD []).length = 0
    · have hnil : (err.stackFrames).getD [] = [] := List.eq_nil_of_length_eq_zero h
      simp [h, hnil]
    · simp [h, parseLocationLoop_eq_find]
  have heq : testMessageForTestError sep test (some err) =
      { message := stripAnsi err.message,
        diff := if err.actual.isSome = true ∧ err.expected.isSome = true ∧
                   err.actual ≠ some "undefined" ∧ err.expected ≠ some "undefined"
                then some ((err.expected).getD "", (err.actual).getD "") else none,
        location := (parseLocationFromStacks sep test ((err.stackFrames).getD [])).map
          (fun loc => (loc.path, loc.line - 1, loc.column - 1)) } := by
    unfold testMessageForTestError
    by_cases hc : err.actual.isSome = true ∧ err.expected.isSome = true ∧
        err.actual ≠ some "undefined" ∧ err.expected ≠ some "undefined"
    · cases hp : parseLocationFromStacks sep test ((err.stackFrames).getD []) with
      | none => simp [hc, hp]
      | some loc => simp [hc, hp]
    · cases hp : parseLocationFromStacks sep test ((err.stackFrames).getD []) with
      | none => simp [hc, hp]
      | some loc => simp [hc, hp]
  refine ⟨?_, by rw [heq], by rw [heq], hloc⟩
  rw [heq]
  by_cases hc : err.actual.isSome = true ∧ err.expected.isSome = true ∧
      err.actual ≠ some "undefined" ∧ err.expected ≠ some "undefined"
  · simp [hc]
  · simp [hc]

/-! ### File-item creation per project (claim C5) -/

theorem string_append_right_inj {p a b : String} (h : p ++ a = p ++ b) : a = b := by
  have hd : (p ++ a).data = (p ++ b).data := congrArg String.data h
  simp only [String.data_append] at hd
  have hd2 := List.append_cancel_left hd
  cases a with
  | mk da =>
      cases b with
      | mk db => exact congrArg String.mk hd2

theorem getItem?_update_byFile (s : TreeState) (l : List (String × List String)) (q : String) :
    getItem? { s with testItemsByFile := l } q = getItem? s q := rfl

theorem getItem?_update_fileItems (s : TreeState) (l : List (String × String)) (q : String) :
    getItem? { s with fileItems := l } q = getItem? s q := rfl

theorem getItem?_update_folderItems (s : TreeState) (l : List (String × String)) (q : String) :
    getItem? { s with folderItems := l } q = getItem? s q := rfl

theorem getItem?_update_flat (s : TreeState) (l : List (String × String)) (q : String) :
    getItem? { s with flatTestItems := l } q = getItem? s q := rfl

theorem getItem?_update_testData (s : TreeState) (l : List (String × TestData)) (q : String) :
    getItem? { s with testData := l } q = getItem? s q := rfl

theorem childrenAdd_flat (s : TreeState) (p c : String) :
    (childrenAdd s p c).flatTestItems = s.flatTestItems := by
  simp [childrenAdd, modifyItem_flat]

theorem childrenAdd_fileItems (s : TreeState) (p c : String) :
    (childrenAdd s p c).fileItems = s.fileItems := by
  simp [childrenAdd, modifyItem_fileItems]

theorem childrenAdd_folderItems (s : TreeState) (p c : String) :
    (childrenAdd s p c).folderItems = s.folderItems := by
  simp [childrenAdd, modifyItem_folderItems]

theorem childrenAdd_byFile (s : TreeState) (p c : String) :
    (childrenAdd s p c).testItemsByFile = s.testItemsByFile := by
  simp [childrenAdd, modifyItem_byFile]

theorem childrenAdd_testData (s : TreeState) (p c : String) :
    (childrenAdd s p c).testData = s.testData := by
  simp [childrenAdd, modifyItem_testData]

theorem getItem?_childrenAdd_other (s : TreeState) (p c q : String)
    (hp : q ≠ p) (hc : q ≠ c) :
    getItem? (childrenAdd s p c) q = getItem? s q := by
  unfold childrenAdd
  rw [getItem?_modifyItem_ne _ _ _ _ (Ne.symm hc), getItem?_modifyItem_ne _ _ _ _ (Ne.symm hp)]

theorem getItem?_childrenAdd_child (s : TreeState) (p c : String) (hpc : p ≠ c) :
    getItem? (childrenAdd s p c) c =
      (getItem? s c).map (fun it => { it with parent := some p }) := by
  unfold childrenAdd
  rw [getItem?_modifyItem_self, getItem?_modifyItem_ne _ _ _ _ hpc]

theorem folderTagMerge_flat (api : ApiHandle) (iid : String) (s : TreeState) :
    (folderTagMerge api iid s).flatTestItems = s.flatTestItems := by
  unfold folderTagMerge
  split
  · rfl
  · exact modifyItem_flat _ _ _

theorem folderTagMerge_fileItems (api : ApiHandle) (iid : String) (s : TreeState) :
    (folderTagMerge api iid s).fileItems = s.fileItems := by
  unfold folderTagMerge
  split
  · rfl
  · exact modifyItem_fileItems _ _ _

theorem folderTagMerge_folderItems (api : ApiHandle) (iid : String) (s : TreeState) :
    (folderTagMerge api iid s).folderItems = s.folderItems := by
  unfold folderTagMerge
  split
  · rfl
  · exact modifyItem_folderItems _ _ _

theorem folderTagMerge_byFile (api : ApiHandle) (iid : String) (s : TreeState) :
    (folderTagMerge api iid s).testItemsByFile = s.testItemsByFile := by
  unfold folderTagMerge
  split
  · rfl
  · exact modifyItem_byFile _ _ _

theorem folderTagMerge_testData (api : ApiHandle) (iid : String) (s : TreeState) :
    (folderTagMerge api iid s).testData = s.testData := by
  unfold folderTagMerge
  split
  · rfl
  · exact modifyItem_testData _ _ _

theorem getItem?_folderTagMerge_ne (api : ApiHandle) (iid q : String) (s : TreeState)
    (h : iid ≠ q) : getItem? (folderTagMerge api iid s) q = getItem? s q := by
  unfold folderTagMerge
  split
  · rfl
  · exact getItem?_modifyItem_ne _ _ _ _ h

theorem fileItemCreate_folderItems (api : ApiHandle) (project file parentId : String)
    (s : TreeState) :
    (fileItemCreate api project file parentId s).folderItems = s.folderItems := by
  simp [fileItemCreate, childrenAdd_folderItems, setItem_folderItems]

theorem fileItemCreate_flat (api : ApiHandle) (project file parentId : String)
    (s : TreeState) :
    (fileItemCreate api project file parentId s).flatTestItems = s.flatTestItems := by
  simp [fileItemCreate, childrenAdd_flat, setItem_flat]

theorem fileItemCreate_fileItems_self (api : ApiHandle) (project file parentId : String)
    (s : TreeState) :
    alookup (fileItemCreate api project file parentId s).fileItems
      (normalize file ++ project) = some (normalize file ++ project) := by
  simp [fileItemCreate, childrenAdd_fileItems, setItem_fileItems, alookup_ainsert]

theorem fileItemCreate_fileItems_other (api : ApiHandle) (project file parentId k : String)
    (s : TreeState) (h : k ≠ normalize file ++ project) :
    alookup (fileItemCreate api project file parentId s).fileItems k =
      alookup s.fileItems k := by
  simp [fileItemCreate, childrenAdd_fileItems, setItem_fileItems, alookup_ainsert,
        Ne.symm h]

theorem fileItemCreate_byFile_self (api : ApiHandle) (project file parentId : String)
    (s : TreeState) :
    alookup (fileItemCreate api project file parentId s).testItemsByFile (normalize file) =
      some ((alookup s.testItemsByFile (normalize file)).getD []
              ++ [normalize file ++ project]) := by
  simp [fileItemCreate, childrenAdd_byFile, setItem_byFile, alookup_ainsert]

theorem fileItemCreate_byFile_other (api : ApiHandle) (project file parentId k : String)
    (s : TreeState) (h : k ≠ normalize file) :
    alookup (fileItemCreate api project file parentId s).testItemsByFile k =
      alookup s.testItemsByFile k := by
  simp [fileItemCreate, childrenAdd_byFile, setItem_byFile, alookup_ainsert, Ne.symm h]

theorem fileItemCreate_testData_self (api : ApiHandle) (project file parentId : String)
    (s : TreeState) :
    alookup (fileItemCreate api project file parentId s).testData
      (normalize file ++ project) = some (TestData.file (normalize file) project) := by
  simp [fileItemCreate, childrenAdd_testData, setItem_testData, alookup_ainsert]

theorem getItem?_fileItemCreate_self (api : ApiHandle) (project file parentId : String)
    (s : TreeState) (h : parentId ≠ normalize file ++ project) :
    getItem? (fileItemCreate api project file parentId s) (normalize file ++ project) =
      some { newTestItem (normalize file ++ project)
               (if project ≠ "" then "[" ++ project ++ "] " ++ basename file
                else basename file)
               (some file) with
             tags := [api.tag], canResolveChildren := true, parent := some parentId } := by
  show getItem?
      (childrenAdd
        { setItem s (normalize file ++ project)
            { newTestItem (normalize file ++ project)
                (if project ≠ "" then "[" ++ project ++ "] " ++ basename file
                 else basename file)
                (some file) with
              tags := [api.tag], canResolveChildren := true } with
          testData := ainsert s.testData (normalize file ++ project)
                        (TestData.file (normalize file) project) }
        parentId (normalize file ++ project))
      (normalize file ++ project) = _
  rw [getItem?_childrenAdd_child _ _ _ h, getItem?_update_testData, getItem?_setItem_self]
  rfl

theorem getItem?_fileItemCreate_other (api : ApiHandle) (project file parentId q : String)
    (s : TreeState) (h1 : q ≠ normalize file ++ project) (h2 : q ≠ parentId) :
    getItem? (fileItemCreate api project file parentId s) q = getItem? s q := by
  show getItem?
      (childrenAdd
        { setItem s (normalize file ++ project)
            { newTestItem (normalize file ++ project)
                (if project ≠ "" then "[" ++ project ++ "] " ++ basename file
                 else basename file)
                (some file) with
              tags := [api.tag], canResolveChildren := true } with
          testData := ainsert s.testData (normalize file ++ project)
                        (TestData.file (normalize file) project) }
        parentId (normalize file ++ project)) q = _
  rw [getItem?_childrenAdd_other _ _ _ _ h2 h1, getItem?_update_testData,
      getItem?_setItem_ne _ _ _ _ (Ne.symm h1)]

theorem getOrCreateFolderTestItem_cached (api : ApiHandle) (fuel : Nat)
    (nf : String) (s : TreeState) (iid : String)
    (h : alookup s.folderItems nf = some iid) :
    getOrCreateFolderTestItem api fuel nf s = some (iid, folderTagMerge api iid s) := by
  cases fuel <;> simp [getOrCreateFolderTestItem, h]

theorem getOrCreateFileTestItem_cached (api : ApiHandle) (fuel : Nat)
    (project file : String) (s : TreeState) (iid : String)
    (h : alookup s.fileItems (normalize file ++ project) = some iid) :
    getOrCreateFileTestItem api fuel project file s = some (iid, s) := by
  simp [getOrCreateFileTestItem, h]

theorem getOrCreateFileTestItem_create (api : ApiHandle) (fuel : Nat)
    (project file : String) (s : TreeState) (pid : String)
    (hfile : alookup s.fileItems (normalize file ++ project) = none)
    (hfolder : alookup s.folderItems (dirname file) = some pid) :
    getOrCreateFileTestItem api fuel project file s =
      some (normalize file ++ project,
            fileItemCreate api project file pid (folderTagMerge api pid s)) := by
  simp [getOrCreateFileTestItem, hfile,
        getOrCreateFolderTestItem_cached api fuel _ s pid hfolder, Option.bind]

/-- Claim C5: for a normalized path and two distinct project names, the tree
creates two distinct file nodes keyed by `normalize(path) ++ project`; both
get recorded in the by-path multimap; requesting `(path, A)` afterwards
returns A's node (never B's, whose id differs); and each node's label is
`[project] basename` for a non-empty project name, else just the basename. -/
theorem fileTestItem_per_project
    (api1 api2 : ApiHandle) (fuel : Nat) (A B file : String) (s : TreeState) (pid : String)
    (hnorm : normalize file = file) (hAB : A ≠ B)
    (hfa : alookup s.fileItems (file ++ A) = none)
    (hfb : alookup s.fileItems (file ++ B) = none)
    (hfolder : alookup s.folderItems (dirname file) = some pid)
    (hpA : pid ≠ file ++ A) (hpB : pid ≠ file ++ B) :
    ∃ s1 s2,
      getOrCreateFileTestItem api1 fuel A file s = some (file ++ A, s1) ∧
      getOrCreateFileTestItem api2 fuel B file s1 = some (file ++ B, s2) ∧
      file ++ A ≠ file ++ B ∧
      (∃ l, alookup s2.testItemsByFile file = some l ∧ file ++ A ∈ l ∧ file ++ B ∈ l) ∧
      getOrCreateFileTestItem api1 fuel A file s2 = some (file ++ A, s2) ∧
      (∃ itA, getItem? s2 (file ++ A) = some itA ∧
          itA.label = (if A ≠ "" then "[" ++ A ++ "] " ++ basename file
                       else basename file)) ∧
      (∃ itB, getItem? s2 (file ++ B) = some itB ∧
          itB.label = (if B ≠ "" then "[" ++ B ++ "] " ++ basename file
                       else basename file)) := by
  have hABfull : file ++ A ≠ file ++ B := fun h => hAB (string_append_right_inj h)
  refine ⟨fileItemCreate api1 A file pid (folderTagMerge api1 pid s),
          fileItemCreate api2 B file pid (folderTagMerge api2 pid
            (fileItemCreate api1 A file pid (folderTagMerge api1 pid s))),
          ?_, ?_, hABfull, ?_, ?_, ?_, ?_⟩
  case _ =>
    have h := getOrCreateFileTestItem_create api1 fuel A file s pid
      (by rw [hnorm]; exact hfa) hfolder
    rw [hnorm] at h
    exact h
  case _ =>
    have hfile2 : alookup (fileItemCreate api1 A file pid
        (folderTagMerge api1 pid s)).fileItems (normalize file ++ B) = none := by
      rw [hnorm]
      rw [fileItemCreate_fileItems_other api1 A file pid _ _ (by rw [hnorm]; exact Ne.symm hABfull)]
      rw [folderTagMerge_fileItems]
      exact hfb
    have hfolder2 : alookup (fileItemCreate api1 A file pid
        (folderTagMerge api1 pid s)).folderItems (dirname file) = some pid := by
      rw [fileItemCreate_folderItems, folderTagMerge_folderItems]
      exact hfolder
    have h := getOrCreateFileTestItem_create api2 fuel B file _ pid hfile2 hfolder2
    rw [hnorm] at h
    exact h
  case _ =>
    refine ⟨(alookup s.testItemsByFile file).getD [] ++ [file ++ A] ++ [file ++ B],
            ?_, by simp, by simp⟩
    have hb2 := fileItemCreate_byFile_self api2 B file pid
      (folderTagMerge api2 pid (fileItemCreate api1 A file pid (folderTagMerge api1 pid s)))
    rw [hnorm] at hb2
    rw [folderTagMerge_byFile] at hb2
    have hb1 := fileItemCreate_byFile_self api1 A file pid (folderTagMerge api1 pid s)
    rw [hnorm] at hb1
    rw [folderTagMerge_byFile] at hb1
    rw [hb1] at hb2
    simpa using hb2
  case _ =>
    apply getOrCreateFileTestItem_cached
    rw [hnorm]
    rw [fileItemCreate_fileItems_other api2 B file pid _ _ (by rw [hnorm]; exact hABfull)]
    rw [folderTagMerge_fileItems]
    have := fileItemCreate_fileItems_self api1 A file pid (folderTagMerge api1 pid s)
    rw [hnorm] at this
    exact this
  case _ =>
    have hA : getItem? (fileItemCreate api2 B file pid (folderTagMerge api2 pid
        (fileItemCreate api1 A file pid (folderTagMerge api1 pid s)))) (file ++ A) =
        some { newTestItem (file ++ A)
                 (if A ≠ "" then "[" ++ A ++ "] " ++ basename file else basename file)
                 (some file) with
               tags := [api1.tag], canResolveChildren := true, parent := some pid } := by
      rw [getItem?_fileItemCreate_other api2 B file pid _ _
            (by rw [hnorm]; exact hABfull) (Ne.symm hpA)]
      rw [getItem?_folderTagMerge_ne api2 pid _ _ hpA]
      have hself := getItem?_fileItemCreate_self api1 A file pid (folderTagMerge api1 pid s)
        (by rw [hnorm]; exact hpA)
      rw [hnorm] at hself
      exact hself
    exact ⟨_, hA, rfl⟩
  case _ =>
    have hB : getItem? (fileItemCreate api2 B file pid (folderTagMerge api2 pid
        (fileItemCreate api1 A file pid (folderTagMerge api1 pid s)))) (file ++ B) =
        some { newTestItem (file ++ B)
                 (if B ≠ "" then "[" ++ B ++ "] " ++ basename file else basename file)
                 (some file) with
               tags := [api2.tag], canResolveChildren := true, parent := some pid } := by
      have hself := getItem?_fileItemCreate_self api2 B file pid
        (folderTagMerge api2 pid (fileItemCreate api1 A file pid (folderTagMerge api1 pid s)))
        (by rw [hnorm]; exact hpB)
      rw [hnorm] at hself
      exact hself
    exact ⟨_, hB, rfl⟩

/-- Witness for C5 on a concrete workspace state with projects `p1` and `p2`. -/
theorem fileTestItem_per_project_w :
    (normalize "/ws/a.test.js" = "/ws/a.test.js" ∧ ("p1" : String) ≠ "p2" ∧
     alookup baseState.fileItems ("/ws/a.test.js" ++ "p1") = none ∧
     alookup baseState.fileItems ("/ws/a.test.js" ++ "p2") = none ∧
     alookup baseState.folderItems (dirname "/ws/a.test.js") = some "/ws" ∧
     ("/ws" : String) ≠ "/ws/a.test.js" ++ "p1" ∧
     ("/ws" : String) ≠ "/ws/a.test.js" ++ "p2") ∧
    (∃ s1 s2,
      getOrCreateFileTestItem apiA 1 "p1" "/ws/a.test.js" baseState =
        some ("/ws/a.test.js" ++ "p1", s1) ∧
      getOrCreateFileTestItem apiB 1 "p2" "/ws/a.test.js" s1 =
        some ("/ws/a.test.js" ++ "p2", s2) ∧
      ("/ws/a.test.js" ++ "p1" : String) ≠ "/ws/a.test.js" ++ "p2" ∧
      (∃ l, alookup s2.testItemsByFile "/ws/a.test.js" = some l ∧
            "/ws/a.test.js" ++ "p1" ∈ l ∧ "/ws/a.test.js" ++ "p2" ∈ l) ∧
      getOrCreateFileTestItem apiA 1 "p1" "/ws/a.test.js" s2 =
        some ("/ws/a.test.js" ++ "p1", s2) ∧
      (∃ itA, getItem? s2 ("/ws/a.test.js" ++ "p1") = some itA ∧
          itA.label = (if ("p1" : String) ≠ "" then "[" ++ "p1" ++ "] " ++ basename "/ws/a.test.js"
                       else basename "/ws/a.test.js")) ∧
      (∃ itB, getItem? s2 ("/ws/a.test.js" ++ "p2") = some itB ∧
          itB.label = (if ("p2" : String) ≠ "" then "[" ++ "p2" ++ "] " ++ basename "/ws/a.test.js"
                       else basename "/ws/a.test.js"))) :=
  ⟨⟨by decide, by decide, rfl, rfl, by decide, by decide, by decide⟩,
   fileTestItem_per_project apiA apiB 1 "p1" "p2" "/ws/a.test.js" baseState "/ws"
     (by decide) (by decide) rfl rfl (by decide) (by decide) (by decide)⟩

/-! ### Step lemmas for the collectTasks loop body -/

theorem isSome_map_of (o : Option VItem) (f : VItem → VItem) :
    o.isSome = true → (o.map f).isSome = true := by
  cases o <;> simp

theorem getItem?_setFlatItem (s : TreeState) (k v q : String) :
    getItem? (setFlatItem s k v) q = getItem? s q := rfl

theorem setFlatItem_flat (s : TreeState) (k v : String) :
    (setFlatItem s k v).flatTestItems = ainsert s.flatTestItems k v := rfl

theorem setFlatItem_fileItems (s : TreeState) (k v : String) :
    (setFlatItem s k v).fileItems = s.fileItems := rfl

theorem setFlatItem_folderItems (s : TreeState) (k v : String) :
    (setFlatItem s k v).folderItems = s.folderItems := rfl

theorem setFlatItem_byFile (s : TreeState) (k v : String) :
    (setFlatItem s k v).testItemsByFile = s.testItemsByFile := rfl

theorem setFlatItem_testData (s : TreeState) (k v : String) :
    (setFlatItem s k v).testData = s.testData := rfl

theorem getItem?_setTaskFields_ne (tag : String) (t : VTask) (pt : List String)
    (i q : String) (s : TreeState) (h : i ≠ q) :
    getItem? (setTaskFields tag t pt i s) q = getItem? s q :=
  getItem?_modifyItem_ne _ _ _ _ h

theorem getItem?_setTaskFields_self (tag : String) (t : VTask) (pt : List String)
    (i : String) (s : TreeState) :
    getItem? (setTaskFields tag t pt i s) i =
      (getItem? s i).map fun it =>
        { it with tags := dedupFirst (pt ++ [tag]), error := none, label := t.name } :=
  getItem?_modifyItem_self _ _ _

theorem setTaskFields_flat (tag : String) (t : VTask) (pt : List String)
    (i : String) (s : TreeState) :
    (setTaskFields tag t pt i s).flatTestItems = s.flatTestItems :=
  modifyItem_flat _ _ _

theorem setTaskFields_fileItems (tag : String) (t : VTask) (pt : List String)
    (i : String) (s : TreeState) :
    (setTaskFields tag t pt i s).fileItems = s.fileItems :=
  modifyItem_fileItems _ _ _

theorem setTaskFields_folderItems (tag : String) (t : VTask) (pt : List String)
    (i : String) (s : TreeState) :
    (setTaskFields tag t pt i s).folderItems = s.folderItems :=
  modifyItem_folderItems _ _ _

theorem setTaskFields_byFile (tag : String) (t : VTask) (pt : List String)
    (i : String) (s : TreeState) :
    (setTaskFields tag t pt i s).testItemsByFile = s.testItemsByFile :=
  modifyItem_byFile _ _ _

theorem setTaskFields_testData (tag : String) (t : VTask) (pt : List String)
    (i : String) (s : TreeState) :
    (setTaskFields tag t pt i s).testData = s.testData :=
  modifyItem_testData _ _ _

theorem getItem?_setTaskLocation_ne (t : VTask) (i q : String) (s : TreeState)
    (h : i ≠ q) : getItem? (setTaskLocation t i s) q = getItem? s q := by
  unfold setTaskLocation
  cases t.location
  · exact getItem?_modifyItem_ne _ _ _ _ h
  · exact getItem?_modifyItem_ne _ _ _ _ h

theorem setTaskLocation_flat (t : VTask) (i : String) (s : TreeState) :
    (setTaskLocation t i s).flatTestItems = s.flatTestItems := by
  unfold setTaskLocation
  cases t.location
  · exact modifyItem_flat _ _ _
  · exact modifyItem_flat _ _ _

theorem setTaskLocation_fileItems (t : VTask) (i : String) (s : TreeState) :
    (setTaskLocation t i s).fileItems = s.fileItems := by
  unfold setTaskLocation
  cases t.location
  · exact modifyItem_fileItems _ _ _
  · exact modifyItem_fileItems _ _ _

theorem setTaskLocation_folderItems (t : VTask) (i : String) (s : TreeState) :
    (setTaskLocation t i s).folderItems = s.folderItems := by
  unfold setTaskLocation
  cases t.location
  · exact modifyItem_folderItems _ _ _
  · exact modifyItem_folderItems _ _ _

theorem setTaskLocation_byFile (t : VTask) (i : String) (s : TreeState) :
    (setTaskLocation t i s).testItemsByFile = s.testItemsByFile := by
  unfold setTaskLocation
  cases t.location
  · exact modifyItem_byFile _ _ _
  · exact modifyItem_byFile _ _ _

theorem setTaskLocation_testData (t : VTask) (i : String) (s : TreeState) :
    (setTaskLocation t i s).testData = s.testData := by
  unfold setTaskLocation
  cases t.location
  · exact modifyItem_testData _ _ _
  · exact modifyItem_testData _ _ _

theorem getItem?_registerTaskData (fd ty i : String) (s : TreeState) (q : String) :
    getItem? (registerTaskData fd ty i s) q = getItem? s q := by
  unfold registerTaskData
  split
  · rfl
  · split
    · rfl
    · rfl

theorem registerTaskData_flat (fd ty i : String) (s : TreeState) :
    (registerTaskData fd ty i s).flatTestItems = s.flatTestItems := by
  unfold registerTaskData
  split
  · rfl
  · split
    · rfl
    · rfl

theorem registerTaskData_fileItems (fd ty i : String) (s : TreeState) :
    (registerTaskData fd ty i s).fileItems = s.fileItems := by
  unfold registerTaskData
  split
  · rfl
  · split
    · rfl
    · rfl

theorem registerTaskData_folderItems (fd ty i : String) (s : TreeState) :
    (registerTaskData fd ty i s).folderItems = s.folderItems := by
  unfold registerTaskData
  split
  · rfl
  · split
    · rfl
    · rfl

theorem registerTaskData_byFile (fd ty i : String) (s : TreeState) :
    (registerTaskData fd ty i s).testItemsByFile = s.testItemsByFile := by
  unfold registerTaskData
  split
  · rfl
  · split
    · rfl
    · rfl

theorem registerTaskData_testData_other (fd ty i : String) (s : TreeState)
    (q : String) (h : i ≠ q) :
    alookup (registerTaskData fd ty i s).testData q = alookup s.testData q := by
  unfold registerTaskData
  split
  · simp [alookup_ainsert, h]
  · split
    · simp [alookup_ainsert, h]
    · rfl

theorem registerTaskData_suite (fd ty i : String) (s : TreeState) (h : ty = "suite") :
    alookup (registerTaskData fd ty i s).testData i = some (TestData.suite fd) := by
  unfold registerTaskData
  rw [if_pos h]
  simp [alookup_ainsert]

theorem registerTaskData_testCase (fd ty i : String) (s : TreeState)
    (h : ty = "test" ∨ ty = "custom") (hns : ty ≠ "suite") :
    alookup (registerTaskData fd ty i s).testData i = some (TestData.testCase fd) := by
  unfold registerTaskData
  rw [if_neg hns, if_pos h]
  simp [alookup_ainsert]

theorem getItem?_setTaskResultError_ne (t : VTask) (i q : String) (s : TreeState)
    (h : i ≠ q) : getItem? (setTaskResultError t i s) q = getItem? s q := by
  unfold setTaskResultError
  cases t.result with
  | none => rfl
  | some r =>
      dsimp only
      cases r.errors with
      | none => rfl
      | some errs => exact getItem?_modifyItem_ne _ _ _ _ h

theorem setTaskResultError_flat (t : VTask) (i : String) (s : TreeState) :
    (setTaskResultError t i s).flatTestItems = s.flatTestItems := by
  unfold setTaskResultError
  cases t.result with
  | none => rfl
  | some r =>
      dsimp only
      cases r.errors with
      | none => rfl
      | some errs => exact modifyItem_flat _ _ _

theorem setTaskResultError_fileItems (t : VTask) (i : String) (s : TreeState) :
    (setTaskResultError t i s).fileItems = s.fileItems := by
  unfold setTaskResultError
  cases t.result with
  | none => rfl
  | some r =>
      dsimp only
      cases r.errors with
      | none => rfl
      | some errs => exact modifyItem_fileItems _ _ _

theorem setTaskResultError_folderItems (t : VTask) (i : String) (s : TreeState) :
    (setTaskResultError t i s).folderItems = s.folderItems := by
  unfold setTaskResultError
  cases t.result with
  | none => rfl
  | some r =>
      dsimp only
      cases r.errors with
      | none => rfl
      | some errs => exact modifyItem_folderItems _ _ _

theorem setTaskResultError_byFile (t : VTask) (i : String) (s : TreeState) :
    (setTaskResultError t i s).testItemsByFile = s.testItemsByFile := by
  unfold setTaskResultError
  cases t.result with
  | none => rfl
  | some r =>
      dsimp only
      cases r.errors with
      | none => rfl
      | some errs => exact modifyItem_byFile _ _ _

theorem setTaskResultError_testData (t : VTask) (i : String) (s : TreeState) :
    (setTaskResultError t i s).testData = s.testData := by
  unfold setTaskResultError
  cases t.result with
  | none => rfl
  | some r =>
      dsimp only
      cases r.errors with
      | none => rfl
      | some errs => exact modifyItem_testData _ _ _

theorem getItem?_childrenAdd_parent (s : TreeState) (p c : String) (hpc : p ≠ c) :
    getItem? (childrenAdd s p c) p =
      (getItem? s p).map (fun it =>
        if c ∈ it.children then it
        else { it with children := it.children ++ [c] }) := by
  unfold childrenAdd
  rw [getItem?_modifyItem_ne _ _ _ _ (fun h => hpc h.symm), getItem?_modifyItem_self]

theorem collectTaskFields_eq (tag fd : String) (t : VTask) (parentId : String)
    (pt : List String) (itemId : String) (s : TreeState) :
    collectTaskFields tag fd t parentId pt itemId s =
      setTaskResultError t itemId
        (childrenAdd
          (setFlatItem
            (registerTaskData fd t.ttype itemId
              (setTaskLocation t itemId (setTaskFields tag t pt itemId s)))
            t.id itemId)
          parentId itemId) := rfl

theorem collectTaskFields_flat (tag fd : String) (t : VTask) (parentId : String)
    (pt : List String) (itemId : String) (s : TreeState) :
    (collectTaskFields tag fd t parentId pt itemId s).flatTestItems =
      ainsert s.flatTestItems t.id itemId := by
  rw [collectTaskFields_eq, setTaskResultError_flat, childrenAdd_flat, setFlatItem_flat,
      registerTaskData_flat, setTaskLocation_flat, setTaskFields_flat]

theorem collectTaskFields_fileItems (tag fd : String) (t : VTask) (parentId : String)
    (pt : List String) (itemId : String) (s : TreeState) :
    (collectTaskFields tag fd t parentId pt itemId s).fileItems = s.fileItems := by
  rw [collectTaskFields_eq, setTaskResultError_fileItems, childrenAdd_fileItems,
      setFlatItem_fileItems, registerTaskData_fileItems, setTaskLocation_fileItems,
      setTaskFields_fileItems]

theorem collectTaskFields_folderItems (tag fd : String) (t : VTask) (parentId : String)
    (pt : List String) (itemId : String) (s : TreeState) :
    (collectTaskFields tag fd t parentId pt itemId s).folderItems = s.folderItems := by
  rw [collectTaskFields_eq, setTaskResultError_folderItems, childrenAdd_folderItems,
      setFlatItem_folderItems, registerTaskData_folderItems, setTaskLocation_folderItems,
      setTaskFields_folderItems]

theorem collectTaskFields_byFile (tag fd : String) (t : VTask) (parentId : String)
    (pt : List String) (itemId : String) (s : TreeState) :
    (collectTaskFields tag fd t parentId pt itemId s).testItemsByFile =
      s.testItemsByFile := by
  rw [collectTaskFields_eq, setTaskResultError_byFile, childrenAdd_byFile,
      setFlatItem_byFile, registerTaskData_byFile, setTaskLocation_byFile,
      setTaskFields_byFile]

theorem collectTaskFields_testData_other (tag fd : String) (t : VTask) (parentId : String)
    (pt : List String) (itemId : String) (s : TreeState) (q : String) (h : itemId ≠ q) :
    alookup (collectTaskFields tag fd t parentId pt itemId s).testData q =
      alookup s.testData q := by
  rw [collectTaskFields_eq, setTaskResultError_testData, childrenAdd_testData,
      setFlatItem_testData, registerTaskData_testData_other _ _ _ _ _ h,
      setTaskLocation_testData, setTaskFields_testData]

theorem collectTaskFields_testData_suite (tag fd : String) (t : VTask) (parentId : String)
    (pt : List String) (itemId : String) (s : TreeState) (h : t.ttype = "suite") :
    alookup (collectTaskFields tag fd t parentId pt itemId s).testData itemId =
      some (TestData.suite fd) := by
  rw [collectTaskFields_eq, setTaskResultError_testData, childrenAdd_testData,
      setFlatItem_testData, registerTaskData_suite _ _ _ _ h]

theorem collectTaskFields_testData_testCase (tag fd : String) (t : VTask)
    (parentId : String) (pt : List String) (itemId : String) (s : TreeState)
    (h : t.ttype = "test" ∨ t.ttype = "custom") (hns : t.ttype ≠ "suite") :
    alookup (collectTaskFields tag fd t parentId pt itemId s).testData itemId =
      some (TestData.testCase fd) := by
  rw [collectTaskFields_eq, setTaskResultError_testData, childrenAdd_testData,
      setFlatItem_testData, registerTaskData_testCase _ _ _ _ h hns]

theorem getItem?_collectTaskFields_other (tag fd : String) (t : VTask) (parentId : String)
    (pt : List String) (itemId : String) (s : TreeState) (q : String)
    (h1 : q ≠ itemId) (h2 : q ≠ parentId) :
    getItem? (collectTaskFields tag fd t parentId pt itemId s) q = getItem? s q := by
  rw [collectTaskFields_eq,
      getItem?_setTaskResultError_ne _ _ _ _ (fun h => h1 h.symm),
      getItem?_childrenAdd_other _ _ _ _ h2 h1, getItem?_setFlatItem,
      getItem?_registerTaskData, getItem?_setTaskLocation_ne _ _ _ _ (fun h => h1 h.symm),
      getItem?_setTaskFields_ne _ _ _ _ _ _ (fun h => h1 h.symm)]

theorem getItem?_collectTaskFields_parent (tag fd : String) (t : VTask) (parentId : String)
    (pt : List String) (itemId : String) (s : TreeState) (hne : parentId ≠ itemId) :
    getItem? (collectTaskFields tag fd t parentId pt itemId s) parentId =
      (getItem? s parentId).map (fun it =>
        if itemId ∈ it.children then it
        else { it with children := it.children ++ [itemId] }) := by
  rw [collectTaskFields_eq,
      getItem?_setTaskResultError_ne _ _ _ _ (fun h => hne h.symm),
      getItem?_childrenAdd_parent _ _ _ hne, getItem?_setFlatItem,
      getItem?_registerTaskData, getItem?_setTaskLocation_ne _ _ _ _ (fun h => hne h.symm),
      getItem?_setTaskFields_ne _ _ _ _ _ _ (fun h => hne h.symm)]

theorem getItem?_collectTaskFields_self (tag fd : String) (t : VTask) (parentId : String)
    (pt : List String) (itemId : String) (s : TreeState) (b : VItem)
    (hne : parentId ≠ itemId) (hpres : getItem? s itemId = some b) :
    getItem? (collectTaskFields tag fd t parentId pt itemId s) itemId =
      some (taskItemAfter tag t pt parentId b) := by
  rw [collectTaskFields_eq]
  unfold setTaskResultError taskItemAfter
  cases hres : t.result with
  | none =>
      rw [getItem?_childrenAdd_child _ _ _ hne, getItem?_setFlatItem,
          getItem?_registerTaskData]
      unfold setTaskLocation
      cases hloc : t.location with
      | none =>
          rw [getItem?_modifyItem_self, getItem?_setTaskFields_self, hpres]
          rfl
      | some loc =>
          rw [getItem?_modifyItem_self, getItem?_setTaskFields_self, hpres]
          rfl
  | some r =>
      dsimp only
      cases herr : r.errors with
      | none =>
          rw [getItem?_childrenAdd_child _ _ _ hne, getItem?_setFlatItem,
              getItem?_registerTaskData]
          unfold setTaskLocation
          cases hloc : t.location with
          | none =>
              rw [getItem?_modifyItem_self, getItem?_setTaskFields_self, hpres]
              rfl
          | some loc =>
              rw [getItem?_modifyItem_self, getItem?_setTaskFields_self, hpres]
              rfl
      | some errs =>
          rw [getItem?_modifyItem_self, getItem?_childrenAdd_child _ _ _ hne,
              getItem?_setFlatItem, getItem?_registerTaskData]
          unfold setTaskLocation
          cases hloc : t.location with
          | none =>
              rw [getItem?_modifyItem_self, getItem?_setTaskFields_self, hpres]
              rfl
          | some loc =>
              rw [getItem?_modifyItem_self, getItem?_setTaskFields_self, hpres]
              rfl

theorem taskItemAfter_fields (tag : String) (t : VTask) (pt : List String)
    (p : String) (b : VItem) :
    (taskItemAfter tag t pt p b).label = t.name ∧
    (taskItemAfter tag t pt p b).tags = dedupFirst (pt ++ [tag]) ∧
    (taskItemAfter tag t pt p b).error = expectedError t ∧
    (taskItemAfter tag t pt p b).parent = some p ∧
    (match t.location with
     | some loc => (taskItemAfter tag t pt p b).range = some (loc.line - 1, loc.column)
     | none => (taskItemAfter tag t pt p b).sortText = some t.id) ∧
    (taskItemAfter tag t pt p b).children = b.children := by
  unfold taskItemAfter expectedError
  cases hloc : t.location with
  | none =>
      cases hres : t.result with
      | none => exact ⟨rfl, rfl, rfl, rfl, rfl, rfl⟩
      | some r =>
          dsimp only
          cases herr : r.errors with
          | none => exact ⟨rfl, rfl, rfl, rfl, rfl, rfl⟩
          | some errs => exact ⟨rfl, rfl, rfl, rfl, rfl, rfl⟩
  | some loc =>
      cases hres : t.result with
      | none => exact ⟨rfl, rfl, rfl, rfl, rfl, rfl⟩
      | some r =>
          dsimp only
          cases herr : r.errors with
          | none => exact ⟨rfl, rfl, rfl, rfl, rfl, rfl⟩
          | some errs => exact ⟨rfl, rfl, rfl, rfl, rfl, rfl⟩

theorem collectTaskItem_hit (tag fd : String) (t : VTask) (parentId : String)
    (s : TreeState) (iid : String) (h : alookup s.flatTestItems t.id = some iid) :
    collectTaskItem tag fd t parentId s =
      (iid, collectTaskFields tag fd t parentId (getItem s parentId).tags iid s) := by
  simp [collectTaskItem, h]

theorem collectTaskItem_miss (tag fd : String) (t : VTask) (parentId : String)
    (s : TreeState) (h : alookup s.flatTestItems t.id = none) :
    collectTaskItem tag fd t parentId s =
      (t.id, collectTaskFields tag fd t parentId (getItem s parentId).tags t.id
        (setItem s t.id (newTestItem t.id t.name (getItem s parentId).uri))) := by
  simp [collectTaskItem, h]

/-! ### Heap-update composition and monotonicity lemmas -/

theorem ainsert_ainsert {α : Type} (l : List (String × α)) (k : String) (v w : α) :
    ainsert (ainsert l k v) k w = ainsert l k w := by
  induction l with
  | nil => simp [ainsert]
  | cons kv rest ih =>
      obtain ⟨k0, v0⟩ := kv
      by_cases h0 : k0 = k
      · subst h0
        simp [ainsert]
      · simp [ainsert, h0, ih]

theorem modifyItem_items (s : TreeState) (i : String) (f : VItem → VItem) :
    (modifyItem s i f).items = aUpdate s.items i f := by
  unfold modifyItem aUpdate getItem?
  cases alookup s.items i <;> rfl

theorem setItem_items (s : TreeState) (i : String) (it : VItem) :
    (setItem s i it).items = ainsert s.items i it := rfl

theorem alookup_aUpdate_self (l : List (String × VItem)) (i : String) (f : VItem → VItem) :
    alookup (aUpdate l i f) i = (alookup l i).map f := by
  unfold aUpdate
  cases h : alookup l i with
  | none => simp [h]
  | some it => simp [alookup_ainsert]

theorem alookup_aUpdate_ne (l : List (String × VItem)) (i j : String) (f : VItem → VItem)
    (h : i ≠ j) : alookup (aUpdate l i f) j = alookup l j := by
  unfold aUpdate
  cases hx : alookup l i with
  | none => rfl
  | some it => simp [alookup_ainsert, h]

theorem aUpdate_fuse (l : List (String × VItem)) (i : String) (f g : VItem → VItem) :
    aUpdate (aUpdate l i f) i g = aUpdate l i (fun it => g (f it)) := by
  unfold aUpdate
  cases hx : alookup l i with
  | none => simp [hx]
  | some it => simp [alookup_ainsert, ainsert_ainsert]

theorem aUpdate_of_fixed (l : List (String × VItem)) (i : String) (f : VItem → VItem)
    (h : ∀ it, alookup l i = some it → f it = it) : aUpdate l i f = l := by
  unfold aUpdate
  cases hx : alookup l i with
  | none => rfl
  | some it =>
      dsimp only
      rw [h it hx]
      exact ainsert_self _ _ _ hx

theorem getItem?_isSome_modifyItem (s : TreeState) (i : String) (f : VItem → VItem)
    (q : String) (h : (getItem? s q).isSome = true) :
    (getItem? (modifyItem s i f) q).isSome = true := by
  by_cases hiq : i = q
  · subst hiq
    rw [getItem?_modifyItem_self]
    exact isSome_map_of _ _ h
  · rw [getItem?_modifyItem_ne _ _ _ _ hiq]
    exact h

theorem getItem?_isSome_setItem (s : TreeState) (i : String) (it : VItem)
    (q : String) (h : (getItem? s q).isSome = true) :
    (getItem? (setItem s i it) q).isSome = true := by
  by_cases hiq : i = q
  · subst hiq
    rw [getItem?_setItem_self]
    rfl
  · rw [getItem?_setItem_ne _ _ _ _ hiq]
    exact h

theorem getItem?_isSome_childrenAdd (s : TreeState) (p c q : String)
    (h : (getItem? s q).isSome = true) :
    (getItem? (childrenAdd s p c) q).isSome = true := by
  unfold childrenAdd
  exact getItem?_isSome_modifyItem _ _ _ _ (getItem?_isSome_modifyItem _ _ _ _ h)

theorem getItem?_isSome_collectTaskFields (tag fd : String) (t : VTask) (parentId : String)
    (pt : List String) (itemId : String) (s : TreeState) (q : String)
    (h : (getItem? s q).isSome = true) :
    (getItem? (collectTaskFields tag fd t parentId pt itemId s) q).isSome = true := by
  rw [collectTaskFields_eq]
  have h1 : (getItem? (setTaskFields tag t pt itemId s) q).isSome = true :=
    getItem?_isSome_modifyItem _ _ _ _ h
  have h2 : (getItem? (setTaskLocation t itemId (setTaskFields tag t pt itemId s)) q).isSome = true := by
    unfold setTaskLocation
    cases t.location
    · exact getItem?_isSome_modifyItem _ _ _ _ h1
    · exact getItem?_isSome_modifyItem _ _ _ _ h1
  have h3 : (getItem? (registerTaskData fd t.ttype itemId
      (setTaskLocation t itemId (setTaskFields tag t pt itemId s))) q).isSome = true := by
    rw [getItem?_registerTaskData]
    exact h2
  have h4 := getItem?_isSome_childrenAdd
    (setFlatItem (registerTaskData fd t.ttype itemId
      (setTaskLocation t itemId (setTaskFields tag t pt itemId s))) t.id itemId)
    parentId itemId q (by rw [getItem?_setFlatItem]; exact h3)
  unfold setTaskResultError
  cases t.result with
  | none => exact h4
  | some r =>
      dsimp only
      cases r.errors with
      | none => exact h4
      | some errs => exact getItem?_isSome_modifyItem _ _ _ _ h4

theorem getItem?_pruneChildren_ne (s : TreeState) (pid : String) (ids : List String)
    (q : String) (h : pid ≠ q) :
    getItem? (pruneChildren s pid ids) q = getItem? s q :=
  getItem?_modifyItem_ne _ _ _ _ h

theorem getItem?_pruneChildren_self (s : TreeState) (pid : String) (ids : List String) :
    getItem? (pruneChildren s pid ids) pid =
      (getItem? s pid).map (fun it =>
        { it with children := it.children.filter (fun c => decide (c ∈ ids)) }) :=
  getItem?_modifyItem_self _ _ _

theorem pruneChildren_flat (s : TreeState) (pid : String) (ids : List String) :
    (pruneChildren s pid ids).flatTestItems = s.flatTestItems :=
  modifyItem_flat _ _ _

theorem pruneChildren_fileItems (s : TreeState) (pid : String) (ids : List String) :
    (pruneChildren s pid ids).fileItems = s.fileItems :=
  modifyItem_fileItems _ _ _

theorem pruneChildren_folderItems (s : TreeState) (pid : String) (ids : List String) :
    (pruneChildren s pid ids).folderItems = s.folderItems :=
  modifyItem_folderItems _ _ _

theorem pruneChildren_byFile (s : TreeState) (pid : String) (ids : List String) :
    (pruneChildren s pid ids).testItemsByFile = s.testItemsByFile :=
  modifyItem_byFile _ _ _

theorem pruneChildren_testData (s : TreeState) (pid : String) (ids : List String) :
    (pruneChildren s pid ids).testData = s.testData :=
  modifyItem_testData _ _ _

theorem getItem?_isSome_pruneChildren (s : TreeState) (pid : String) (ids : List String)
    (q : String) (h : (getItem? s q).isSome = true) :
    (getItem? (pruneChildren s pid ids) q).isSome = true :=
  getItem?_isSome_modifyItem _ _ _ _ h

theorem pruneChildren_children_subset (s : TreeState) (pid : String) (ids : List String) :
    ∀ x ∈ childrenOf (pruneChildren s pid ids) pid, x ∈ ids := by
  intro x hx
  unfold childrenOf getItem at hx
  rw [getItem?_pruneChildren_self] at hx
  cases hp : getItem? s pid with
  | none => simp [hp, defaultItem] at hx
  | some it =>
      rw [hp] at hx
      simp only [Option.map, Option.getD] at hx
      have := List.of_mem_filter hx
      simpa using this

theorem mem_pruneChildren_children (s : TreeState) (pid : String) (ids : List String)
    (x : String) (hx : x ∈ childrenOf s pid) (hid : x ∈ ids) :
    x ∈ childrenOf (pruneChildren s pid ids) pid := by
  unfold childrenOf getItem at hx ⊢
  rw [getItem?_pruneChildren_self]
  cases hp : getItem? s pid with
  | none =>
      rw [hp] at hx
      simp [defaultItem] at hx
  | some it =>
      rw [hp] at hx
      simp only [Option.getD] at hx
      simp only [Option.map, Option.getD]
      exact List.mem_filter.mpr ⟨hx, by simpa using hid⟩

theorem allIds_cons_some {t : VTask} {rest sub : List VTask} (h : t.tasks = some sub) :
    allIds (t :: rest) = t.id :: (allIds sub ++ allIds rest) := by
  simp only [allIds]
  split
  · next sub' heq =>
      have : sub' = sub := Option.some.inj (heq.symm.trans h)
      subst this
      rfl
  · next heq => exact absurd h (by rw [heq]; exact fun hh => Option.noConfusion hh)

theorem allIds_cons_none {t : VTask} {rest : List VTask} (h : t.tasks = none) :
    allIds (t :: rest) = t.id :: allIds rest := by
  simp only [allIds]
  split
  · next sub' heq => exact absurd h (by rw [heq]; exact fun hh => Option.noConfusion hh)
  · next heq => rfl

theorem collectTaskItem_spec (tag fd : String) (t : VTask) (p : String) (s : TreeState)
    (halign : alookup s.flatTestItems t.id = none ∨ alookup s.flatTestItems t.id = some t.id)
    (hpres : alookup s.flatTestItems t.id = some t.id → (getItem? s t.id).isSome = true) :
    ∃ s₀ : TreeState,
      collectTaskItem tag fd t p s =
        (t.id, collectTaskFields tag fd t p (getItem s p).tags t.id s₀) ∧
      (∀ q, q ≠ t.id → getItem? s₀ q = getItem? s q) ∧
      (getItem? s₀ t.id).isSome = true ∧
      s₀.flatTestItems = s.flatTestItems ∧
      s₀.testData = s.testData ∧
      s₀.fileItems = s.fileItems ∧
      s₀.folderItems = s.folderItems ∧
      s₀.testItemsByFile = s.testItemsByFile ∧
      (∀ q, (getItem? s q).isSome = true → (getItem? s₀ q).isSome = true) := by
  rcases halign with hmiss | hhit
  · refine ⟨setItem s t.id (newTestItem t.id t.name (getItem s p).uri),
            collectTaskItem_miss tag fd t p s hmiss, ?_, ?_, rfl, rfl, rfl, rfl, rfl, ?_⟩
    · intro q hq
      exact getItem?_setItem_ne _ _ _ _ (fun h => hq h.symm)
    · rw [getItem?_setItem_self]
      rfl
    · intro q h
      exact getItem?_isSome_setItem _ _ _ _ h
  · refine ⟨s, collectTaskItem_hit tag fd t p s t.id hhit, fun q _ => rfl,
            hpres hhit, rfl, rfl, rfl, rfl, rfl, fun q h => h⟩

/-! ### Equation and congruence lemmas for the collectTasks predicates -/

theorem collectLoop_nil (tag fd p : String) (s : TreeState) :
    collectLoop tag fd [] p s = s := by
  simp [collectLoop]

theorem collectLoop_cons_some (tag fd : String) (t : VTask) (rest sub : List VTask)
    (p : String) (s : TreeState) (h : t.tasks = some sub) :
    collectLoop tag fd (t :: rest) p s =
      collectLoop tag fd rest p
        (pruneChildren
          (collectLoop tag fd sub (collectTaskItem tag fd t p s).1
            (collectTaskItem tag fd t p s).2)
          (collectTaskItem tag fd t p s).1 (idsOf sub)) := by
  rw [collectLoop]
  split
  · next sub' heq =>
      have : sub' = sub := Option.some.inj (heq.symm.trans h)
      subst this
      rfl
  · next heq => exact absurd h (by rw [heq]; exact fun hh => Option.noConfusion hh)

theorem collectLoop_cons_none (tag fd : String) (t : VTask) (rest : List VTask)
    (p : String) (s : TreeState) (h : t.tasks = none) :
    collectLoop tag fd (t :: rest) p s =
      collectLoop tag fd rest p (collectTaskItem tag fd t p s).2 := by
  rw [collectLoop]
  split
  · next sub' heq => exact absurd h (by rw [heq]; exact fun hh => Option.noConfusion hh)
  · next heq => rfl

theorem Settled_nil (tag fd p : String) (s : TreeState) :
    Settled tag fd s [] p := by
  simp [Settled]

theorem Settled_cons_some {tag fd : String} {t : VTask} {rest sub : List VTask}
    {p : String} {s : TreeState} (h : t.tasks = some sub) :
    Settled tag fd s (t :: rest) p ↔
      (SettledFields tag fd s t p ∧
       (Settled tag fd s sub t.id ∧ (∀ x ∈ childrenOf s t.id, x ∈ idsOf sub)) ∧
       Settled tag fd s rest p) := by
  rw [Settled]
  constructor
  · intro hh
    obtain ⟨h1, h2, h3⟩ := hh
    refine ⟨h1, ?_, h3⟩
    revert h2
    split
    · next sub' heq =>
        have : sub' = sub := Option.some.inj (heq.symm.trans h)
        subst this
        exact fun h2 => h2
    · next heq => exact absurd h (by rw [heq]; exact fun hh => Option.noConfusion hh)
  · intro hh
    obtain ⟨h1, h2, h3⟩ := hh
    refine ⟨h1, ?_, h3⟩
    split
    · next sub' heq =>
        have : sub' = sub := Option.some.inj (heq.symm.trans h)
        subst this
        exact h2
    · next heq => trivial

theorem Settled_cons_none {tag fd : String} {t : VTask} {rest : List VTask}
    {p : String} {s : TreeState} (h : t.tasks = none) :
    Settled tag fd s (t :: rest) p ↔
      (SettledFields tag fd s t p ∧ Settled tag fd s rest p) := by
  rw [Settled]
  constructor
  · intro hh
    exact ⟨hh.1, hh.2.2⟩
  · intro hh
    refine ⟨hh.1, ?_, hh.2⟩
    split
    · next sub' heq => exact absurd h (by rw [heq]; exact fun hx => Option.noConfusion hx)
    · next heq => trivial

theorem MirrorsAll_nil (s : TreeState) : MirrorsAll s [] := by
  simp [MirrorsAll]

theorem MirrorsAll_cons_some {s : TreeState} {t : VTask} {rest sub : List VTask}
    (h : t.tasks = some sub) :
    MirrorsAll s (t :: rest) ↔
      (((∀ x, x ∈ childrenOf s t.id ↔ x ∈ idsOf sub) ∧ MirrorsAll s sub) ∧
       MirrorsAll s rest) := by
  rw [MirrorsAll]
  constructor
  · intro hh
    obtain ⟨h1, h2⟩ := hh
    refine ⟨?_, h2⟩
    revert h1
    split
    · next sub' heq =>
        have : sub' = sub := Option.some.inj (heq.symm.trans h)
        subst this
        exact fun h1 => h1
    · next heq => exact absurd h (by rw [heq]; exact fun hh => Option.noConfusion hh)
  · intro hh
    obtain ⟨h1, h2⟩ := hh
    refine ⟨?_, h2⟩
    split
    · next sub' heq =>
        have : sub' = sub := Option.some.inj (heq.symm.trans h)
        subst this
        exact h1
    · next heq => trivial

theorem MirrorsAll_cons_none {s : TreeState} {t : VTask} {rest : List VTask}
    (h : t.tasks = none) :
    MirrorsAll s (t :: rest) ↔ MirrorsAll s rest := by
  rw [MirrorsAll]
  constructor
  · intro hh
    exact hh.2
  · intro hh
    refine ⟨?_, hh⟩
    split
    · next sub' heq => exact absurd h (by rw [heq]; exact fun hx => Option.noConfusion hx)
    · next heq => trivial

theorem getItem_congr {s₁ s₂ : TreeState} {q : String}
    (h : getItem? s₂ q = getItem? s₁ q) : getItem s₂ q = getItem s₁ q := by
  unfold getItem
  rw [h]

theorem childrenOf_congr {s₁ s₂ : TreeState} {q : String}
    (h : getItem? s₂ q = getItem? s₁ q) : childrenOf s₂ q = childrenOf s₁ q := by
  unfold childrenOf
  rw [getItem_congr h]

theorem SettledFields_congr {tag fd : String} {t : VTask} {p : String}
    {s₁ s₂ : TreeState}
    (hitem : getItem? s₂ t.id = getItem? s₁ t.id)
    (hflat : alookup s₂.flatTestItems t.id = alookup s₁.flatTestItems t.id)
    (hdata : alookup s₂.testData t.id = alookup s₁.testData t.id)
    (htags : (getItem s₂ p).tags = (getItem s₁ p).tags)
    (hmem : t.id ∈ childrenOf s₁ p → t.id ∈ childrenOf s₂ p)
    (h : SettledFields tag fd s₁ t p) : SettledFields tag fd s₂ t p := by
  unfold SettledFields at h ⊢
  obtain ⟨h1, h2⟩ := h
  refine ⟨hflat.trans h1, ?_⟩
  rw [hitem]
  cases hx : getItem? s₁ t.id with
  | none =>
      rw [hx] at h2
      exact h2
  | some it =>
      rw [hx] at h2
      obtain ⟨a1, a2, a3, a4, a5, a6, a7, a8⟩ := h2
      refine ⟨?_, a2, a3, a4, a5, ?_, ?_, hmem a8⟩
      · rw [htags]
        exact a1
      · intro hh
        rw [hdata]
        exact a6 hh
      · intro hh
        rw [hdata]
        exact a7 hh

theorem SettledFields_mem {tag fd : String} {t : VTask} {p : String} {s : TreeState}
    (h : SettledFields tag fd s t p) : t.id ∈ childrenOf s p := by
  unfold SettledFields at h
  obtain ⟨-, h2⟩ := h
  cases hx : getItem? s t.id with
  | none =>
      rw [hx] at h2
      exact absurd h2 (by simp)
  | some it =>
      rw [hx] at h2
      exact h2.2.2.2.2.2.2.2

theorem Settled_congr : ∀ (n : Nat) (l : List VTask) (tag fd p : String)
    (s₁ s₂ : TreeState),
    sizeOf l ≤ n →
    (∀ q ∈ allIds l, getItem? s₂ q = getItem? s₁ q) →
    (∀ q ∈ allIds l, alookup s₂.flatTestItems q = alookup s₁.flatTestItems q) →
    (∀ q ∈ allIds l, alookup s₂.testData q = alookup s₁.testData q) →
    (getItem s₂ p).tags = (getItem s₁ p).tags →
    (∀ t' ∈ l, VTask.id t' ∈ childrenOf s₁ p → VTask.id t' ∈ childrenOf s₂ p) →
    Settled tag fd s₁ l p → Settled tag fd s₂ l p := by
  intro n
  induction n using Nat.strong_induction_on with
  | _ n ih =>
      intro l tag fd p s₁ s₂ hsz hitem hflat hdata htags hmem hs
      cases l with
      | nil => exact Settled_nil _ _ _ _
      | cons t rest =>
          have hszt : sizeOf rest < n := by
            have := VTask.sizeOf_rest_lt t rest
            omega
          cases htt : t.tasks with
          | some sub =>
              have hAll := @allIds_cons_some t rest _ htt
              have hsub_sz : sizeOf sub < n := by
                have h1 := VTask.sizeOf_tasks_lt htt
                have h2 := VTask.sizeOf_head_lt t rest
                omega
              rw [Settled_cons_some htt] at hs ⊢
              obtain ⟨hf, ⟨hnest, hsubset⟩, hrest⟩ := hs
              have htid_mem : t.id ∈ allIds (t :: rest) := by
                rw [hAll]
                exact List.mem_cons_self _ _
              have hitem_tid := hitem t.id htid_mem
              refine ⟨?_, ⟨?_, ?_⟩, ?_⟩
              · exact SettledFields_congr hitem_tid (hflat t.id htid_mem)
                  (hdata t.id htid_mem) htags (hmem t (List.mem_cons_self _ _)) hf
              · refine ih (sizeOf sub) hsub_sz sub tag fd t.id s₁ s₂ (le_refl _)
                  ?_ ?_ ?_ ?_ ?_ hnest
                · intro q hq
                  exact hitem q (by rw [hAll]; simp [hq])
                · intro q hq
                  exact hflat q (by rw [hAll]; simp [hq])
                · intro q hq
                  exact hdata q (by rw [hAll]; simp [hq])
                · exact (getItem_congr hitem_tid) ▸ rfl
                · intro t' ht' hmem'
                  rw [childrenOf_congr hitem_tid]
                  exact hmem'
              · intro x hx
                rw [childrenOf_congr hitem_tid] at hx
                exact hsubset x hx
              · refine ih (sizeOf rest) hszt rest tag fd p s₁ s₂ (le_refl _)
                  ?_ ?_ ?_ htags ?_ hrest
                · intro q hq
                  exact hitem q (by rw [hAll]; simp [hq])
                · intro q hq
                  exact hflat q (by rw [hAll]; simp [hq])
                · intro q hq
                  exact hdata q (by rw [hAll]; simp [hq])
                · intro t' ht' hmem'
                  exact hmem t' (List.mem_cons_of_mem _ ht') hmem'
          | none =>
              have hAll := @allIds_cons_none t rest htt
              rw [Settled_cons_none htt] at hs ⊢
              obtain ⟨hf, hrest⟩ := hs
              have htid_mem : t.id ∈ allIds (t :: rest) := by
                rw [hAll]
                exact List.mem_cons_self _ _
              refine ⟨?_, ?_⟩
              · exact SettledFields_congr (hitem t.id htid_mem) (hflat t.id htid_mem)
                  (hdata t.id htid_mem) htags (hmem t (List.mem_cons_self _ _)) hf
              · refine ih (sizeOf rest) hszt rest tag fd p s₁ s₂ (le_refl _)
                  ?_ ?_ ?_ htags ?_ hrest
                · intro q hq
                  exact hitem q (by rw [hAll]; simp [hq])
                · intro q hq
                  exact hflat q (by rw [hAll]; simp [hq])
                · intro q hq
                  exact hdata q (by rw [hAll]; simp [hq])
                · intro t' ht' hmem'
                  exact hmem t' (List.mem_cons_of_mem _ ht') hmem'

theorem Settled_mem_children : ∀ (n : Nat) (l : List VTask) (tag fd p : String)
    (s : TreeState), sizeOf l ≤ n →
    Settled tag fd s l p → ∀ t' ∈ l, VTask.id t' ∈ childrenOf s p := by
  intro n
  induction n using Nat.strong_induction_on with
  | _ n ih =>
      intro l tag fd p s hsz hs t' ht'
      cases l with
      | nil => simp at ht'
      | cons t rest =>
          have hszt : sizeOf rest < n := by
            have := VTask.sizeOf_rest_lt t rest
            omega
          rcases List.mem_cons.mp ht' with heq | hmem
          · subst heq
            cases htt : t'.tasks with
            | some sub =>
                rw [Settled_cons_some htt] at hs
                exact SettledFields_mem hs.1
            | none =>
                rw [Settled_cons_none htt] at hs
                exact SettledFields_mem hs.1
          · cases htt : t.tasks with
            | some sub =>
                rw [Settled_cons_some htt] at hs
                exact ih (sizeOf rest) hszt rest tag fd p s (le_refl _) hs.2.2 t' hmem
            | none =>
                rw [Settled_cons_none htt] at hs
                exact ih (sizeOf rest) hszt rest tag fd p s (le_refl _) hs.2 t' hmem

theorem Settled_to_MirrorsAll : ∀ (n : Nat) (l : List VTask) (tag fd p : String)
    (s : TreeState), sizeOf l ≤ n →
    Settled tag fd s l p → MirrorsAll s l := by
  intro n
  induction n using Nat.strong_induction_on with
  | _ n ih =>
      intro l tag fd p s hsz hs
      cases l with
      | nil => exact MirrorsAll_nil _
      | cons t rest =>
          have hszt : sizeOf rest < n := by
            have := VTask.sizeOf_rest_lt t rest
            omega
          cases htt : t.tasks with
          | some sub =>
              have hsub_sz : sizeOf sub < n := by
                have h1 := VTask.sizeOf_tasks_lt htt
                have h2 := VTask.sizeOf_head_lt t rest
                omega
              rw [Settled_cons_some htt] at hs
              obtain ⟨hf, ⟨hnest, hsubset⟩, hrest⟩ := hs
              rw [MirrorsAll_cons_some htt]
              refine ⟨⟨?_, ?_⟩, ?_⟩
              · intro x
                constructor
                · exact hsubset x
                · intro hx
                  unfold idsOf at hx
                  obtain ⟨t', ht', hid⟩ := List.mem_map.mp hx
                  subst hid
                  exact Settled_mem_children (sizeOf sub) sub tag fd t.id s (le_refl _)
                    hnest t' ht'
              · exact ih (sizeOf sub) hsub_sz sub tag fd t.id s (le_refl _) hnest
              · exact ih (sizeOf rest) hszt rest tag fd p s (le_refl _) hrest
          | none =>
              rw [Settled_cons_none htt] at hs
              rw [MirrorsAll_cons_none htt]
              exact ih (sizeOf rest) hszt rest tag fd p s (le_refl _) hs.2

set_option maxHeartbeats 2000000 in
/-- Master specification of the `collectTasks` processing loop, by strong
induction on the task forest: frame conditions on untouched ids and tables,
registration of every reported id in the flat index, preservation of item
presence, the exact shape of the parent's children list, and settledness of
every processed task's fields. -/
theorem collectLoop_spec : ∀ (n : Nat) (tasks : List VTask) (tag fd p : String)
    (s : TreeState),
    sizeOf tasks ≤ n →
    p ∉ allIds tasks →
    (allIds tasks).Nodup →
    (getItem? s p).isSome = true →
    (∀ id ∈ allIds tasks,
       alookup s.flatTestItems id = none ∨ alookup s.flatTestItems id = some id) →
    (∀ id ∈ allIds tasks,
       alookup s.flatTestItems id = some id → (getItem? s id).isSome = true) →
    (∀ q, q ∉ allIds tasks → q ≠ p →
       getItem? (collectLoop tag fd tasks p s) q = getItem? s q) ∧
    (∀ q, q ∉ allIds tasks →
       alookup (collectLoop tag fd tasks p s).flatTestItems q =
         alookup s.flatTestItems q) ∧
    (∀ id ∈ allIds tasks,
       alookup (collectLoop tag fd tasks p s).flatTestItems id = some id) ∧
    (∀ q, (getItem? s q).isSome = true →
       (getItem? (collectLoop tag fd tasks p s) q).isSome = true) ∧
    (∀ q, q ∉ allIds tasks →
       alookup (collectLoop tag fd tasks p s).testData q = alookup s.testData q) ∧
    ((collectLoop tag fd tasks p s).fileItems = s.fileItems ∧
     (collectLoop tag fd tasks p s).folderItems = s.folderItems ∧
     (collectLoop tag fd tasks p s).testItemsByFile = s.testItemsByFile) ∧
    (∃ ch, getItem? (collectLoop tag fd tasks p s) p =
        (getItem? s p).map (fun it => { it with children := ch }) ∧
        (∀ x, x ∈ ch ↔ x ∈ childrenOf s p ∨ x ∈ idsOf tasks)) ∧
    Settled tag fd (collectLoop tag fd tasks p s) tasks p := by
  intro n
  induction n using Nat.strong_induction_on with
  | _ n ih =>
      intro tasks tag fd p s hsz hp hnd hpres_p halign hpresF
      cases tasks with
      | nil =>
          rw [collectLoop_nil]
          obtain ⟨itp, hitp⟩ := Option.isSome_iff_exists.mp hpres_p
          refine ⟨?_, ?_, ?_, ?_, ?_, ⟨rfl, rfl, rfl⟩,
            ⟨itp.children, ?_, ?_⟩, Settled_nil _ _ _ _⟩
          · intro q _ _
            rfl
          · intro q _
            rfl
          · intro id hid
            simp [allIds] at hid
          · intro q h
            exact h
          · intro q _
            rfl
          · rw [hitp]
            rfl
          · intro x
            simp [childrenOf, getItem, hitp, idsOf]
      | cons t rest =>
          have hrest_sz : sizeOf rest < n := by
            have := VTask.sizeOf_rest_lt t rest
            omega
          have htid_mem_all : t.id ∈ allIds (t :: rest) := by
            cases htt : t.tasks with
            | none =>
                rw [allIds_cons_none htt]
                exact List.mem_cons_self _ _
            | some sub =>
                rw [allIds_cons_some htt]
                exact List.mem_cons_self _ _
          have hpt : p ≠ t.id := fun h => hp (by rw [h]; exact htid_mem_all)
          obtain ⟨s₀, heq, hs₀_frame, hs₀_tid, hs₀_flat, hs₀_td, hs₀_fi, hs₀_fo,
            hs₀_bf, hs₀_mono⟩ :=
            collectTaskItem_spec tag fd t p s (halign t.id htid_mem_all)
              (hpresF t.id htid_mem_all)
          obtain ⟨s1, hs1⟩ :
              ∃ x, x = collectTaskFields tag fd t p (getItem s p).tags t.id s₀ :=
            ⟨_, rfl⟩
          obtain ⟨b, hb⟩ := Option.isSome_iff_exists.mp hs₀_tid
          have hf_item_p : getItem? s1 p = (getItem? s p).map (fun it =>
              if t.id ∈ it.children then it
              else { it with children := it.children ++ [t.id] }) := by
            rw [hs1, getItem?_collectTaskFields_parent tag fd t p (getItem s p).tags
              t.id s₀ hpt, hs₀_frame p hpt]
          have hf_item_tid :
              getItem? s1 t.id = some (taskItemAfter tag t (getItem s p).tags p b) := by
            rw [hs1]
            exact getItem?_collectTaskFields_self tag fd t p (getItem s p).tags
              t.id s₀ b hpt hb
          have hf_item_other : ∀ q, q ≠ t.id → q ≠ p → getItem? s1 q = getItem? s q := by
            intro q h1 h2
            rw [hs1, getItem?_collectTaskFields_other tag fd t p (getItem s p).tags
              t.id s₀ q h1 h2, hs₀_frame q h1]
          have hf_flat : s1.flatTestItems = ainsert s.flatTestItems t.id t.id := by
            rw [hs1, collectTaskFields_flat, hs₀_flat]
          have hf_td : ∀ q, q ≠ t.id → alookup s1.testData q = alookup s.testData q := by
            intro q hq
            rw [hs1, collectTaskFields_testData_other tag fd t p (getItem s p).tags
              t.id s₀ q (fun h => hq h.symm), hs₀_td]
          have hf_td_suite : t.ttype = "suite" →
              alookup s1.testData t.id = some (TestData.suite fd) := by
            intro h
            rw [hs1]
            exact collectTaskFields_testData_suite tag fd t p (getItem s p).tags t.id s₀ h
          have hf_td_case : t.ttype = "test" ∨ t.ttype = "custom" →
              alookup s1.testData t.id = some (TestData.testCase fd) := by
            intro h
            have hns : t.ttype ≠ "suite" := by
              rcases h with h | h <;> simp [h]
            rw [hs1]
            exact collectTaskFields_testData_testCase tag fd t p (getItem s p).tags
              t.id s₀ h hns
          have hf_fi : s1.fileItems = s.fileItems := by
            rw [hs1, collectTaskFields_fileItems, hs₀_fi]
          have hf_fo : s1.folderItems = s.folderItems := by
            rw [hs1, collectTaskFields_folderItems, hs₀_fo]
          have hf_bf : s1.testItemsByFile = s.testItemsByFile := by
            rw [hs1, collectTaskFields_byFile, hs₀_bf]
          have hf_mono : ∀ q, (getItem? s q).isSome = true →
              (getItem? s1 q).isSome = true := by
            intro q h
            rw [hs1]
            exact getItem?_isSome_collectTaskFields tag fd t p (getItem s p).tags
              t.id s₀ q (hs₀_mono q h)
          have hf_p_some : (getItem? s1 p).isSome = true := hf_mono p hpres_p
          have hf_tid_some : (getItem? s1 t.id).isSome = true := by
            rw [hf_item_tid]
            rfl
          obtain ⟨itp, hitp⟩ := Option.isSome_iff_exists.mp hpres_p
          have hch_of : ∀ sx : TreeState,
              getItem? sx p = (getItem? s p).map (fun it =>
                if t.id ∈ it.children then it
                else { it with children := it.children ++ [t.id] }) →
              ∀ x, (x ∈ childrenOf sx p ↔ (x ∈ childrenOf s p ∨ x = t.id)) := by
            intro sx hsx x
            unfold childrenOf getItem
            rw [hsx, hitp]
            show x ∈ (if t.id ∈ itp.children then itp
                else { itp with children := itp.children ++ [t.id] }).children ↔
              x ∈ itp.children ∨ x = t.id
            by_cases hmemc : t.id ∈ itp.children
            · rw [if_pos hmemc]
              constructor
              · exact fun h => Or.inl h
              · rintro (h | h)
                · exact h
                · rw [h]
                  exact hmemc
            · rw [if_neg hmemc]
              simp
          cases htt : t.tasks with
          | some sub =>
              have hAll := @allIds_cons_some t rest _ htt
              have hsub_sz : sizeOf sub < n := by
                have h1 := VTask.sizeOf_tasks_lt htt
                have h2 := VTask.sizeOf_head_lt t rest
                omega
              rw [hAll] at hp hnd halign hpresF
              have hq_mem_sub : ∀ {q : String}, q ∈ allIds sub →
                  q ∈ t.id :: (allIds sub ++ allIds rest) :=
                fun h => List.mem_cons_of_mem _ (List.mem_append_left _ h)
              have hq_mem_rest : ∀ {q : String}, q ∈ allIds rest →
                  q ∈ t.id :: (allIds sub ++ allIds rest) :=
                fun h => List.mem_cons_of_mem _ (List.mem_append_right _ h)
              have hpsub : p ∉ allIds sub := fun h => hp (hq_mem_sub h)
              have hprest : p ∉ allIds rest := fun h => hp (hq_mem_rest h)
              obtain ⟨hnd1, hnd2⟩ := List.nodup_cons.mp hnd
              have htid_sub : t.id ∉ allIds sub :=
                fun h => hnd1 (List.mem_append_left _ h)
              have htid_rest : t.id ∉ allIds rest :=
                fun h => hnd1 (List.mem_append_right _ h)
              obtain ⟨hnd_sub, hnd_rest, hdisj⟩ := List.nodup_append.mp hnd2
              have halign_sub : ∀ id ∈ allIds sub,
                  alookup s1.flatTestItems id = none ∨
                  alookup s1.flatTestItems id = some id := by
                intro id hid
                have hne : t.id ≠ id := fun h => htid_sub (by rw [h]; exact hid)
                rw [hf_flat, alookup_ainsert, if_neg hne]
                exact halign id (hq_mem_sub hid)
              have hpres_sub : ∀ id ∈ allIds sub,
                  alookup s1.flatTestItems id = some id →
                  (getItem? s1 id).isSome = true := by
                intro id hid hsome
                have hne : t.id ≠ id := fun h => htid_sub (by rw [h]; exact hid)
                rw [hf_flat, alookup_ainsert, if_neg hne] at hsome
                exact hf_mono id (hpresF id (hq_mem_sub hid) hsome)
              obtain ⟨I1, I2, I3, I4, I5, hI6, hch7, I8⟩ :=
                ih (sizeOf sub) hsub_sz sub tag fd t.id s1 (le_refl _) htid_sub
                  hnd_sub hf_tid_some halign_sub hpres_sub
              obtain ⟨lin, hlin⟩ : ∃ x, x = collectLoop tag fd sub t.id s1 := ⟨_, rfl⟩
              rw [← hlin] at I1 I2 I3 I4 I5 hI6 hch7 I8
              obtain ⟨I6a, I6b, I6c⟩ := hI6
              obtain ⟨chIn, hchIn, hchIn_mem⟩ := hch7
              obtain ⟨s2, hs2⟩ : ∃ x, x = pruneChildren lin t.id (idsOf sub) := ⟨_, rfl⟩
              have hloop : collectLoop tag fd (t :: rest) p s =
                  collectLoop tag fd rest p s2 := by
                rw [collectLoop_cons_some tag fd t rest sub p s htt, heq, hs2, hlin, hs1]
              have hs2_item : ∀ q, q ≠ t.id → q ∉ allIds sub → q ≠ p →
                  getItem? s2 q = getItem? s q := by
                intro q h1 h2 h3
                rw [hs2, getItem?_pruneChildren_ne _ _ _ q (fun h => h1 h.symm),
                    I1 q h2 h1, hf_item_other q h1 h3]
              have hs2_item_p : getItem? s2 p = (getItem? s p).map (fun it =>
                  if t.id ∈ it.children then it
                  else { it with children := it.children ++ [t.id] }) := by
                rw [hs2, getItem?_pruneChildren_ne _ _ _ p (fun h => hpt h.symm),
                    I1 p hpsub hpt, hf_item_p]
              have hs2_flat_other : ∀ q, q ∉ allIds sub → q ≠ t.id →
                  alookup s2.flatTestItems q = alookup s.flatTestItems q := by
                intro q h1 h2
                rw [hs2, pruneChildren_flat, I2 q h1, hf_flat, alookup_ainsert,
                    if_neg (fun h => h2 h.symm)]
              have hs2_flat_tid : alookup s2.flatTestItems t.id = some t.id := by
                rw [hs2, pruneChildren_flat, I2 t.id htid_sub, hf_flat,
                    alookup_ainsert, if_pos rfl]
              have hs2_flat_sub : ∀ id ∈ allIds sub,
                  alookup s2.flatTestItems id = some id := by
                intro id hid
                rw [hs2, pruneChildren_flat]
                exact I3 id hid
              have hs2_td : ∀ q, q ∉ allIds sub → q ≠ t.id →
                  alookup s2.testData q = alookup s.testData q := by
                intro q h1 h2
                rw [hs2, pruneChildren_testData, I5 q h1, hf_td q h2]
              have hs2_td_tid : alookup s2.testData t.id = alookup s1.testData t.id := by
                rw [hs2, pruneChildren_testData, I5 t.id htid_sub]
              have hs2_struct1 : s2.fileItems = s.fileItems := by
                rw [hs2, pruneChildren_fileItems, I6a, hf_fi]
              have hs2_struct2 : s2.folderItems = s.folderItems := by
                rw [hs2, pruneChildren_folderItems, I6b, hf_fo]
              have hs2_struct3 : s2.testItemsByFile = s.testItemsByFile := by
                rw [hs2, pruneChildren_byFile, I6c, hf_bf]
              have hs2_mono : ∀ q, (getItem? s q).isSome = true →
                  (getItem? s2 q).isSome = true := by
                intro q h
                rw [hs2]
                exact getItem?_isSome_pruneChildren _ _ _ q (I4 q (hf_mono q h))
              have hs2_p_some : (getItem? s2 p).isSome = true := hs2_mono p hpres_p
              have hLin_tid : getItem? lin t.id =
                  some { taskItemAfter tag t (getItem s p).tags p b with
                         children := chIn } := by
                rw [hchIn, hf_item_tid]
                rfl
              have hs2_tid : getItem? s2 t.id =
                  some { taskItemAfter tag t (getItem s p).tags p b with
                         children := chIn.filter (fun c => decide (c ∈ idsOf sub)) } := by
                rw [hs2, getItem?_pruneChildren_self, hLin_tid]
                rfl
              have hsettled_sub : Settled tag fd s2 sub t.id := by
                refine Settled_congr (sizeOf sub) sub tag fd t.id lin s2 (le_refl _)
                  ?_ ?_ ?_ ?_ ?_ I8
                · intro q hq
                  rw [hs2]
                  exact getItem?_pruneChildren_ne _ _ _ q
                    (fun h => htid_sub (by rw [h]; exact hq))
                · intro q hq
                  rw [hs2, pruneChildren_flat]
                · intro q hq
                  rw [hs2, pruneChildren_testData]
                · unfold getItem
                  rw [hs2, getItem?_pruneChildren_self, hLin_tid]
                  rfl
                · intro t' ht' hmem
                  rw [hs2]
                  exact mem_pruneChildren_children _ _ _ _ hmem
                    (List.mem_map_of_mem _ ht')
              have hsubset_s2 : ∀ x ∈ childrenOf s2 t.id, x ∈ idsOf sub := by
                rw [hs2]
                exact pruneChildren_children_subset _ _ _
              have halign_rest : ∀ id ∈ allIds rest,
                  alookup s2.flatTestItems id = none ∨
                  alookup s2.flatTestItems id = some id := by
                intro id hid
                have h1 : id ∉ allIds sub := fun h => hdisj h hid
                have h2 : id ≠ t.id := fun h => htid_rest (by rw [← h]; exact hid)
                rw [hs2_flat_other id h1 h2]
                exact halign id (hq_mem_rest hid)
              have hpres_rest : ∀ id ∈ allIds rest,
                  alookup s2.flatTestItems id = some id →
                  (getItem? s2 id).isSome = true := by
                intro id hid hsome
                have h1 : id ∉ allIds sub := fun h => hdisj h hid
                have h2 : id ≠ t.id := fun h => htid_rest (by rw [← h]; exact hid)
                rw [hs2_flat_other id h1 h2] at hsome
                exact hs2_mono id (hpresF id (hq_mem_rest hid) hsome)
              obtain ⟨R1, R2, R3, R4, R5, ⟨R6a, R6b, R6c⟩,
                ⟨chFin, hchFin, hchFin_mem⟩, R8⟩ :=
                ih (sizeOf rest) hrest_sz rest tag fd p s2 (le_refl _) hprest
                  hnd_rest hs2_p_some halign_rest hpres_rest
              have hchS2 := hch_of s2 hs2_item_p
              rw [hloop]
              refine ⟨?_, ?_, ?_, ?_, ?_, ⟨?_, ?_, ?_⟩, ?_, ?_⟩
              · intro q hq hqp
                rw [hAll] at hq
                have h1 : q ≠ t.id :=
                  fun h => hq (by rw [h]; exact List.mem_cons_self _ _)
                have h2 : q ∉ allIds sub := fun h => hq (hq_mem_sub h)
                have h3 : q ∉ allIds rest := fun h => hq (hq_mem_rest h)
                rw [R1 q h3 hqp, hs2_item q h1 h2 hqp]
              · intro q hq
                rw [hAll] at hq
                have h1 : q ≠ t.id :=
                  fun h => hq (by rw [h]; exact List.mem_cons_self _ _)
                have h2 : q ∉ allIds sub := fun h => hq (hq_mem_sub h)
                have h3 : q ∉ allIds rest := fun h => hq (hq_mem_rest h)
                rw [R2 q h3, hs2_flat_other q h2 h1]
              · intro id hid
                rw [hAll] at hid
                rcases List.mem_cons.mp hid with heqid | hmem
                · rw [heqid, R2 t.id htid_rest]
                  exact hs2_flat_tid
                · rcases List.mem_append.mp hmem with hsub | hrest
                  · have h3 : id ∉ allIds rest := fun h => hdisj hsub h
                    rw [R2 id h3]
                    exact hs2_flat_sub id hsub
                  · exact R3 id hrest
              · intro q h
                exact R4 q (hs2_mono q h)
              · intro q hq
                rw [hAll] at hq
                have h1 : q ≠ t.id :=
                  fun h => hq (by rw [h]; exact List.mem_cons_self _ _)
                have h2 : q ∉ allIds sub := fun h => hq (hq_mem_sub h)
                have h3 : q ∉ allIds rest := fun h => hq (hq_mem_rest h)
                rw [R5 q h3, hs2_td q h2 h1]
              · rw [R6a, hs2_struct1]
              · rw [R6b, hs2_struct2]
              · rw [R6c, hs2_struct3]
              · refine ⟨chFin, ?_, ?_⟩
                · rw [hchFin, hs2_item_p, hitp]
                  by_cases hmemc : t.id ∈ itp.children <;> simp [hmemc]
                · intro x
                  rw [hchFin_mem x, hchS2 x]
                  simp only [idsOf, List.map_cons, List.mem_cons]
                  tauto
              · rw [Settled_cons_some htt]
                have hR1_tid : getItem? (collectLoop tag fd rest p s2) t.id =
                    getItem? s2 t.id :=
                  R1 t.id htid_rest (fun h => hpt h.symm)
                refine ⟨?_, ⟨?_, ?_⟩, R8⟩
                · unfold SettledFields
                  refine ⟨?_, ?_⟩
                  · rw [R2 t.id htid_rest]
                    exact hs2_flat_tid
                  · have htid_fin : getItem? (collectLoop tag fd rest p s2) t.id =
                        some { taskItemAfter tag t (getItem s p).tags p b with
                               children := chIn.filter
                                 (fun c => decide (c ∈ idsOf sub)) } := by
                      rw [hR1_tid]
                      exact hs2_tid
                    rw [htid_fin]
                    obtain ⟨a1, a2, a3, a4, a5, a6⟩ :=
                      taskItemAfter_fields tag t (getItem s p).tags p b
                    have htags_p : (getItem (collectLoop tag fd rest p s2) p).tags =
                        (getItem s p).tags := by
                      unfold getItem
                      rw [hchFin, hs2_item_p, hitp]
                      by_cases hmemc : t.id ∈ itp.children <;> simp [hmemc]
                    refine ⟨?_, a1, a3, a4, a5, ?_, ?_, ?_⟩
                    · rw [htags_p]
                      exact a2
                    · intro hsuite
                      rw [R5 t.id htid_rest, hs2_td_tid]
                      exact hf_td_suite hsuite
                    · intro hcase
                      rw [R5 t.id htid_rest, hs2_td_tid]
                      exact hf_td_case hcase
                    · have hin : t.id ∈ chFin :=
                        (hchFin_mem t.id).mpr (Or.inl ((hchS2 t.id).mpr (Or.inr rfl)))
                      unfold childrenOf getItem
                      rw [hchFin, hs2_item_p, hitp]
                      exact hin
                · refine Settled_congr (sizeOf sub) sub tag fd t.id s2
                    (collectLoop tag fd rest p s2) (le_refl _) ?_ ?_ ?_ ?_ ?_
                    hsettled_sub
                  · intro q hq
                    have h3 : q ∉ allIds rest := fun h => hdisj hq h
                    have hqp : q ≠ p := fun h => hpsub (by rw [← h]; exact hq)
                    exact R1 q h3 hqp
                  · intro q hq
                    exact R2 q (fun h => hdisj hq h)
                  · intro q hq
                    exact R5 q (fun h => hdisj hq h)
                  · exact congrArg VItem.tags (getItem_congr hR1_tid)
                  · intro t' ht' hmem
                    rw [childrenOf_congr hR1_tid]
                    exact hmem
                · intro x hx
                  rw [childrenOf_congr hR1_tid] at hx
                  exact hsubset_s2 x hx
          | none =>
              have hAll := @allIds_cons_none t rest htt
              rw [hAll] at hp hnd halign hpresF
              have hq_mem_rest : ∀ {q : String}, q ∈ allIds rest →
                  q ∈ t.id :: allIds rest :=
                fun h => List.mem_cons_of_mem _ h
              have hprest : p ∉ allIds rest := fun h => hp (hq_mem_rest h)
              obtain ⟨htid_rest, hnd_rest⟩ := List.nodup_cons.mp hnd
              have hloop : collectLoop tag fd (t :: rest) p s =
                  collectLoop tag fd rest p s1 := by
                rw [collectLoop_cons_none tag fd t rest p s htt, heq, hs1]
              have halign_rest : ∀ id ∈ allIds rest,
                  alookup s1.flatTestItems id = none ∨
                  alookup s1.flatTestItems id = some id := by
                intro id hid
                have hne : t.id ≠ id := fun h => htid_rest (by rw [h]; exact hid)
                rw [hf_flat, alookup_ainsert, if_neg hne]
                exact halign id (hq_mem_rest hid)
              have hpres_rest : ∀ id ∈ allIds rest,
                  alookup s1.flatTestItems id = some id →
                  (getItem? s1 id).isSome = true := by
                intro id hid hsome
                have hne : t.id ≠ id := fun h => htid_rest (by rw [h]; exact hid)
                rw [hf_flat, alookup_ainsert, if_neg hne] at hsome
                exact hf_mono id (hpresF id (hq_mem_rest hid) hsome)
              obtain ⟨R1, R2, R3, R4, R5, ⟨R6a, R6b, R6c⟩,
                ⟨chFin, hchFin, hchFin_mem⟩, R8⟩ :=
                ih (sizeOf rest) hrest_sz rest tag fd p s1 (le_refl _) hprest
                  hnd_rest hf_p_some halign_rest hpres_rest
              have hchS1 := hch_of s1 hf_item_p
              rw [hloop]
              refine ⟨?_, ?_, ?_, ?_, ?_, ⟨?_, ?_, ?_⟩, ?_, ?_⟩
              · intro q hq hqp
                rw [hAll] at hq
                have h1 : q ≠ t.id :=
                  fun h => hq (by rw [h]; exact List.mem_cons_self _ _)
                have h3 : q ∉ allIds rest := fun h => hq (hq_mem_rest h)
                rw [R1 q h3 hqp, hf_item_other q h1 hqp]
              · intro q hq
                rw [hAll] at hq
                have h1 : q ≠ t.id :=
                  fun h => hq (by rw [h]; exact List.mem_cons_self _ _)
                have h3 : q ∉ allIds rest := fun h => hq (hq_mem_rest h)
                rw [R2 q h3, hf_flat, alookup_ainsert, if_neg (fun h => h1 h.symm)]
              · intro id hid
                rw [hAll] at hid
                rcases List.mem_cons.mp hid with heqid | hmem
                · rw [heqid, R2 t.id htid_rest, hf_flat, alookup_ainsert, if_pos rfl]
                · exact R3 id hmem
              · intro q h
                exact R4 q (hf_mono q h)
              · intro q hq
                rw [hAll] at hq
                have h1 : q ≠ t.id :=
                  fun h => hq (by rw [h]; exact List.mem_cons_self _ _)
                have h3 : q ∉ allIds rest := fun h => hq (hq_mem_rest h)
                rw [R5 q h3, hf_td q h1]
              · rw [R6a, hf_fi]
              · rw [R6b, hf_fo]
              · rw [R6c, hf_bf]
              · refine ⟨chFin, ?_, ?_⟩
                · rw [hchFin, hf_item_p, hitp]
                  by_cases hmemc : t.id ∈ itp.children <;> simp [hmemc]
                · intro x
                  rw [hchFin_mem x, hchS1 x]
                  simp only [idsOf, List.map_cons, List.mem_cons]
                  tauto
              · rw [Settled_cons_none htt]
                have hR1_tid : getItem? (collectLoop tag fd rest p s1) t.id =
                    getItem? s1 t.id :=
                  R1 t.id htid_rest (fun h => hpt h.symm)
                refine ⟨?_, R8⟩
                unfold SettledFields
                refine ⟨?_, ?_⟩
                · rw [R2 t.id htid_rest, hf_flat, alookup_ainsert, if_pos rfl]
                · have htid_fin : getItem? (collectLoop tag fd rest p s1) t.id =
                      some (taskItemAfter tag t (getItem s p).tags p b) := by
                    rw [hR1_tid]
                    exact hf_item_tid
                  rw [htid_fin]
                  obtain ⟨a1, a2, a3, a4, a5, a6⟩ :=
                    taskItemAfter_fields tag t (getItem s p).tags p b
                  have htags_p : (getItem (collectLoop tag fd rest p s1) p).tags =
                      (getItem s p).tags := by
                    unfold getItem
                    rw [hchFin, hf_item_p, hitp]
                    by_cases hmemc : t.id ∈ itp.children <;> simp [hmemc]
                  refine ⟨?_, a1, a3, a4, a5, ?_, ?_, ?_⟩
                  · rw [htags_p]
                    exact a2
                  · intro hsuite
                    rw [R5 t.id htid_rest]
                    exact hf_td_suite hsuite
                  · intro hcase
                    rw [R5 t.id htid_rest]
                    exact hf_td_case hcase
                  · have hin : t.id ∈ chFin :=
                      (hchFin_mem t.id).mpr (Or.inl ((hchS1 t.id).mpr (Or.inr rfl)))
                    unfold childrenOf getItem
                    rw [hchFin, hf_item_p, hitp]
                    exact hin

/-! ### Idempotence support: a settled state is a fixed point of collection -/

theorem VItem.eq_of_item_fields {a b : VItem}
    (h1 : a.id = b.id) (h2 : a.label = b.label) (h3 : a.uri = b.uri)
    (h4 : a.tags = b.tags) (h5 : a.error = b.error) (h6 : a.range = b.range)
    (h7 : a.sortText = b.sortText) (h8 : a.canResolveChildren = b.canResolveChildren)
    (h9 : a.busy = b.busy) (h10 : a.parent = b.parent) (h11 : a.children = b.children) :
    a = b := by
  cases a
  cases b
  simp only [VItem.mk.injEq]
  exact ⟨h1, h2, h3, h4, h5, h6, h7, h8, h9, h10, h11⟩

theorem TreeState.eq_of_state_fields {a b : TreeState}
    (h1 : a.items = b.items) (h2 : a.flatTestItems = b.flatTestItems)
    (h3 : a.fileItems = b.fileItems) (h4 : a.folderItems = b.folderItems)
    (h5 : a.testItemsByFile = b.testItemsByFile) (h6 : a.testData = b.testData) :
    a = b := by
  cases a
  cases b
  simp only [TreeState.mk.injEq]
  exact ⟨h1, h2, h3, h4, h5, h6⟩

theorem modifyItem_fix (s : TreeState) (i : String) (f : VItem → VItem)
    (h : ∀ it, getItem? s i = some it → f it = it) : modifyItem s i f = s := by
  unfold modifyItem
  cases hx : getItem? s i with
  | none => rfl
  | some it =>
      dsimp only
      rw [h it hx]
      unfold setItem
      rw [ainsert_self s.items i it hx]

theorem childrenAdd_elim (s : TreeState) (p cid : String) (itp : VItem)
    (h : getItem? s p = some itp) (hmem : cid ∈ itp.children) :
    childrenAdd s p cid =
      modifyItem s cid fun it => { it with parent := some p } := by
  unfold childrenAdd
  have hfix : modifyItem s p (fun it =>
      if cid ∈ it.children then it
      else { it with children := it.children ++ [cid] }) = s := by
    apply modifyItem_fix
    intro itx hx
    have hxe : itx = itp := Option.some.inj (hx.symm.trans h)
    rw [hxe]
    show (if cid ∈ itp.children then itp
        else { itp with children := itp.children ++ [cid] }) = itp
    rw [if_pos hmem]
  rw [hfix]

theorem setTaskFields_items (tag : String) (t : VTask) (pt : List String) (i : String)
    (s : TreeState) :
    (setTaskFields tag t pt i s).items = aUpdate s.items i (fun it =>
      { it with tags := dedupFirst (pt ++ [tag]), error := none, label := t.name }) :=
  modifyItem_items _ _ _

theorem setFlatItem_items (s : TreeState) (k v : String) :
    (setFlatItem s k v).items = s.items := rfl

theorem registerTaskData_items (fd ty i : String) (s : TreeState) :
    (registerTaskData fd ty i s).items = s.items := by
  unfold registerTaskData
  split_ifs <;> rfl

theorem setTaskLocation_some {t : VTask} {loc : TaskLocation} (i : String)
    (s : TreeState) (h : t.location = some loc) :
    setTaskLocation t i s = modifyItem s i fun it =>
      { it with range := some (loc.line - 1, loc.column) } := by
  unfold setTaskLocation
  rw [h]

theorem setTaskLocation_none {t : VTask} (i : String) (s : TreeState)
    (h : t.location = none) :
    setTaskLocation t i s = modifyItem s i fun it =>
      { it with sortText := some t.id } := by
  unfold setTaskLocation
  rw [h]

theorem setTaskResultError_noRes {t : VTask} (i : String) (s : TreeState)
    (h : t.result = none) : setTaskResultError t i s = s := by
  unfold setTaskResultError
  rw [h]

theorem setTaskResultError_noErrors {t : VTask} {r : TaskResult} (i : String)
    (s : TreeState) (h1 : t.result = some r) (h2 : r.errors = none) :
    setTaskResultError t i s = s := by
  unfold setTaskResultError
  rw [h1]
  dsimp only
  rw [h2]

theorem setTaskResultError_errors {t : VTask} {r : TaskResult} {errs : List TestErr}
    (i : String) (s : TreeState) (h1 : t.result = some r) (h2 : r.errors = some errs) :
    setTaskResultError t i s = modifyItem s i fun it =>
      { it with error := some (taskErrorJoin errs) } := by
  unfold setTaskResultError
  rw [h1]
  dsimp only
  rw [h2]

theorem filter_mem_eq_self : ∀ (l ids : List String), (∀ x ∈ l, x ∈ ids) →
    l.filter (fun c => decide (c ∈ ids)) = l := by
  intro l ids
  induction l with
  | nil => intro h; rfl
  | cons a as ihl =>
      intro h
      have ha : a ∈ ids := h a (List.mem_cons_self _ _)
      have hrest := ihl (fun x hx => h x (List.mem_cons_of_mem _ hx))
      simp [List.filter_cons, ha, hrest]

theorem pruneChildren_id (s : TreeState) (pid : String) (ids : List String)
    (h : ∀ x ∈ childrenOf s pid, x ∈ ids) : pruneChildren s pid ids = s := by
  unfold pruneChildren
  apply modifyItem_fix
  intro itx hx
  have hch : ∀ x ∈ itx.children, x ∈ ids := by
    intro x hxx
    apply h
    unfold childrenOf getItem
    rw [hx]
    exact hxx
  show { itx with children := itx.children.filter (fun c => decide (c ∈ ids)) } = itx
  rw [filter_mem_eq_self itx.children ids hch]

/-- A task whose item already carries exactly the fields `collectTasks`
establishes is left entirely unchanged by the loop body's field updates. -/
theorem collectTaskFields_settled_id (tag fd : String) (t : VTask) (p : String)
    (s : TreeState) (it itp : VItem)
    (hit : getItem? s t.id = some it)
    (hitp : getItem? s p = some itp)
    (hpt : p ≠ t.id)
    (htags : it.tags = dedupFirst ((getItem s p).tags ++ [tag]))
    (hlabel : it.label = t.name)
    (herror : it.error = expectedError t)
    (hparent : it.parent = some p)
    (hloc : match t.location with
            | some loc => it.range = some (loc.line - 1, loc.column)
            | none => it.sortText = some t.id)
    (hmemc : t.id ∈ itp.children)
    (hflat : alookup s.flatTestItems t.id = some t.id)
    (hdata_suite : t.ttype = "suite" →
       alookup s.testData t.id = some (TestData.suite fd))
    (hdata_case : t.ttype = "test" ∨ t.ttype = "custom" →
       alookup s.testData t.id = some (TestData.testCase fd)) :
    collectTaskFields tag fd t p (getItem s p).tags t.id s = s := by
  have hXp : getItem? (setFlatItem (registerTaskData fd t.ttype t.id
      (setTaskLocation t t.id (setTaskFields tag t (getItem s p).tags t.id s)))
      t.id t.id) p = some itp := by
    rw [getItem?_setFlatItem, getItem?_registerTaskData,
        getItem?_setTaskLocation_ne _ _ _ _ (fun h => hpt h.symm),
        getItem?_setTaskFields_ne _ _ _ _ _ _ (fun h => hpt h.symm)]
    exact hitp
  have hstep : collectTaskFields tag fd t p (getItem s p).tags t.id s =
      setTaskResultError t t.id
        (modifyItem (setFlatItem (registerTaskData fd t.ttype t.id
          (setTaskLocation t t.id (setTaskFields tag t (getItem s p).tags t.id s)))
          t.id t.id)
          t.id (fun it => { it with parent := some p })) := by
    rw [collectTaskFields_eq, childrenAdd_elim _ _ _ itp hXp hmemc]
  rw [hstep]
  refine TreeState.eq_of_state_fields ?_ ?_ ?_ ?_ ?_ ?_
  · -- the item heap: everything modified at t.id composes to the identity
    cases hl : t.location with
    | some loc =>
        simp only [hl] at hloc
        rw [setTaskLocation_some _ _ hl]
        cases hr : t.result with
        | none =>
            simp only [expectedError, hr] at herror
            rw [setTaskResultError_noRes _ _ hr, modifyItem_items, setFlatItem_items,
                registerTaskData_items, modifyItem_items, setTaskFields_items,
                aUpdate_fuse, aUpdate_fuse]
            apply aUpdate_of_fixed
            intro itx hx
            have hxe : itx = it := Option.some.inj (hx.symm.trans hit)
            subst hxe
            exact VItem.eq_of_item_fields rfl hlabel.symm rfl htags.symm herror.symm
              hloc.symm rfl rfl rfl hparent.symm rfl
        | some r =>
            cases he : r.errors with
            | none =>
                simp only [expectedError, hr, he] at herror
                rw [setTaskResultError_noErrors _ _ hr he, modifyItem_items,
                    setFlatItem_items, registerTaskData_items, modifyItem_items,
                    setTaskFields_items, aUpdate_fuse, aUpdate_fuse]
                apply aUpdate_of_fixed
                intro itx hx
                have hxe : itx = it := Option.some.inj (hx.symm.trans hit)
                subst hxe
                exact VItem.eq_of_item_fields rfl hlabel.symm rfl htags.symm herror.symm
                  hloc.symm rfl rfl rfl hparent.symm rfl
            | some errs =>
                simp only [expectedError, hr, he] at herror
                rw [setTaskResultError_errors _ _ hr he, modifyItem_items,
                    modifyItem_items, setFlatItem_items, registerTaskData_items,
                    modifyItem_items, setTaskFields_items, aUpdate_fuse, aUpdate_fuse,
                    aUpdate_fuse]
                apply aUpdate_of_fixed
                intro itx hx
                have hxe : itx = it := Option.some.inj (hx.symm.trans hit)
                subst hxe
                exact VItem.eq_of_item_fields rfl hlabel.symm rfl htags.symm herror.symm
                  hloc.symm rfl rfl rfl hparent.symm rfl
    | none =>
        simp only [hl] at hloc
        rw [setTaskLocation_none _ _ hl]
        cases hr : t.result with
        | none =>
            simp only [expectedError, hr] at herror
            rw [setTaskResultError_noRes _ _ hr, modifyItem_items, setFlatItem_items,
                registerTaskData_items, modifyItem_items, setTaskFields_items,
                aUpdate_fuse, aUpdate_fuse]
            apply aUpdate_of_fixed
            intro itx hx
            have hxe : itx = it := Option.some.inj (hx.symm.trans hit)
            subst hxe
            exact VItem.eq_of_item_fields rfl hlabel.symm rfl htags.symm herror.symm
              rfl hloc.symm rfl rfl hparent.symm rfl
        | some r =>
            cases he : r.errors with
            | none =>
                simp only [expectedError, hr, he] at herror
                rw [setTaskResultError_noErrors _ _ hr he, modifyItem_items,
                    setFlatItem_items, registerTaskData_items, modifyItem_items,
                    setTaskFields_items, aUpdate_fuse, aUpdate_fuse]
                apply aUpdate_of_fixed
                intro itx hx
                have hxe : itx = it := Option.some.inj (hx.symm.trans hit)
                subst hxe
                exact VItem.eq_of_item_fields rfl hlabel.symm rfl htags.symm herror.symm
                  rfl hloc.symm rfl rfl hparent.symm rfl
            | some errs =>
                simp only [expectedError, hr, he] at herror
                rw [setTaskResultError_errors _ _ hr he, modifyItem_items,
                    modifyItem_items, setFlatItem_items, registerTaskData_items,
                    modifyItem_items, setTaskFields_items, aUpdate_fuse, aUpdate_fuse,
                    aUpdate_fuse]
                apply aUpdate_of_fixed
                intro itx hx
                have hxe : itx = it := Option.some.inj (hx.symm.trans hit)
                subst hxe
                exact VItem.eq_of_item_fields rfl hlabel.symm rfl htags.symm herror.symm
                  rfl hloc.symm rfl rfl hparent.symm rfl
  · rw [setTaskResultError_flat, modifyItem_flat, setFlatItem_flat,
        registerTaskData_flat, setTaskLocation_flat, setTaskFields_flat]
    exact ainsert_self _ _ _ hflat
  · rw [setTaskResultError_fileItems, modifyItem_fileItems, setFlatItem_fileItems,
        registerTaskData_fileItems, setTaskLocation_fileItems, setTaskFields_fileItems]
  · rw [setTaskResultError_folderItems, modifyItem_folderItems, setFlatItem_folderItems,
        registerTaskData_folderItems, setTaskLocation_folderItems,
        setTaskFields_folderItems]
  · rw [setTaskResultError_byFile, modifyItem_byFile, setFlatItem_byFile,
        registerTaskData_byFile, setTaskLocation_byFile, setTaskFields_byFile]
  · rw [setTaskResultError_testData, modifyItem_testData, setFlatItem_testData]
    unfold registerTaskData
    split_ifs with h1 h2
    · simp only [setTaskLocation_testData, setTaskFields_testData]
      exact ainsert_self _ _ _ (hdata_suite h1)
    · simp only [setTaskLocation_testData, setTaskFields_testData]
      exact ainsert_self _ _ _ (hdata_case h2)
    · rw [setTaskLocation_testData, setTaskFields_testData]

/-- A fully settled state is a fixed point of the `collectTasks` loop. -/
theorem collectLoop_settled_id : ∀ (n : Nat) (tasks : List VTask) (tag fd p : String)
    (L : TreeState), sizeOf tasks ≤ n →
    p ∉ allIds tasks → (allIds tasks).Nodup →
    Settled tag fd L tasks p →
    collectLoop tag fd tasks p L = L := by
  intro n
  induction n using Nat.strong_induction_on with
  | _ n ih =>
      intro tasks tag fd p L hsz hp hnd hs
      cases tasks with
      | nil => exact collectLoop_nil _ _ _ _
      | cons t rest =>
          have hrest_sz : sizeOf rest < n := by
            have := VTask.sizeOf_rest_lt t rest
            omega
          cases htt : t.tasks with
          | some sub =>
              have hsub_sz : sizeOf sub < n := by
                have h1 := VTask.sizeOf_tasks_lt htt
                have h2 := VTask.sizeOf_head_lt t rest
                omega
              rw [Settled_cons_some htt] at hs
              obtain ⟨hf, ⟨hnest, hsubset⟩, hrest⟩ := hs
              have hAll := @allIds_cons_some t rest _ htt
              rw [hAll] at hp hnd
              have hpt : p ≠ t.id :=
                fun h => hp (by rw [h]; exact List.mem_cons_self _ _)
              obtain ⟨hnd1, hnd2⟩ := List.nodup_cons.mp hnd
              have htid_sub : t.id ∉ allIds sub :=
                fun h => hnd1 (List.mem_append_left _ h)
              obtain ⟨hnd_sub, hnd_rest, hdisj⟩ := List.nodup_append.mp hnd2
              have hprest : p ∉ allIds rest :=
                fun h => hp (List.mem_cons_of_mem _ (List.mem_append_right _ h))
              unfold SettledFields at hf
              obtain ⟨hflat, hf2⟩ := hf
              cases hx : getItem? L t.id with
              | none =>
                  rw [hx] at hf2
                  exact hf2.elim
              | some it =>
                  rw [hx] at hf2
                  obtain ⟨htags, hlabel, herror, hparent, hloc, hdata_s, hdata_c,
                    hmem⟩ := hf2
                  have hitp_ex : ∃ itp, getItem? L p = some itp ∧
                      t.id ∈ itp.children := by
                    unfold childrenOf getItem at hmem
                    cases hy : getItem? L p with
                    | none =>
                        rw [hy] at hmem
                        simp [defaultItem] at hmem
                    | some itp =>
                        rw [hy] at hmem
                        exact ⟨itp, rfl, hmem⟩
                  obtain ⟨itp, hitp, hmemc⟩ := hitp_ex
                  have hcf : collectTaskFields tag fd t p (getItem L p).tags t.id L
                      = L :=
                    collectTaskFields_settled_id tag fd t p L it itp hx hitp hpt
                      htags hlabel herror hparent hloc hmemc hflat hdata_s hdata_c
                  have hinner := ih (sizeOf sub) hsub_sz sub tag fd t.id L (le_refl _)
                    htid_sub hnd_sub hnest
                  rw [collectLoop_cons_some tag fd t rest sub p L htt,
                      collectTaskItem_hit tag fd t p L t.id hflat]
                  show collectLoop tag fd rest p
                      (pruneChildren
                        (collectLoop tag fd sub t.id
                          (collectTaskFields tag fd t p (getItem L p).tags t.id L))
                        t.id (idsOf sub)) = L
                  rw [hcf, hinner, pruneChildren_id L t.id (idsOf sub) hsubset]
                  exact ih (sizeOf rest) hrest_sz rest tag fd p L (le_refl _) hprest
                    hnd_rest hrest
          | none =>
              rw [Settled_cons_none htt] at hs
              obtain ⟨hf, hrest⟩ := hs
              have hAll := @allIds_cons_none t rest htt
              rw [hAll] at hp hnd
              have hpt : p ≠ t.id :=
                fun h => hp (by rw [h]; exact List.mem_cons_self _ _)
              obtain ⟨htid_rest, hnd_rest⟩ := List.nodup_cons.mp hnd
              have hprest : p ∉ allIds rest :=
                fun h => hp (List.mem_cons_of_mem _ h)
              unfold SettledFields at hf
              obtain ⟨hflat, hf2⟩ := hf
              cases hx : getItem? L t.id with
              | none =>
                  rw [hx] at hf2
                  exact hf2.elim
              | some it =>
                  rw [hx] at hf2
                  obtain ⟨htags, hlabel, herror, hparent, hloc, hdata_s, hdata_c,
                    hmem⟩ := hf2
                  have hitp_ex : ∃ itp, getItem? L p = some itp ∧
                      t.id ∈ itp.children := by
                    unfold childrenOf getItem at hmem
                    cases hy : getItem? L p with
                    | none =>
                        rw [hy] at hmem
                        simp [defaultItem] at hmem
                    | some itp =>
                        rw [hy] at hmem
                        exact ⟨itp, rfl, hmem⟩
                  obtain ⟨itp, hitp, hmemc⟩ := hitp_ex
                  have hcf : collectTaskFields tag fd t p (getItem L p).tags t.id L
                      = L :=
                    collectTaskFields_settled_id tag fd t p L it itp hx hitp hpt
                      htags hlabel herror hparent hloc hmemc hflat hdata_s hdata_c
                  rw [collectLoop_cons_none tag fd t rest p L htt,
                      collectTaskItem_hit tag fd t p L t.id hflat]
                  show collectLoop tag fd rest p
                      (collectTaskFields tag fd t p (getItem L p).tags t.id L) = L
                  rw [hcf]
                  exact ih (sizeOf rest) hrest_sz rest tag fd p L (le_refl _) hprest
                    hnd_rest hrest

theorem allIds_nil : allIds ([] : List VTask) = [] := by
  simp [allIds]

/-- C1: after `collectTasks` on a well-formed tree, the parent's children are
exactly the reported task ids (stale children pruned, every reported id
present), every processed suite's children mirror its reported subtasks, and
repeating the identical call leaves the tree state completely unchanged. -/
theorem collectTasks_mirror_idempotent (tag fd : String) (tasks : List VTask)
    (p : String) (s : TreeState) (hwf : CollectWF s tasks p) :
    (∀ x, x ∈ childrenOf (collectTasks tag fd tasks p s) p ↔ x ∈ idsOf tasks) ∧
    MirrorsAll (collectTasks tag fd tasks p s) tasks ∧
    collectTasks tag fd tasks p (collectTasks tag fd tasks p s) =
      collectTasks tag fd tasks p s := by
  obtain ⟨hp, hnd, hpres, halign, hpresF⟩ := hwf
  obtain ⟨G1, G2, G3, G4, G5, ⟨G6a, G6b, G6c⟩, ⟨ch, hch, hchmem⟩, G8⟩ :=
    collectLoop_spec (sizeOf tasks) tasks tag fd p s (le_refl _) hp hnd hpres
      halign hpresF
  obtain ⟨itp, hitp⟩ := Option.isSome_iff_exists.mp hpres
  have hCT_p : getItem? (collectTasks tag fd tasks p s) p =
      some { itp with children := ch.filter (fun c => decide (c ∈ idsOf tasks)) } := by
    unfold collectTasks
    rw [getItem?_pruneChildren_self, hch, hitp]
    rfl
  have hmirror : ∀ x, x ∈ childrenOf (collectTasks tag fd tasks p s) p ↔
      x ∈ idsOf tasks := by
    intro x
    unfold childrenOf getItem
    rw [hCT_p]
    show x ∈ ch.filter (fun c => decide (c ∈ idsOf tasks)) ↔ x ∈ idsOf tasks
    constructor
    · intro hx
      have := List.of_mem_filter hx
      simpa using this
    · intro hx
      exact List.mem_filter.mpr ⟨(hchmem x).mpr (Or.inr hx), by simpa using hx⟩
  have hsettledCT : Settled tag fd (collectTasks tag fd tasks p s) tasks p := by
    unfold collectTasks
    refine Settled_congr (sizeOf tasks) tasks tag fd p
      (collectLoop tag fd tasks p s) _ (le_refl _) ?_ ?_ ?_ ?_ ?_ G8
    · intro q hq
      exact getItem?_pruneChildren_ne _ _ _ q (fun h => hp (by rw [h]; exact hq))
    · intro q hq
      rw [pruneChildren_flat]
    · intro q hq
      rw [pruneChildren_testData]
    · unfold getItem
      rw [getItem?_pruneChildren_self, hch, hitp]
      rfl
    · intro t' ht' hmem
      exact mem_pruneChildren_children _ _ _ _ hmem (List.mem_map_of_mem _ ht')
  refine ⟨hmirror, ?_, ?_⟩
  · exact Settled_to_MirrorsAll (sizeOf tasks) tasks tag fd p _ (le_refl _) hsettledCT
  · have hloop2 : collectLoop tag fd tasks p (collectTasks tag fd tasks p s) =
        collectTasks tag fd tasks p s :=
      collectLoop_settled_id (sizeOf tasks) tasks tag fd p _ (le_refl _) hp hnd
        hsettledCT
    have hsub : ∀ x ∈ childrenOf (collectTasks tag fd tasks p s) p,
        x ∈ idsOf tasks := fun x hx => (hmirror x).mp hx
    have hunfold : collectTasks tag fd tasks p (collectTasks tag fd tasks p s) =
        pruneChildren (collectLoop tag fd tasks p (collectTasks tag fd tasks p s))
          p (idsOf tasks) := rfl
    rw [hunfold, hloop2, pruneChildren_id _ _ _ hsub]

theorem allIds_c1 : allIds c1Tasks = ["f::s1", "f::s1::t1"] := by
  rw [show c1Tasks = [c1Suite] from rfl,
      allIds_cons_some (show c1Suite.tasks = some [c1Inner] from rfl),
      allIds_cons_none (show c1Inner.tasks = none from rfl), allIds_nil]
  rfl

/-- Witness for C1: a suite report containing one test, collected under the
workspace root of the base scenario. -/
theorem collectTasks_mirror_idempotent_w :
    CollectWF baseState c1Tasks "/ws" ∧
    ((∀ x, x ∈ childrenOf (collectTasks "tagA" "fA" c1Tasks "/ws" baseState) "/ws" ↔
        x ∈ idsOf c1Tasks) ∧
     MirrorsAll (collectTasks "tagA" "fA" c1Tasks "/ws" baseState) c1Tasks ∧
     collectTasks "tagA" "fA" c1Tasks "/ws"
         (collectTasks "tagA" "fA" c1Tasks "/ws" baseState) =
       collectTasks "tagA" "fA" c1Tasks "/ws" baseState) := by
  have hwf : CollectWF baseState c1Tasks "/ws" := by
    unfold CollectWF
    rw [allIds_c1]
    exact ⟨by decide, by decide, by decide, by decide, by decide⟩
  exact ⟨hwf, collectTasks_mirror_idempotent "tagA" "fA" c1Tasks "/ws" baseState hwf⟩

theorem Settled_fields_of_mem : ∀ (l : List VTask) (tag fd p : String)
    (s : TreeState), Settled tag fd s l p → ∀ t ∈ l, SettledFields tag fd s t p := by
  intro l
  induction l with
  | nil =>
      intro tag fd p s hs t ht
      simp at ht
  | cons t0 rest ih =>
      intro tag fd p s hs t ht
      rcases List.mem_cons.mp ht with heq | hmem
      · have hf : SettledFields tag fd s t0 p := by
          cases htt : t0.tasks with
          | some sub => exact ((Settled_cons_some htt).mp hs).1
          | none => exact ((Settled_cons_none htt).mp hs).1
        rw [heq]
        exact hf
      · cases htt : t0.tasks with
        | some sub => exact ih tag fd p s ((Settled_cons_some htt).mp hs).2.2 t hmem
        | none => exact ih tag fd p s ((Settled_cons_none htt).mp hs).2 t hmem

/-- After `collectTasks` on a well-formed tree, every processed task's fields
are settled in the resulting state. -/
theorem collectTasks_settled (tag fd : String) (tasks : List VTask) (p : String)
    (s : TreeState) (hwf : CollectWF s tasks p) :
    Settled tag fd (collectTasks tag fd tasks p s) tasks p := by
  obtain ⟨hp, hnd, hpres, halign, hpresF⟩ := hwf
  obtain ⟨G1, G2, G3, G4, G5, hG6, ⟨ch, hch, hchmem⟩, G8⟩ :=
    collectLoop_spec (sizeOf tasks) tasks tag fd p s (le_refl _) hp hnd hpres
      halign hpresF
  obtain ⟨itp, hitp⟩ := Option.isSome_iff_exists.mp hpres
  unfold collectTasks
  refine Settled_congr (sizeOf tasks) tasks tag fd p
    (collectLoop tag fd tasks p s) _ (le_refl _) ?_ ?_ ?_ ?_ ?_ G8
  · intro q hq
    exact getItem?_pruneChildren_ne _ _ _ q (fun h => hp (by rw [h]; exact hq))
  · intro q hq
    rw [pruneChildren_flat]
  · intro q hq
    rw [pruneChildren_testData]
  · unfold getItem
    rw [getItem?_pruneChildren_self, hch, hitp]
    rfl
  · intro t' ht' hmem
    exact mem_pruneChildren_children _ _ _ _ hmem (List.mem_map_of_mem _ ht')

/-- C4: location conversion is asymmetric.  A 1-based task location
`(L, C)` is stored by collection as the point range `(L - 1, C)` (line
decremented, column unchanged), while a matching 1-based stack frame
`(L2, C2)` yields the attached message location `(L2 - 1, C2 - 1)` (both
decremented). -/
theorem location_conversion_asymmetry
    (tag fd : String) (tasks : List VTask) (p : String) (s : TreeState)
    (t : VTask) (L C : Int)
    (hwf : CollectWF s tasks p) (hmem : t ∈ tasks)
    (hloc : t.location = some { line := L, column := C })
    (sep : String) (testItem : VItem) (error : TestErr)
    (st : ParsedStack) (rest : List ParsedStack) (L2 C2 : Int)
    (hstacks : error.stackFrames = some (st :: rest))
    (hmatch : replaceSlashes sep st.file = (testItem.uri).getD "")
    (hline : st.line = JSNum.num L2) (hcol : st.column = JSNum.num C2) :
    (∃ it, getItem? (collectTasks tag fd tasks p s) t.id = some it ∧
       it.range = some (L - 1, C)) ∧
    (testMessageForTestError sep testItem (some error)).location =
      some (replaceSlashes sep st.file, L2 - 1, C2 - 1) := by
  constructor
  · have hsettled := collectTasks_settled tag fd tasks p s hwf
    have hf := Settled_fields_of_mem tasks tag fd p _ hsettled t hmem
    unfold SettledFields at hf
    obtain ⟨-, hf2⟩ := hf
    cases hx : getItem? (collectTasks tag fd tasks p s) t.id with
    | none =>
        rw [hx] at hf2
        exact hf2.elim
    | some it =>
        rw [hx] at hf2
        obtain ⟨-, -, -, -, h5, -, -, -⟩ := hf2
        simp only [hloc] at h5
        exact ⟨it, rfl, h5⟩
  · have hparse : parseLocationFromStacks sep testItem ((error.stackFrames).getD [])
        = some { path := replaceSlashes sep st.file, line := L2, column := C2 } := by
      rw [hstacks]
      simp [parseLocationFromStacks, parseLocationLoop, hmatch, hline, hcol,
        JSNum.isNaN, JSNum.toInt]
    show (testMessageForTestError sep testItem (some error)).location = _
    unfold testMessageForTestError
    dsimp only
    rw [hparse]

/-- Witness for C4: task location `(10, 3)` stores range `(9, 3)` while the
matching stack frame `(10, 3)` resolves to message location `(9, 2)`. -/
theorem location_conversion_asymmetry_w :
    CollectWF baseState c4Tasks "/ws" ∧
    ((∃ it, getItem? (collectTasks "tagA" "fA" c4Tasks "/ws" baseState) "t4" =
        some it ∧ it.range = some (9, 3)) ∧
     (testMessageForTestError "/" testItemT1 (some c4Err)).location =
       some (replaceSlashes "/" c4Stack.file, 9, 2)) := by
  have hAll : allIds c4Tasks = ["t4"] := by
    rw [show c4Tasks = [c4Task] from rfl,
        allIds_cons_none (show c4Task.tasks = none from rfl), allIds_nil]
    rfl
  have hwf : CollectWF baseState c4Tasks "/ws" := by
    unfold CollectWF
    rw [hAll]
    exact ⟨by decide, by decide, by decide, by decide, by decide⟩
  exact ⟨hwf,
    location_conversion_asymmetry "tagA" "fA" c4Tasks "/ws" baseState c4Task 10 3
      hwf (List.mem_cons_self _ _) rfl "/" testItemT1 c4Err c4Stack [] 10 3
      rfl (by decide) rfl rfl⟩

/-- C9: `collectFile` clears the file item's error, re-collects the tasks,
then sets the error to the joined stack/message strings when the report
carries file-level result errors, else to a "no tests found" message when the
report has zero top-level tasks, else leaves it cleared; in every case the
item ends up marked non-resolvable. -/
theorem collectFile_error_sync (api : ApiHandle) (fuel : Nat) (file : VFile)
    (s s1 : TreeState) (fid : String) (it1 : VItem)
    (hcreate : getOrCreateFileTestItem api fuel (jsOr file.projectName "")
      file.filepath s = some (fid, s1))
    (hit1 : getItem? s1 fid = some it1)
    (hp : fid ∉ allIds file.tasks)
    (hfid : file.id ∉ allIds file.tasks)
    (hnd : (allIds file.tasks).Nodup)
    (halign : ∀ id ∈ allIds file.tasks,
       alookup s1.flatTestItems id = none ∨ alookup s1.flatTestItems id = some id)
    (hpresF : ∀ id ∈ allIds file.tasks,
       alookup s1.flatTestItems id = some id → (getItem? s1 id).isSome = true) :
    ∃ s', collectFile api fuel file s = some s' ∧
      ∃ it, getItem? s' fid = some it ∧
        it.canResolveChildren = false ∧
        it.error = (match file.result.bind TaskResult.errors with
                    | some errs => some (fileErrorJoin errs)
                    | none =>
                        if file.tasks.length = 0 then
                          some ("No tests found in " ++ file.filepath)
                        else none) := by
  obtain ⟨S3, hS3⟩ : ∃ x, x = setFlatItem
      (modifyItem s1 fid fun it => { it with error := none }) file.id fid := ⟨_, rfl⟩
  have h3val : getItem? S3 fid = some { it1 with error := none } := by
    rw [hS3, getItem?_setFlatItem, getItem?_modifyItem_self, hit1]
    rfl
  have hpres3 : (getItem? S3 fid).isSome = true := by
    rw [h3val]
    rfl
  have halign3 : ∀ id ∈ allIds file.tasks,
      alookup S3.flatTestItems id = none ∨ alookup S3.flatTestItems id = some id := by
    intro id hid
    have hfr : alookup S3.flatTestItems id = alookup s1.flatTestItems id := by
      rw [hS3, setFlatItem_flat, alookup_ainsert,
          if_neg (fun h => hfid (by rw [h]; exact hid)), modifyItem_flat]
    rw [hfr]
    exact halign id hid
  have hpresF3 : ∀ id ∈ allIds file.tasks,
      alookup S3.flatTestItems id = some id → (getItem? S3 id).isSome = true := by
    intro id hid hsome
    have hfr : alookup S3.flatTestItems id = alookup s1.flatTestItems id := by
      rw [hS3, setFlatItem_flat, alookup_ainsert,
          if_neg (fun h => hfid (by rw [h]; exact hid)), modifyItem_flat]
    rw [hfr] at hsome
    rw [hS3, getItem?_setFlatItem]
    exact getItem?_isSome_modifyItem _ _ _ _ (hpresF id hid hsome)
  obtain ⟨G1, G2, G3, G4, G5, hG6, ⟨ch, hch, hchmem⟩, G8⟩ :=
    collectLoop_spec (sizeOf file.tasks) file.tasks api.tag fid fid S3 (le_refl _)
      hp hnd hpres3 halign3 hpresF3
  obtain ⟨S4, hS4⟩ : ∃ x, x = collectTasks api.tag fid file.tasks fid S3 := ⟨_, rfl⟩
  have h4 : getItem? S4 fid = some { it1 with
      error := none,
      children := ch.filter (fun c => decide (c ∈ idsOf file.tasks)) } := by
    rw [hS4]
    unfold collectTasks
    rw [getItem?_pruneChildren_self, hch, h3val]
    rfl
  cases hre : file.result.bind TaskResult.errors with
  | some errs =>
      have hcf : collectFile api fuel file s = some
          (modifyItem
            (modifyItem S4 fid fun it => { it with error := some (fileErrorJoin errs) })
            fid fun it => { it with canResolveChildren := false }) := by
        rw [hS4, hS3]
        unfold collectFile
        rw [hcreate, hre]
        rfl
      refine ⟨_, hcf, ?_⟩
      have h5 : getItem? (modifyItem S4 fid fun it =>
          { it with error := some (fileErrorJoin errs) }) fid =
          some { it1 with
            error := some (fileErrorJoin errs),
            children := ch.filter (fun c => decide (c ∈ idsOf file.tasks)) } := by
        rw [getItem?_modifyItem_self, h4]
        rfl
      have h6 : getItem? (modifyItem
          (modifyItem S4 fid fun it => { it with error := some (fileErrorJoin errs) })
          fid fun it => { it with canResolveChildren := false }) fid =
          some { it1 with
            error := some (fileErrorJoin errs),
            canResolveChildren := false,
            children := ch.filter (fun c => decide (c ∈ idsOf file.tasks)) } := by
        rw [getItem?_modifyItem_self, h5]
        rfl
      exact ⟨_, h6, rfl, rfl⟩
  | none =>
      by_cases hlen : file.tasks.length = 0
      · have hcf : collectFile api fuel file s = some
            (modifyItem
              (modifyItem S4 fid fun it =>
                { it with error := some ("No tests found in " ++ file.filepath) })
              fid fun it => { it with canResolveChildren := false }) := by
          rw [hS4, hS3]
          unfold collectFile
          rw [hcreate, hre, hlen]
          rfl
        refine ⟨_, hcf, ?_⟩
        have h5 : getItem? (modifyItem S4 fid fun it =>
            { it with error := some ("No tests found in " ++ file.filepath) }) fid =
            some { it1 with
              error := some ("No tests found in " ++ file.filepath),
              children := ch.filter (fun c => decide (c ∈ idsOf file.tasks)) } := by
          rw [getItem?_modifyItem_self, h4]
          rfl
        have h6 : getItem? (modifyItem
            (modifyItem S4 fid fun it =>
              { it with error := some ("No tests found in " ++ file.filepath) })
            fid fun it => { it with canResolveChildren := false }) fid =
            some { it1 with
              error := some ("No tests found in " ++ file.filepath),
              canResolveChildren := false,
              children := ch.filter (fun c => decide (c ∈ idsOf file.tasks)) } := by
          rw [getItem?_modifyItem_self, h5]
          rfl
        refine ⟨_, h6, rfl, ?_⟩
        rw [if_pos hlen]
      · have hcf : collectFile api fuel file s = some
            (modifyItem S4 fid fun it => { it with canResolveChildren := false }) := by
          cases hn : file.tasks.length with
          | zero => exact absurd hn hlen
          | succ n =>
              rw [hS4, hS3]
              unfold collectFile
              rw [hcreate, hre, hn]
              rfl
        refine ⟨_, hcf, ?_⟩
        have h6 : getItem? (modifyItem S4 fid fun it =>
            { it with canResolveChildren := false }) fid =
            some { it1 with
              error := none,
              canResolveChildren := false,
              children := ch.filter (fun c => decide (c ∈ idsOf file.tasks)) } := by
          rw [getItem?_modifyItem_self, h4]
          rfl
        refine ⟨_, h6, rfl, ?_⟩
        rw [if_neg hlen]

/-- Witness for C9: a report with no result and zero tasks yields the
"no tests found" error on the non-resolvable file item. -/
theorem collectFile_error_sync_w :
    getOrCreateFileTestItem apiA 10 (jsOr c9File.projectName "") c9File.filepath
      baseState = some (c9fid, c9s1) ∧
    (∃ s', collectFile apiA 10 c9File baseState = some s' ∧
      ∃ it, getItem? s' c9fid = some it ∧
        it.canResolveChildren = false ∧
        it.error = (match c9File.result.bind TaskResult.errors with
                    | some errs => some (fileErrorJoin errs)
                    | none =>
                        if c9File.tasks.length = 0 then
                          some ("No tests found in " ++ c9File.filepath)
                        else none)) := by
  have hcreate : getOrCreateFileTestItem apiA 10 (jsOr c9File.projectName "")
      c9File.filepath baseState = some (c9fid, c9s1) := by decide
  have hit1 : getItem? c9s1 c9fid = some c9it1 := by decide
  have hvac : ∀ id ∈ allIds c9File.tasks, False := by
    intro id hid
    rw [show c9File.tasks = [] from rfl, allIds_nil] at hid
    exact List.not_mem_nil _ hid
  refine ⟨hcreate, collectFile_error_sync apiA 10 c9File baseState c9s1 c9fid c9it1
    hcreate hit1 ?_ ?_ ?_ ?_ ?_⟩
  · exact fun h => hvac _ h
  · exact fun h => hvac _ h
  · rw [show c9File.tasks = [] from rfl, allIds_nil]
    exact List.nodup_nil
  · exact fun id hid => (hvac id hid).elim
  · exact fun id hid => (hvac id hid).elim

theorem parent_deleteNodeEntries (s : TreeState) (n p q : String) :
    (getItem (deleteNodeEntries s n p) q).parent = (getItem s q).parent := by
  have h1 : getItem? (deleteNodeEntries s n p) q = getItem? (childrenDelete s p n) q := by
    unfold deleteNodeEntries
    dsimp only
    split <;> rfl
  unfold getItem
  rw [h1]
  unfold childrenDelete
  by_cases hq : p = q
  · subst hq
    rw [getItem?_modifyItem_self]
    cases hx : getItem? s p with
    | none => rfl
    | some it => rfl
  · rw [getItem?_modifyItem_ne _ _ _ _ hq]

theorem ParentChain_deleteNodeEntries : ∀ (rest : List String) (s : TreeState)
    (n p q : String), ParentChain s q rest →
    ParentChain (deleteNodeEntries s n p) q rest := by
  intro rest
  induction rest with
  | nil =>
      intro s n p q h
      show (getItem (deleteNodeEntries s n p) q).parent = none
      rw [parent_deleteNodeEntries]
      exact h
  | cons a rest ih =>
      intro s n p q h
      obtain ⟨h1, h2⟩ := h
      exact ⟨by rw [parent_deleteNodeEntries]; exact h1, ih s n p a h2⟩

theorem recursiveDelete_root (fuel : Nat) (s : TreeState) (n : String)
    (h : (getItem s n).parent = none) : recursiveDelete fuel s n = s := by
  cases fuel with
  | zero => rfl
  | succ m =>
      conv_lhs => rw [recursiveDelete]
      dsimp only
      rw [h]

theorem recursiveDelete_succ (m : Nat) (s : TreeState) (n pid : String)
    (h : (getItem s n).parent = some pid) :
    recursiveDelete (m + 1) s n =
      if (getItem (deleteNodeEntries s n pid) pid).children.length = 0 then
        recursiveDelete m (deleteNodeEntries s n pid) pid
      else deleteNodeEntries s n pid := by
  conv_lhs => rw [recursiveDelete]
  dsimp only
  rw [h]
  rfl

/-- C6: deleting a file node walks the ancestor chain exactly as the spec
describes — each node is dropped from its parent and the indices, ancestors
that become childless are pruned recursively, the walk stops at the first
ancestor that keeps children, and an item with no parent (the root, or an
exhausted chain) is never deleted. -/
theorem recursiveDelete_prunes_ancestors : ∀ (anc : List String) (fuel : Nat)
    (s : TreeState) (n : String),
    ParentChain s n anc → anc.length ≤ fuel →
    recursiveDelete fuel s n = specFilePrune s n anc ∧
    ((getItem s n).parent = none → recursiveDelete fuel s n = s) := by
  intro anc
  induction anc with
  | nil =>
      intro fuel s n hchain hfuel
      have hpar : (getItem s n).parent = none := hchain
      have hid : recursiveDelete fuel s n = s := recursiveDelete_root fuel s n hpar
      exact ⟨hid, fun _ => hid⟩
  | cons p rest ih =>
      intro fuel s n hchain hfuel
      obtain ⟨hpar, hrest⟩ := hchain
      cases fuel with
      | zero => simp at hfuel
      | succ m =>
          have hfuel' : rest.length ≤ m := by
            simp at hfuel
            omega
          have hstep : recursiveDelete (m + 1) s n =
              if (getItem (deleteNodeEntries s n p) p).children.length = 0 then
                recursiveDelete m (deleteNodeEntries s n p) p
              else deleteNodeEntries s n p :=
            recursiveDelete_succ m s n p hpar
          have hspec : specFilePrune s n (p :: rest) =
              if (getItem (deleteNodeEntries s n p) p).children.length = 0 then
                specFilePrune (deleteNodeEntries s n p) p rest
              else deleteNodeEntries s n p := rfl
          have hch' : ParentChain (deleteNodeEntries s n p) p rest :=
            ParentChain_deleteNodeEntries rest s n p p hrest
          refine ⟨?_, ?_⟩
          · rw [hstep, hspec]
            by_cases hc : (getItem (deleteNodeEntries s n p) p).children.length = 0
            · rw [if_pos hc, if_pos hc]
              exact (ih m (deleteNodeEntries s n p) p hch' hfuel').1
            · rw [if_neg hc, if_neg hc]
          · intro hroot
            rw [hpar] at hroot
            exact Option.noConfusion hroot

/-- Witness for C6: deleting the only file under a sub-folder prunes the file
and the now-childless folder, and stops at the root. -/
theorem recursiveDelete_prunes_ancestors_w :
    ParentChain c6State "/ws/sub/a.test.js" ["/ws/sub", "/ws"] ∧
    (recursiveDelete 3 c6State "/ws/sub/a.test.js" =
       specFilePrune c6State "/ws/sub/a.test.js" ["/ws/sub", "/ws"] ∧
     ((getItem c6State "/ws/sub/a.test.js").parent = none →
        recursiveDelete 3 c6State "/ws/sub/a.test.js" = c6State)) := by
  have hchain : ParentChain c6State "/ws/sub/a.test.js" ["/ws/sub", "/ws"] :=
    ⟨by decide, by decide, by
      show (getItem c6State "/ws").parent = none
      decide⟩
  exact ⟨hchain, recursiveDelete_prunes_ancestors ["/ws/sub", "/ws"] 3 c6State
    "/ws/sub/a.test.js" hchain (by decide)⟩

theorem childrenDelete_byFile (s : TreeState) (pid cid : String) :
    (childrenDelete s pid cid).testItemsByFile = s.testItemsByFile := by
  unfold childrenDelete
  rw [modifyItem_byFile]

theorem childrenDelete_testData (s : TreeState) (pid cid : String) :
    (childrenDelete s pid cid).testData = s.testData := by
  unfold childrenDelete
  rw [modifyItem_testData]

theorem childrenDelete_fileItems (s : TreeState) (pid cid : String) :
    (childrenDelete s pid cid).fileItems = s.fileItems := by
  unfold childrenDelete
  rw [modifyItem_fileItems]

theorem deleteNodeEntries_byFile_mono (s : TreeState) (n pid fp : String)
    (h : alookup s.testItemsByFile fp = none) :
    alookup (deleteNodeEntries s n pid).testItemsByFile fp = none := by
  unfold deleteNodeEntries
  dsimp only
  split
  · next fp2 proj2 heq =>
      rw [alookup_aerase]
      by_cases hfp : fp2 = fp
      · rw [if_pos hfp]
      · rw [if_neg hfp, childrenDelete_byFile]
        exact h
  · next heq =>
      rw [childrenDelete_byFile]
      exact h
  · next x heq =>
      rw [childrenDelete_byFile]
      exact h

theorem deleteNodeEntries_byFile_erased (s : TreeState) (n pid fp proj : String)
    (hdata : alookup s.testData n = some (TestData.file fp proj)) :
    alookup (deleteNodeEntries s n pid).testItemsByFile fp = none := by
  have h1 : alookup (childrenDelete s pid n).testData n =
      some (TestData.file fp proj) := by
    rw [childrenDelete_testData]
    exact hdata
  unfold deleteNodeEntries
  dsimp only
  rw [h1]
  dsimp only
  rw [alookup_aerase, if_pos rfl]

theorem deleteNodeEntries_frame (s : TreeState) (n pid q : String)
    (h1 : q ≠ pid) (h2 : q ≠ n) :
    getItem? (deleteNodeEntries s n pid) q = getItem? s q ∧
    alookup (deleteNodeEntries s n pid).fileItems q = alookup s.fileItems q := by
  constructor
  · have hi : getItem? (deleteNodeEntries s n pid) q =
        getItem? (childrenDelete s pid n) q := by
      unfold deleteNodeEntries
      dsimp only
      split <;> rfl
    rw [hi]
    unfold childrenDelete
    rw [getItem?_modifyItem_ne _ _ _ _ (fun hh => h1 hh.symm)]
  · unfold deleteNodeEntries
    dsimp only
    split
    · next fp2 proj2 heq =>
        rw [alookup_aerase, if_neg (fun hh => h2 hh.symm), childrenDelete_fileItems]
    · next heq =>
        rw [childrenDelete_fileItems]
    · next x heq =>
        rw [childrenDelete_fileItems]

theorem recursiveDelete_byFile_none : ∀ (fuel : Nat) (s : TreeState) (q fp : String),
    alookup s.testItemsByFile fp = none →
    alookup (recursiveDelete fuel s q).testItemsByFile fp = none := by
  intro fuel
  induction fuel with
  | zero =>
      intro s q fp h
      exact h
  | succ m ih =>
      intro s q fp h
      cases hpq : (getItem s q).parent with
      | none =>
          rw [recursiveDelete_root _ _ _ hpq]
          exact h
      | some pid =>
          rw [recursiveDelete_succ m s q pid hpq]
          have h' : alookup (deleteNodeEntries s q pid).testItemsByFile fp = none :=
            deleteNodeEntries_byFile_mono s q pid fp h
          by_cases hc : (getItem (deleteNodeEntries s q pid) pid).children.length = 0
          · rw [if_pos hc]
            exact ih _ _ _ h'
          · rw [if_neg hc]
            exact h'

theorem recursiveDelete_frame : ∀ (anc : List String) (fuel : Nat) (s : TreeState)
    (n q : String), ParentChain s n anc → anc.length ≤ fuel → q ∉ n :: anc →
    getItem? (recursiveDelete fuel s n) q = getItem? s q ∧
    alookup (recursiveDelete fuel s n).fileItems q = alookup s.fileItems q := by
  intro anc
  induction anc with
  | nil =>
      intro fuel s n q hchain _ _
      rw [recursiveDelete_root fuel s n hchain]
      exact ⟨rfl, rfl⟩
  | cons pid rest ih =>
      intro fuel s n q hchain hfuel hq
      obtain ⟨hpar, hrest⟩ := hchain
      cases fuel with
      | zero => simp at hfuel
      | succ m =>
          have hfuel' : rest.length ≤ m := by
            simp at hfuel
            omega
          have hq1 : q ≠ n := fun h => hq (by rw [h]; exact List.mem_cons_self _ _)
          have hq2 : q ≠ pid := fun h => hq (by
            rw [h]
            exact List.mem_cons_of_mem _ (List.mem_cons_self _ _))
          have hq3 : q ∉ pid :: rest := fun h => hq (List.mem_cons_of_mem _ h)
          have hdel := deleteNodeEntries_frame s n pid q hq2 hq1
          have hch' : ParentChain (deleteNodeEntries s n pid) pid rest :=
            ParentChain_deleteNodeEntries rest s n pid pid hrest
          rw [recursiveDelete_succ m s n pid hpar]
          by_cases hc : (getItem (deleteNodeEntries s n pid) pid).children.length = 0
          · rw [if_pos hc]
            have hrec := ih m (deleteNodeEntries s n pid) pid q hch' hfuel' hq3
            exact ⟨hrec.1.trans hdel.1, hrec.2.trans hdel.2⟩
          · rw [if_neg hc]
            exact hdel

/-- C10: deleting a file node erases the whole by-path multimap entry for its
normalized path — `getFileTestItems` returns `[]` immediately afterwards —
while a same-path file node of another project, being off the deleted
ancestor chain, keeps its item and its per-(file, project) map entry. -/
theorem fileDelete_clears_byPath (fuel : Nat) (s : TreeState)
    (fsPath proj n pid otherId : String) (anc : List String)
    (hchain : ParentChain s n (pid :: anc))
    (hfuel : anc.length + 1 ≤ fuel)
    (hdata : alookup s.testData n = some (TestData.file (normalize fsPath) proj))
    (hother : otherId ∉ n :: pid :: anc) :
    getFileTestItems (recursiveDelete fuel s n) fsPath = [] ∧
    alookup (recursiveDelete fuel s n).fileItems otherId =
      alookup s.fileItems otherId ∧
    getItem? (recursiveDelete fuel s n) otherId = getItem? s otherId := by
  have hfr := recursiveDelete_frame (pid :: anc) fuel s n otherId hchain
    (by simpa using hfuel) hother
  refine ⟨?_, hfr.2, hfr.1⟩
  obtain ⟨hpar, hrest⟩ := hchain
  cases fuel with
  | zero => exact absurd hfuel (by omega)
  | succ m =>
      rw [recursiveDelete_succ m s n pid hpar]
      have hS' : alookup (deleteNodeEntries s n pid).testItemsByFile
          (normalize fsPath) = none :=
        deleteNodeEntries_byFile_erased s n pid _ proj hdata
      unfold getFileTestItems
      by_cases hc : (getItem (deleteNodeEntries s n pid) pid).children.length = 0
      · rw [if_pos hc,
            recursiveDelete_byFile_none m (deleteNodeEntries s n pid) pid
              (normalize fsPath) hS']
        rfl
      · rw [if_neg hc, hS']
        rfl

/-- Witness for C10: deleting the project-A file for `/ws/sub/a.test.js`
empties `getFileTestItems` for that path while project `p2`'s node survives. -/
theorem fileDelete_clears_byPath_w :
    ParentChain c10State "/ws/sub/a.test.js" ["/ws/sub", "/ws"] ∧
    (getFileTestItems (recursiveDelete 3 c10State "/ws/sub/a.test.js")
       "/ws/sub/a.test.js" = [] ∧
     alookup (recursiveDelete 3 c10State "/ws/sub/a.test.js").fileItems
         "/ws/sub/a.test.jsp2" =
       alookup c10State.fileItems "/ws/sub/a.test.jsp2" ∧
     getItem? (recursiveDelete 3 c10State "/ws/sub/a.test.js")
         "/ws/sub/a.test.jsp2" =
       getItem? c10State "/ws/sub/a.test.jsp2") := by
  have hchain : ParentChain c10State "/ws/sub/a.test.js" ["/ws/sub", "/ws"] :=
    ⟨by decide, by decide, by
      show (getItem c10State "/ws").parent = none
      decide⟩
  exact ⟨hchain,
    fileDelete_clears_byPath 3 c10State "/ws/sub/a.test.js" ""
      "/ws/sub/a.test.js" "/ws/sub" "/ws/sub/a.test.jsp2" ["/ws"] hchain
      (by decide) (by decide) (by decide)⟩

/-- Witness for C2 at the initial runner state. -/
theorem activeRun_exclusive_w :
    (OpenRuns initialRunnerState).length ≤ 1 ∧
    (∀ s', RStep initialRunnerState s' → s'.created ≠ initialRunnerState.created →
        (∀ r ∈ initialRunnerState.created, r ∈ s'.ended) ∧
        (initialRunnerState.testRun = none ∨
         ∃ d, Cont.startResume d ∈ initialRunnerState.pending ∧
              deferReady initialRunnerState d)) :=
  activeRun_exclusive initialRunnerState RReachable.init

end VV
